import Mathlib

/-!
# Frame pipeline and connection manager of the ESP32 camera firmware

A shallow embedding of

* `Esp32Camera::Explain` (`main/boards/common/esp32_camera.cc`): the caller
  thread (the chunked upload sender) and the encoder thread it spawns, which
  talk through a bounded FreeRTOS queue of `JpegChunk`s;
* `CameraConnection` (`main/camera_connection.cc`): `Connect` and
  `ConnectLoop` as functions of the outside world, and the manager as a
  system of three threads (`ConnectLoop`, `SendHeartbeat`, a caller of
  `Stop`) in which every read and write of a shared flag is a step of its
  own;
* `stream_handler` (`main/http_server.cc`): the multipart frames it sends.

The two threads of `Explain` are modelled as an interleaving transition
system: `encoderStep` is one step of the encoder thread, `senderStep` one
step of the caller thread, and a step of the system is a step of either.
A blocking call (`xQueueSend` on a full queue, `xQueueReceive` on an empty
queue, `std::thread::join` on a running thread) is a step that is not
enabled.  Everything the code obtains from outside the repository (the JPEG
encoder, the HTTP client, queue creation) is a field of `Env`.
-/


namespace Esp32Camera

/-! ## Data model -/

/-- A byte buffer. -/
abbrev Bytes := List Nat

/-- The bytes of a `std::string`, one number per `char`. -/
def strBytes (s : String) : Bytes := s.toList.map Char.toNat

/-- The range of `size_t` on the 32-bit target. -/
def SIZE_T_RANGE : Nat := 2 ^ 32

/-- The chunk type `struct JpegChunk { uint8_t* data; size_t len; }`; `data = none`
is `nullptr`, the end-of-stream sentinel. -/
structure JpegChunk where
  data : Option Bytes
  len : Nat
deriving DecidableEq, Repr

/-- The camera frame buffer `camera_fb_t` (the fields the firmware reads). -/
structure camera_fb_t where
  buf : Bytes
  len : Nat
  width : Nat
  height : Nat
  format : Nat
deriving DecidableEq, Repr

/-- The fields of `class Esp32Camera` that `Explain` reads. -/
structure Camera where
  fb_ : Option camera_fb_t
  explain_url_ : String
  explain_token_ : String
deriving DecidableEq, Repr

/-- What `Explain` obtains from outside the repository during one call. -/
structure Env where
  /-- whether `xQueueCreate(40, sizeof(JpegChunk))` returns a queue -/
  xQueueCreate_ok : Bool
  /-- the data the encoder `frame2jpg_cb(fb_, 50, cb, arg)` hands to `cb`, call by call -/
  frame2jpg_cb : Option camera_fb_t → List Bytes
  /-- value of `SystemInfo::GetMacAddress()` -/
  GetMacAddress : String
  /-- value of `Board::GetInstance().GetUuid()` -/
  GetUuid : String
  /-- result of `http->Open("POST", explain_url_)` -/
  Open : Bool
  /-- result of the i-th call of `http->Write` (0-based) -/
  Write : Nat → Bool
  /-- value of `http->GetStatusCode()` -/
  GetStatusCode : Int
  /-- value of `http->ReadAll()` -/
  ReadAll : String

/-- One call `Explain(question)` on a camera in an environment. -/
structure Call where
  env : Env
  cam : Camera
  question : String

/-- Length given to `xQueueCreate` in `Explain`. -/
def JPEG_QUEUE_LENGTH : Nat := 40

/-- The call `heap_caps_aligned_alloc(16, len, MALLOC_CAP_SPIRAM)` followed by
`memcpy(chunk.data, data, len)`: the allocator returns `nullptr` for a request
of zero bytes; a request of a positive size is taken to succeed and the buffer
receives the copy. -/
def allocCopy (data : Bytes) : Option Bytes :=
  if data.length = 0 then none else some data

/-- The `JpegChunk` the encoder callback builds from `(data, len)`. -/
def mkChunk (data : Bytes) : JpegChunk :=
  { data := allocCopy data, len := data.length }

def boundary : String := "----ESP32_CAMERA_BOUNDARY"

def MSG_NOT_SET : String :=
  "\x7b\"success\": false, \"message\": \"Image explain URL or token is not set\"\x7d"

def MSG_QUEUE_FAILED : String :=
  "\x7b\"success\": false, \"message\": \"Failed to create JPEG queue\"\x7d"

def MSG_CONNECT_FAILED : String :=
  "\x7b\"success\": false, \"message\": \"Failed to connect to explain URL\"\x7d"

def MSG_UPLOAD_FAILED : String :=
  "\x7b\"success\": false, \"message\": \"Failed to upload photo\"\x7d"

/-- The `question` form field written first. -/
def question_field (question : String) : String :=
  "--" ++ boundary ++ "\r\n"
    ++ "Content-Disposition: form-data; name=\"question\"\r\n"
    ++ "\r\n"
    ++ (question ++ "\r\n")

/-- The header of the `file` part. -/
def file_header : String :=
  "--" ++ boundary ++ "\r\n"
    ++ "Content-Disposition: form-data; name=\"file\"; filename=\"camera.jpg\"\r\n"
    ++ "Content-Type: image/jpeg\r\n"
    ++ "\r\n"

/-- The closing boundary. -/
def multipart_footer : String := "\r\n--" ++ boundary ++ "--\r\n"

/-- The request headers set before `Open`. -/
def requestHeaders (c : Call) : List (String × String) :=
  [("Device-Id", c.env.GetMacAddress), ("Client-Id", c.env.GetUuid)]
    ++ (if c.cam.explain_token_ = "" then []
        else [("Authorization", "Bearer " ++ c.cam.explain_token_)])
    ++ [("Content-Type", "multipart/form-data; boundary=" ++ boundary),
        ("Transfer-Encoding", "chunked")]

/-! ## The two threads of `Explain` -/

/-- Where the caller thread stands in `Explain`. -/
inductive Pc
  /-- at the top of `Explain` -/
  | entry
  /-- queue created and encoder spawned; about to set headers and `Open` -/
  | connect
  /-- after `Open` failed; at `encoder_thread_.join()` -/
  | failJoin
  /-- after `Open` failed and the encoder was joined; in the `xQueueReceive` loop that
  clears the queue -/
  | failDrain
  /-- preamble written; in the `xQueueReceive` loop that forwards chunks -/
  | recv
  /-- sentinel seen; at `encoder_thread_.join()` -/
  | okJoin
  /-- after `Explain` has returned `r` -/
  | returned (r : String)
  /-- the call has stopped at line 353, which reads `fb_->width` and
  `fb_->height` through a null `fb_`: `Explain` does not return -/
  | faulted
deriving DecidableEq, Repr

/-- State of one call of `Explain`: the caller's position, the queue, what is
left of the encoder thread, and a record of the calls made so far. -/
structure ExplainState where
  pc : Pc
  /-- contents of `jpeg_queue`, oldest first -/
  jpeg_queue : List JpegChunk
  /-- callbacks `frame2jpg_cb` has not made yet; `[]` once the thread function has returned -/
  encoderPending : List Bytes
  queueCreated : Bool
  queueDeleted : Bool
  encoderSpawned : Bool
  encoderJoined : Bool
  /-- headers given to `SetHeader`, in order -/
  headers : List (String × String)
  requestOpened : Bool
  /-- every `http->Write(buf, size)` so far with the result the client gave -/
  writes : List (Bytes × Bool)
  /-- every chunk `xQueueReceive` has handed to the caller, in order -/
  received : List JpegChunk
  /-- every buffer given to `heap_caps_free`, in order -/
  freed : List Bytes
  total_sent : Nat
deriving DecidableEq, Repr

def ExplainState.initial : ExplainState :=
  { pc := .entry, jpeg_queue := [], encoderPending := [], queueCreated := false,
    queueDeleted := false, encoderSpawned := false, encoderJoined := false,
    headers := [], requestOpened := false, writes := [], received := [], freed := [],
    total_sent := 0 }

/-- One call `http->Write(buf, size)`; the result is recorded and, as in the
source, not looked at. -/
def httpWrite (env : Env) (s : ExplainState) (buf : Bytes) (size : Nat) : ExplainState :=
  { s with writes := s.writes ++ [(buf.take size, env.Write s.writes.length)] }

/-- One step of the encoder thread, the lambda given to `std::thread` in
`Explain` (lines 252-263): the next callback of `frame2jpg_cb` allocates a
chunk, copies the data and `xQueueSend`s it with `portMAX_DELAY`, which blocks
while the queue holds `N` items.  The thread function ends when `frame2jpg_cb`
returns; it sends nothing of its own and does not look at the encoder's result. -/
def encoderStep (N : Nat) (s : ExplainState) : Option ExplainState :=
  match s.encoderPending with
  | [] => none
  | data :: rest =>
    if s.jpeg_queue.length < N then
      some { s with jpeg_queue := s.jpeg_queue ++ [mkChunk data], encoderPending := rest }
    else none

/-- One step of the caller thread, the body of `Esp32Camera::Explain`
(lines 239-355).  Statements that do not touch the queue or the encoder thread
are grouped with the blocking call that precedes them.  `xQueueReceive` is
called with `portMAX_DELAY`, so it waits until an item arrives; the branch for
a failed receive is never taken.  On the path with status 200 the log line
before `return result` reads `fb_->width` and `fb_->height` (line 353): with
`fb_` null the call faults there instead of returning. -/
def senderStep (c : Call) (s : ExplainState) : Option ExplainState :=
  match s.pc with
  | .entry =>
    if c.cam.explain_url_ = "" then
      some { s with pc := .returned MSG_NOT_SET }
    else if c.env.xQueueCreate_ok = false then
      some { s with pc := .returned MSG_QUEUE_FAILED }
    else
      some { s with pc := .connect, queueCreated := true, encoderSpawned := true,
                    encoderPending := c.env.frame2jpg_cb c.cam.fb_ }
  | .connect =>
    let s1 := { s with headers := requestHeaders c }
    if c.env.Open = false then
      some { s1 with pc := .failJoin }
    else
      let s2 := { s1 with requestOpened := true }
      let q := strBytes (question_field c.question)
      let s3 := httpWrite c.env s2 q q.length
      let h := strBytes file_header
      let s4 := httpWrite c.env s3 h h.length
      some { s4 with pc := .recv }
  | .failJoin =>
    if s.encoderPending = [] then
      some { s with pc := .failDrain, encoderJoined := true }
    else none
  | .failDrain =>
    match s.jpeg_queue with
    | [] => none
    | chunk :: q =>
      let s1 := { s with jpeg_queue := q, received := s.received ++ [chunk] }
      match chunk.data with
      | some buf => some { s1 with freed := s1.freed ++ [buf] }
      | none => some { s1 with queueDeleted := true, pc := .returned MSG_CONNECT_FAILED }
  | .recv =>
    match s.jpeg_queue with
    | [] => none
    | chunk :: q =>
      let s1 := { s with jpeg_queue := q, received := s.received ++ [chunk] }
      match chunk.data with
      | none => some { s1 with pc := .okJoin }
      | some buf =>
        let s2 := httpWrite c.env s1 buf chunk.len
        some { s2 with total_sent := (s2.total_sent + chunk.len) % SIZE_T_RANGE,
                       freed := s2.freed ++ [buf] }
  | .okJoin =>
    if s.encoderPending = [] then
      let s1 := { s with encoderJoined := true, queueDeleted := true }
      let f := strBytes multipart_footer
      let s2 := httpWrite c.env s1 f f.length
      let s3 := httpWrite c.env s2 [] 0
      if c.env.GetStatusCode ≠ 200 then
        some { s3 with pc := .returned MSG_UPLOAD_FAILED }
      else
        match c.cam.fb_ with
        | some _ => some { s3 with pc := .returned c.env.ReadAll }
        | none => some { s3 with pc := .faulted }
    else none
  | .returned _ => none
  | .faulted => none

/-- One step of the system: either thread moves. -/
def Step (N : Nat) (c : Call) (s t : ExplainState) : Prop :=
  encoderStep N s = some t ∨ senderStep c s = some t

/-- States some interleaving of the two threads reaches. -/
inductive Reach (N : Nat) (c : Call) : ExplainState → Prop
  | init : Reach N c ExplainState.initial
  | step {s t : ExplainState} : Reach N c s → Step N c s t → Reach N c t

/-- Executions of exactly `n` steps. -/
inductive Steps (N : Nat) (c : Call) : Nat → ExplainState → ExplainState → Prop
  | refl (s : ExplainState) : Steps N c 0 s s
  | tail {n : Nat} {s t u : ExplainState} : Steps N c n s t → Step N c t u → Steps N c (n + 1) s u

/-- Whether `Explain` has returned. -/
def ExplainState.isReturned (s : ExplainState) : Bool :=
  match s.pc with
  | .returned _ => true
  | _ => false

/-- A scheduler that runs the caller thread whenever it can move and the
encoder thread otherwise, for at most `fuel` steps. -/
def exec (N : Nat) (c : Call) : Nat → ExplainState → ExplainState
  | 0, s => s
  | fuel + 1, s =>
    match senderStep c s with
    | some t => exec N c fuel t
    | none =>
      match encoderStep N s with
      | some t => exec N c fuel t
      | none => s

/-- Bound on the number of steps of any execution of a call. -/
def stepBound (c : Call) : Nat := 2 * (c.env.frame2jpg_cb c.cam.fb_).length + 6

/-- Total correctness of a call under every interleaving: every execution is
finite, a state in which `Explain` has not returned can always take a step
(no deadlock), and every state in which it has returned satisfies `Q`. -/
structure AlwaysReturns (N : Nat) (c : Call) (Q : ExplainState → Prop) : Prop where
  finite : ∀ n s, Steps N c n ExplainState.initial s → n ≤ stepBound c
  progress : ∀ s, Reach N c s → s.isReturned = false → ∃ t, Step N c s t
  post : ∀ s, Reach N c s → s.isReturned = true → Q s

/-! ## Auxiliary definitions: what is written, shapes of the reachable states, examples -/

/-- The callbacks the encoder makes during a call. -/
def Call.callbacks (c : Call) : List Bytes := c.env.frame2jpg_cb c.cam.fb_

/-- The two parts written before the JPEG data. -/
def preamble (c : Call) : List Bytes :=
  [strBytes (question_field c.question), strBytes file_header]

/-- The two writes that end the body. -/
def trailer : List Bytes := [strBytes multipart_footer, []]

/-- The record `httpWrite` builds when the buffers `bufs` are written in order. -/
def writeLog (env : Env) (bufs : List Bytes) : List (Bytes × Bool) :=
  bufs.foldl (fun log b => log ++ [(b, env.Write log.length)]) []

/-- Sum of the lengths of a list of buffers. -/
def sumLen (a : List Bytes) : Nat := (a.map List.length).sum

/-- Measure that every step of either thread decreases. -/
def measure (c : Call) (s : ExplainState) : Nat :=
  2 * s.encoderPending.length + s.jpeg_queue.length +
    (match s.pc with
     | .entry => 2 * c.callbacks.length + 6
     | .connect => 5
     | .failJoin => 4
     | .failDrain => 3
     | .recv => 3
     | .okJoin => 2
     | .returned _ => 0
     | .faulted => 0)

/-- Queue created, encoder spawned, `b` enqueued, `pend` still to come. -/
def stConnect (b pend : List Bytes) : ExplainState :=
  { pc := .connect, jpeg_queue := b.map mkChunk, encoderPending := pend, queueCreated := true,
    queueDeleted := false, encoderSpawned := true, encoderJoined := false,
    headers := [], requestOpened := false, writes := [], received := [], freed := [],
    total_sent := 0 }

/-- After `Open` failed: the caller waits in `join`. -/
def stFailJoin (c : Call) (b pend : List Bytes) : ExplainState :=
  { pc := .failJoin, jpeg_queue := b.map mkChunk, encoderPending := pend, queueCreated := true,
    queueDeleted := false, encoderSpawned := true, encoderJoined := false,
    headers := requestHeaders c, requestOpened := false, writes := [], received := [],
    freed := [], total_sent := 0 }

/-- After `Open` failed and the encoder was joined: `a` received and freed, `b` still queued. -/
def stFailDrain (c : Call) (a b : List Bytes) : ExplainState :=
  { pc := .failDrain, jpeg_queue := b.map mkChunk, encoderPending := [], queueCreated := true,
    queueDeleted := false, encoderSpawned := true, encoderJoined := true,
    headers := requestHeaders c, requestOpened := false, writes := [],
    received := a.map mkChunk, freed := a, total_sent := 0 }

/-- After `Open` failed: the sentinel was received after `a`, the queue deleted with `b` in it. -/
def stFailReturned (c : Call) (a b : List Bytes) : ExplainState :=
  { pc := .returned MSG_CONNECT_FAILED, jpeg_queue := b.map mkChunk, encoderPending := [],
    queueCreated := true, queueDeleted := true, encoderSpawned := true, encoderJoined := true,
    headers := requestHeaders c, requestOpened := false, writes := [],
    received := (a ++ [[]]).map mkChunk, freed := a, total_sent := 0 }

/-- Request open, `a` forwarded, `b` queued, `pend` still to come. -/
def stRecv (c : Call) (a b pend : List Bytes) : ExplainState :=
  { pc := .recv, jpeg_queue := b.map mkChunk, encoderPending := pend, queueCreated := true,
    queueDeleted := false, encoderSpawned := true, encoderJoined := false,
    headers := requestHeaders c, requestOpened := true,
    writes := writeLog c.env (preamble c ++ a), received := a.map mkChunk, freed := a,
    total_sent := sumLen a % SIZE_T_RANGE }

/-- Sentinel received after `a`; caller waits in `join`. -/
def stOkJoin (c : Call) (a b pend : List Bytes) : ExplainState :=
  { pc := .okJoin, jpeg_queue := b.map mkChunk, encoderPending := pend, queueCreated := true,
    queueDeleted := false, encoderSpawned := true, encoderJoined := false,
    headers := requestHeaders c, requestOpened := true,
    writes := writeLog c.env (preamble c ++ a), received := (a ++ [[]]).map mkChunk, freed := a,
    total_sent := sumLen a % SIZE_T_RANGE }

/-- The result after the status check. -/
def uploadResult (env : Env) : String :=
  if env.GetStatusCode ≠ 200 then MSG_UPLOAD_FAILED else env.ReadAll

/-- Where the caller ends on the path on which the request opened: returned
with the result of the status check, or faulted at the read of the absent
frame when the status is 200. -/
def okPc (c : Call) : Pc :=
  if c.env.GetStatusCode ≠ 200 then .returned MSG_UPLOAD_FAILED
  else
    match c.cam.fb_ with
    | some _ => .returned c.env.ReadAll
    | none => .faulted

/-- The end of the path on which the request opened. -/
def stOkReturned (c : Call) (a b : List Bytes) : ExplainState :=
  { pc := okPc c, jpeg_queue := b.map mkChunk, encoderPending := [],
    queueCreated := true, queueDeleted := true, encoderSpawned := true, encoderJoined := true,
    headers := requestHeaders c, requestOpened := true,
    writes := writeLog c.env (preamble c ++ a ++ trailer), received := (a ++ [[]]).map mkChunk,
    freed := a, total_sent := sumLen a % SIZE_T_RANGE }

/-- The reachable states, shape by shape. -/
inductive Inv (N : Nat) (c : Call) : ExplainState → Prop
  | entry : Inv N c ExplainState.initial
  | notSet : c.cam.explain_url_ = "" →
      Inv N c { ExplainState.initial with pc := .returned MSG_NOT_SET }
  | queueFailed : c.cam.explain_url_ ≠ "" → c.env.xQueueCreate_ok = false →
      Inv N c { ExplainState.initial with pc := .returned MSG_QUEUE_FAILED }
  | connect (b pend : List Bytes) : c.cam.explain_url_ ≠ "" → c.env.xQueueCreate_ok = true →
      c.callbacks = b ++ pend → b.length ≤ N → Inv N c (stConnect b pend)
  | failJoin (b pend : List Bytes) : c.cam.explain_url_ ≠ "" → c.env.xQueueCreate_ok = true →
      c.env.Open = false → c.callbacks = b ++ pend → b.length ≤ N → Inv N c (stFailJoin c b pend)
  | failDrain (a b : List Bytes) : c.cam.explain_url_ ≠ "" → c.env.xQueueCreate_ok = true →
      c.env.Open = false → c.callbacks = a ++ b → (∀ d ∈ a, d ≠ []) → c.callbacks.length ≤ N →
      Inv N c (stFailDrain c a b)
  | failReturned (a b : List Bytes) : c.cam.explain_url_ ≠ "" → c.env.xQueueCreate_ok = true →
      c.env.Open = false → c.callbacks = a ++ [] :: b → (∀ d ∈ a, d ≠ []) →
      c.callbacks.length ≤ N → Inv N c (stFailReturned c a b)
  | recv (a b pend : List Bytes) : c.cam.explain_url_ ≠ "" → c.env.xQueueCreate_ok = true →
      c.env.Open = true → c.callbacks = a ++ b ++ pend → (∀ d ∈ a, d ≠ []) → b.length ≤ N →
      Inv N c (stRecv c a b pend)
  | okJoin (a b pend : List Bytes) : c.cam.explain_url_ ≠ "" → c.env.xQueueCreate_ok = true →
      c.env.Open = true → c.callbacks = a ++ [] :: (b ++ pend) → (∀ d ∈ a, d ≠ []) →
      b.length ≤ N → Inv N c (stOkJoin c a b pend)
  | okReturned (a b : List Bytes) : c.cam.explain_url_ ≠ "" → c.env.xQueueCreate_ok = true →
      c.env.Open = true → c.callbacks = a ++ [] :: b → (∀ d ∈ a, d ≠ []) → b.length ≤ N →
      Inv N c (stOkReturned c a b)

/-- Total of the `len` fields of a list of chunks. -/
def chunkBytes (l : List JpegChunk) : Nat := (l.map JpegChunk.len).sum

/-- An environment in which everything succeeds: the encoder produces two
data chunks and the final empty callback, the request opens, the server answers 200. -/
def exampleEnv : Env :=
  { xQueueCreate_ok := true
    frame2jpg_cb := fun _ => [[255, 216], [255, 217], []]
    GetMacAddress := "00:11:22:33:44:55"
    GetUuid := "uuid"
    Open := true
    Write := fun _ => true
    GetStatusCode := 200
    ReadAll := "\x7b\"success\": true, \"result\": \"a cup\"\x7d" }

def exampleCamera : Camera :=
  { fb_ := some { buf := [0, 0], len := 2, width := 1, height := 1, format := 0 }
    explain_url_ := "http://host/explain"
    explain_token_ := "token" }

def exampleCall : Call :=
  { env := exampleEnv, cam := exampleCamera, question := "what is this?" }

/-- Five data chunks, of 1 to 5 bytes. -/
def fiveChunks : List Bytes := [[1], [2, 2], [3, 3, 3], [4, 4, 4, 4], [5, 5, 5, 5, 5]]

/-- The example call with an encoder that produces `fiveChunks` and the sentinel. -/
def fiveChunkCall : Call :=
  { exampleCall with env := { exampleEnv with frame2jpg_cb := fun _ => fiveChunks ++ [[]] } }

/-- Forty one-byte data chunks. -/
def fortyChunks : List Bytes := List.replicate 40 [255]

/-- A call whose request does not open and whose encoder produces forty data
chunks and the sentinel: 41 items for a queue of 40. -/
def openFailsCall : Call :=
  { exampleCall with
    env := { exampleEnv with Open := false, frame2jpg_cb := fun _ => fortyChunks ++ [[]] } }

/-- A call whose request opens and whose encoder fails before it makes any callback. -/
def encoderFailsCall : Call :=
  { exampleCall with env := { exampleEnv with frame2jpg_cb := fun _ => [] } }

/-- The example call with a client whose third write (the first data chunk) fails. -/
def writeFailsCall : Call :=
  { exampleCall with env := { exampleEnv with Write := fun i => decide (i ≠ 2) } }

/-- The example call with a server that answers 500. -/
def serverErrorCall : Call :=
  { exampleCall with env := { exampleEnv with GetStatusCode := 500 } }

/-- The example call on a camera whose frame buffer is absent, with an encoder
that produces its chunks all the same. -/
def frameLostCall : Call :=
  { exampleCall with cam := { exampleCamera with fb_ := none } }

/-! ## Calls on a camera, one after the other -/

/-- The example call on a camera without a token. -/
def noTokenCall : Call :=
  { exampleCall with cam := { exampleCamera with explain_token_ := "" } }

/-- The example call on a camera whose frame buffer is absent; the encoder,
given no frame, makes no callback. -/
def noFrameCall : Call :=
  { env := { exampleEnv with
             frame2jpg_cb := fun fb =>
               match fb with
               | none => []
               | some _ => [[255, 216], [255, 217], []] }
    cam := { exampleCamera with fb_ := none }
    question := "what is this?" }

/-- The camera object between calls: the fields `Explain` reads, whether
`encoder_thread_` is joinable, and two counters. -/
structure CameraObject where
  cam : Camera
  encoder_thread_joinable : Bool
  /-- number of times a new thread was given to `encoder_thread_` while the
  previous one was still joinable -/
  overlappingSpawns : Nat
  /-- number of frames `Capture` has given back with `esp_camera_fb_return` -/
  framesReturned : Nat
deriving DecidableEq, Repr

/-- A camera on which nothing has been called yet. -/
def CameraObject.new (url token : String) : CameraObject :=
  { cam := { fb_ := none, explain_url_ := url, explain_token_ := token },
    encoder_thread_joinable := false, overlappingSpawns := 0, framesReturned := 0 }

/-- The method `Esp32Camera::Capture` (lines 113-155) as far as `fb_` and
`encoder_thread_` go: it joins a joinable encoder thread, then twice gives back
the frame it holds and gets a new one; `first` and `second` are what
`esp_camera_fb_get()` yields.  The preview that follows changes neither. -/
def Capture (first second : Option camera_fb_t) (o : CameraObject) : CameraObject × Bool :=
  let o1 := { o with encoder_thread_joinable := false }
  let o2 := if o1.cam.fb_.isSome then { o1 with framesReturned := o1.framesReturned + 1 } else o1
  let o3 := { o2 with cam := { o2.cam with fb_ := first } }
  if first.isNone then (o3, false)
  else
    let o4 := { o3 with framesReturned := o3.framesReturned + 1 }
    let o5 := { o4 with cam := { o4.cam with fb_ := second } }
    if second.isNone then (o5, false) else (o5, true)

/-- The camera object after a call of `Explain` that was entered in `o` and
returned in the state `s`: `encoder_thread_` is joinable if the call started a
thread and did not join it, or started none and found it joinable. -/
def afterExplain (o : CameraObject) (s : ExplainState) : CameraObject :=
  { o with
    encoder_thread_joinable :=
      if s.encoderSpawned then !s.encoderJoined else o.encoder_thread_joinable
    overlappingSpawns :=
      o.overlappingSpawns + (if s.encoderSpawned && o.encoder_thread_joinable then 1 else 0) }

/-- A frame of two bytes. -/
def exampleFrame : camera_fb_t := { buf := [0, 0], len := 2, width := 1, height := 1, format := 0 }

/-- A new camera after one `Capture` that got two frames. -/
def capturedCamera : CameraObject :=
  (Capture (some exampleFrame) (some exampleFrame)
    (CameraObject.new "http://host/explain" "token")).1

/-- The state in which `Explain` returns on `capturedCamera` in the example environment. -/
def explainedState : ExplainState :=
  exec JPEG_QUEUE_LENGTH
    { env := exampleEnv, cam := capturedCamera.cam, question := "what is this?" } 20
    ExplainState.initial

/-- The camera after that `Capture` and that `Explain`. -/
def usedCamera : CameraObject := afterExplain capturedCamera explainedState

/-- One call on the camera: a `Capture`, or an `Explain` that returns, in any
environment and under any interleaving with its encoder thread. -/
inductive CallStep : CameraObject → CameraObject → Prop
  | capture (o : CameraObject) (first second : Option camera_fb_t) :
      CallStep o (Capture first second o).1
  | explain (o : CameraObject) (env : Env) (question : String) (s : ExplainState) :
      Reach JPEG_QUEUE_LENGTH { env := env, cam := o.cam, question := question } s →
      s.isReturned = true → CallStep o (afterExplain o s)

/-- Camera objects that a sequence of calls reaches from `o0`. -/
inductive CallsReach (o0 : CameraObject) : CameraObject → Prop
  | init : CallsReach o0 o0
  | step {o p : CameraObject} : CallsReach o0 o → CallStep o p → CallsReach o0 p

end Esp32Camera

namespace CameraConnection

/-! ## The connection manager -/

/-- The session object `WebsocketProtocol` as far as the manager observes it. -/
structure WebsocketProtocol where
  /-- what `IsAudioChannelOpened()` returns -/
  audioChannelOpened : Bool
deriving DecidableEq, Repr

/-- How a call of `OpenAudioChannel()` inside `Connect` ends. -/
inductive OpenResult
  /-- returns `true`, after the opened callback has run -/
  | opened
  /-- returns `false` -/
  | failed
  /-- throws a `std::exception` -/
  | threw
deriving DecidableEq, Repr

/-- The fields of `class CameraConnection`, and a record of what its
supervising loop has done. -/
structure Manager where
  websocket_protocol_ : Option WebsocketProtocol
  should_connect_ : Bool
  is_connected_ : Bool
  connection_thread_joinable : Bool
  heartbeat_thread_joinable : Bool
  server_url_ : String
  device_token_ : String
  protocol_version_ : Int
  reconnect_interval_seconds_ : Int
  max_reconnect_attempts_ : Int
  current_reconnect_attempts_ : Int
  heartbeat_interval_seconds_ : Int
  /-- whether a callback is registered in `on_connected_` -/
  on_connected_ : Bool
  /-- reading of the steady clock stored by the last successful connect -/
  last_connection_time_ : Option Nat
  /-- number of calls of `Connect()` so far -/
  connectCalls : Nat
  /-- number of invocations of `on_connected_` so far -/
  connectedCallbacks : Nat
  /-- number of heartbeat threads started so far -/
  heartbeatStarts : Nat
  /-- durations, in seconds, of the `sleep_for` calls of the loop, in order -/
  sleeps : List Int
deriving DecidableEq, Repr

/-- The constructor `CameraConnection::CameraConnection()`. -/
def Manager.new : Manager :=
  { websocket_protocol_ := none, should_connect_ := false, is_connected_ := false,
    connection_thread_joinable := false, heartbeat_thread_joinable := false,
    server_url_ := "", device_token_ := "", protocol_version_ := 3,
    reconnect_interval_seconds_ := 5, max_reconnect_attempts_ := 10,
    current_reconnect_attempts_ := 0, heartbeat_interval_seconds_ := 30,
    on_connected_ := false, last_connection_time_ := none, connectCalls := 0,
    connectedCallbacks := 0, heartbeatStarts := 0, sleeps := [] }

/-- The `websocket` settings read by `Start`. -/
structure Settings where
  url : String
  token : String
  version : Int

/-- What the supervising loop obtains from outside: the outcome of the i-th
`OpenAudioChannel()` and the steady clock at that moment. -/
structure World where
  openAudioChannel : Nat → OpenResult
  now : Nat → Nat
  /-- whether `CloseAudioChannel()` on an open session runs the callback given
  to `OnAudioChannelClosed` before it returns -/
  closeReportsClosure : Bool

/-- The method `CameraConnection::IsConnected`. -/
def IsConnected (m : Manager) : Bool :=
  m.is_connected_ &&
    (match m.websocket_protocol_ with
     | some ws => ws.audioChannelOpened
     | none => false)

/-- The method `CameraConnection::Start`, up to the spawn of the thread that runs `ConnectLoop`. -/
def Start (settings : Settings) (m : Manager) : Manager :=
  let m1 := { m with server_url_ := settings.url, device_token_ := settings.token,
                     protocol_version_ :=
                       if settings.version ≠ 0 then settings.version else m.protocol_version_ }
  if m1.server_url_ = "" then m1
  else { m1 with should_connect_ := true, current_reconnect_attempts_ := 0,
                 connection_thread_joinable := true }

/-- The method `CameraConnection::Connect`: a new session replaces the old one and
`OpenAudioChannel()` is called on it; when that returns `false` or throws, the
session is reset and the result is `false`. -/
def Connect (w : World) (m : Manager) : Manager × Bool :=
  let m1 := { m with websocket_protocol_ := some { audioChannelOpened := false },
                     connectCalls := m.connectCalls + 1 }
  match w.openAudioChannel m.connectCalls with
  | .opened =>
    ({ m1 with websocket_protocol_ := some { audioChannelOpened := true },
               is_connected_ := true }, true)
  | .failed => ({ m1 with websocket_protocol_ := none }, false)
  | .threw => ({ m1 with websocket_protocol_ := none }, false)

/-- The method `CameraConnection::ConnectLoop`, one `while` iteration per unit of fuel;
`none` means the fuel ran out before the loop ended, `some m` that the loop
ended in `m`.  The join of an earlier heartbeat thread is taken to complete. -/
def ConnectLoop (w : World) : Nat → Manager → Option Manager
  | 0, _ => none
  | fuel + 1, m =>
    if m.should_connect_ = false then some m
    else if IsConnected m then
      ConnectLoop w fuel { m with sleeps := m.sleeps ++ [1] }
    else
      match Connect w m with
      | (m1, true) =>
        let m2 := { m1 with current_reconnect_attempts_ := 0,
                            last_connection_time_ := some (w.now m.connectCalls) }
        let m3 := if m2.on_connected_ then
                    { m2 with connectedCallbacks := m2.connectedCallbacks + 1 }
                  else m2
        ConnectLoop w fuel { m3 with heartbeat_thread_joinable := true,
                                     heartbeatStarts := m3.heartbeatStarts + 1 }
      | (m1, false) =>
        let m2 := { m1 with current_reconnect_attempts_ := m1.current_reconnect_attempts_ + 1 }
        if m2.current_reconnect_attempts_ ≥ m2.max_reconnect_attempts_ then some m2
        else ConnectLoop w fuel
               { m2 with sleeps := m2.sleeps ++ [m2.reconnect_interval_seconds_] }

/-- A world in which every connect attempt fails. -/
def unreachableServer : World :=
  { openAudioChannel := fun _ => .failed, now := fun _ => 0, closeReportsClosure := false }

/-- Settings with a server address. -/
def exampleSettings : Settings := { url := "ws://host/camera", token := "t", version := 0 }

/-- The manager after one more failed connect attempt has been counted. -/
def failedAttempt (m : Manager) : Manager :=
  { m with
    websocket_protocol_ := none
    connectCalls := m.connectCalls + 1
    current_reconnect_attempts_ := m.current_reconnect_attempts_ + 1 }

/-- The manager after the wait that follows a failed attempt. -/
def afterBackoff (m : Manager) : Manager :=
  { failedAttempt m with sleeps := m.sleeps ++ [m.reconnect_interval_seconds_] }

/-- A fresh manager that allows three attempts. -/
def threeAttempts : Manager := { Manager.new with max_reconnect_attempts_ := 3 }

/-! ## The manager as a system of threads -/

/-- Where the supervising thread (`connection_thread_`, running `ConnectLoop`) stands. -/
inductive LoopPc
  /-- no thread function is running: never started, or `ConnectLoop` has returned -/
  | notRunning
  /-- at the read of `should_connect_` in `while (should_connect_)` (line 133),
  the sleeps before it included -/
  | test
  /-- `should_connect_` was read as true; at `if (IsConnected())` (line 134) -/
  | check
  /-- `IsConnected()` returned false; at the call of `Connect()` (line 141),
  before the session is replaced -/
  | enter
  /-- in `Connect()`: the new session is installed with its callbacks and
  `OpenAudioChannel()` has not returned yet -/
  | connecting
  /-- after a connect attempt that succeeded and the connected callback; at
  `heartbeat_thread_.joinable()` and `join()` (lines 150-152) -/
  | joinHeartbeat
deriving DecidableEq, Repr

/-- Where the heartbeat thread (`heartbeat_thread_`, running `SendHeartbeat`) stands. -/
inductive HeartbeatPc
  /-- no thread function is running: never started, or `SendHeartbeat` has returned -/
  | notRunning
  /-- at the read of `should_connect_` in `while (should_connect_ && IsConnected())` -/
  | test
  /-- `should_connect_` was read as true; at `IsConnected()` of the loop test -/
  | check
  /-- in `sleep_for(heartbeat_interval_seconds_)`; the wake-up is followed by
  `if (!IsConnected()) break;` -/
  | sleeping
  /-- that check passed; at `SendMcpMessage`, which tests `IsConnected()` again -/
  | sending
deriving DecidableEq, Repr

/-- Where the thread that calls `Start` and `Stop` stands. -/
inductive StopPc
  /-- no call of `Stop` has been made since the last `Start` -/
  | idle
  /-- in `Stop`, `should_connect_` cleared (line 80); at `is_connected_ = false` (line 81) -/
  | clearConnected
  /-- in `Stop`, both flags written; at the join of `connection_thread_` -/
  | joinConnection
  /-- in `Stop`; at the join of `heartbeat_thread_` -/
  | joinHeartbeat
  /-- in `Stop`; at the close and reset of the session -/
  | closeSession
  /-- the last call of `Stop` has returned -/
  | done
deriving DecidableEq, Repr

/-- The manager with its threads, and a record of what has happened. -/
structure Lifecycle where
  m : Manager
  loop : LoopPc
  heartbeat : HeartbeatPc
  stop : StopPc
  /-- number of connect attempts that succeeded -/
  connectSuccesses : Nat
  /-- number of heartbeat messages handed to the session -/
  heartbeatsSent : Nat
deriving DecidableEq, Repr

/-- The events of the manager's life. -/
inductive Event
  /-- a call of `Start()` that reads `settings` -/
  | start (settings : Settings)
  /-- the next step of the supervising thread -/
  | loop
  /-- the next step of the heartbeat thread -/
  | heartbeat
  /-- the session reports closure: the callback given to `OnAudioChannelClosed` runs -/
  | sessionClosed
  /-- the next step of a call of `Stop()` -/
  | stop

/-- A manager `m0` with no thread and no call in progress. -/
def Lifecycle.initial (m0 : Manager) : Lifecycle :=
  { m := m0, loop := .notRunning, heartbeat := .notRunning, stop := .idle,
    connectSuccesses := 0, heartbeatsSent := 0 }

/-- The first part of `Connect()`, up to the call of `OpenAudioChannel()`: a new
session replaces the old one. -/
def beginConnect (m : Manager) : Manager :=
  { m with
    websocket_protocol_ := some { audioChannelOpened := false }
    connectCalls := m.connectCalls + 1 }

/-- The rest of `Connect()`, when `OpenAudioChannel()` ends: on success the callback
given to `OnAudioChannelOpened` has set `is_connected_`; when it returns `false`
or throws, the session is reset and the result is `false`. -/
def finishConnect (w : World) (m : Manager) : Manager × Bool :=
  match w.openAudioChannel (m.connectCalls - 1) with
  | .opened =>
    ({ m with
       websocket_protocol_ := some { audioChannelOpened := true }
       is_connected_ := true }, true)
  | .failed => ({ m with websocket_protocol_ := none }, false)
  | .threw => ({ m with websocket_protocol_ := none }, false)

/-- What `ConnectLoop` does to the manager when `Connect()` has returned `true`
in state `m1`: counter reset, time stamp, connected callback. -/
def afterConnected (w : World) (attempt : Nat) (m1 : Manager) : Manager :=
  let m2 := { m1 with current_reconnect_attempts_ := 0,
                      last_connection_time_ := some (w.now attempt) }
  if m2.on_connected_ then { m2 with connectedCallbacks := m2.connectedCallbacks + 1 } else m2

/-- Whether the session exists and reports its channel open. -/
def sessionOpen (m : Manager) : Bool :=
  match m.websocket_protocol_ with
  | some ws => ws.audioChannelOpened
  | none => false

/-- One step of the supervising thread, `ConnectLoop` (lines 130-171).  The
read of `should_connect_`, the call of `IsConnected()`, the entry into
`Connect()` and the end of `OpenAudioChannel()` are four steps, and the other
threads can run between any two of them.  The join of the heartbeat thread
waits until `SendHeartbeat` has returned. -/
def loopStep (w : World) (s : Lifecycle) : Option Lifecycle :=
  match s.loop with
  | .notRunning => none
  | .test =>
    if s.m.should_connect_ = false then some { s with loop := .notRunning }
    else some { s with loop := .check }
  | .check =>
    if IsConnected s.m then
      some { s with m := { s.m with sleeps := s.m.sleeps ++ [1] }, loop := .test }
    else some { s with loop := .enter }
  | .enter => some { s with m := beginConnect s.m, loop := .connecting }
  | .connecting =>
    match finishConnect w s.m with
    | (m1, true) =>
      some { s with m := afterConnected w (s.m.connectCalls - 1) m1, loop := .joinHeartbeat,
                    connectSuccesses := s.connectSuccesses + 1 }
    | (m1, false) =>
      let m2 := { m1 with current_reconnect_attempts_ := m1.current_reconnect_attempts_ + 1 }
      if m2.current_reconnect_attempts_ ≥ m2.max_reconnect_attempts_ then
        some { s with m := m2, loop := .notRunning }
      else
        some { s with m := { m2 with sleeps := m2.sleeps ++ [m2.reconnect_interval_seconds_] },
                      loop := .test }
  | .joinHeartbeat =>
    if s.m.heartbeat_thread_joinable = true ∧ s.heartbeat ≠ .notRunning then none
    else
      some { s with m := { s.m with heartbeat_thread_joinable := true,
                                    heartbeatStarts := s.m.heartbeatStarts + 1 },
                    heartbeat := .test, loop := .test }

/-- One step of the heartbeat thread, `SendHeartbeat` (lines 225-257): the two
reads of the loop test, the wake-up from the sleep with its `IsConnected()`
check, and `SendMcpMessage`, which sends only if its own `IsConnected()` check
passes. -/
def heartbeatStep (s : Lifecycle) : Option Lifecycle :=
  match s.heartbeat with
  | .notRunning => none
  | .test =>
    if s.m.should_connect_ = true then some { s with heartbeat := .check }
    else some { s with heartbeat := .notRunning }
  | .check =>
    if IsConnected s.m = true then some { s with heartbeat := .sleeping }
    else some { s with heartbeat := .notRunning }
  | .sleeping =>
    if IsConnected s.m = false then some { s with heartbeat := .notRunning }
    else some { s with heartbeat := .sending }
  | .sending =>
    if IsConnected s.m = true then
      some { s with heartbeat := .test, heartbeatsSent := s.heartbeatsSent + 1 }
    else some { s with heartbeat := .test }

/-- The callback given to `OnAudioChannelClosed`, run when an open session reports
closure. -/
def sessionClosedStep (s : Lifecycle) : Option Lifecycle :=
  match s.m.websocket_protocol_ with
  | some ws =>
    if ws.audioChannelOpened then
      some { s with m := { s.m with websocket_protocol_ := some { audioChannelOpened := false },
                                    is_connected_ := false } }
    else none
  | none => none

/-- One step of `CameraConnection::Stop` (lines 77-97): each of the two flag
writes, then the join of each thread that is joinable (which waits until its
function has returned), then the close and reset of the session, during which
the closed callback runs if the session is open and the session type reports
closure on a close. -/
def stopStep (w : World) (s : Lifecycle) : Option Lifecycle :=
  match s.stop with
  | .idle | .done =>
    some { s with m := { s.m with should_connect_ := false }, stop := .clearConnected }
  | .clearConnected =>
    some { s with m := { s.m with is_connected_ := false }, stop := .joinConnection }
  | .joinConnection =>
    if s.m.connection_thread_joinable = true then
      if s.loop = .notRunning then
        some { s with m := { s.m with connection_thread_joinable := false },
                      stop := .joinHeartbeat }
      else none
    else some { s with stop := .joinHeartbeat }
  | .joinHeartbeat =>
    if s.m.heartbeat_thread_joinable = true then
      if s.heartbeat = .notRunning then
        some { s with m := { s.m with heartbeat_thread_joinable := false },
                      stop := .closeSession }
      else none
    else some { s with stop := .closeSession }
  | .closeSession =>
    if w.closeReportsClosure = true ∧ sessionOpen s.m = true then
      some { s with m := { s.m with websocket_protocol_ := none, is_connected_ := false },
                    stop := .done }
    else some { s with m := { s.m with websocket_protocol_ := none }, stop := .done }

/-- A call of `Start()`, made by the thread that also calls `Stop`, so not while
a call of `Stop` is in progress; a `Start` on a manager whose supervising
thread is still joinable would end the program and has no step. -/
def startStep (settings : Settings) (s : Lifecycle) : Option Lifecycle :=
  if s.stop = .idle ∨ s.stop = .done then
    if s.m.connection_thread_joinable = true then none
    else
      some { s with m := Start settings s.m,
                    loop := if settings.url = "" then .notRunning else .test,
                    stop := .idle }
  else none

/-- The effect of an event, when it can happen. -/
def lifecycleStep (w : World) (e : Event) (s : Lifecycle) : Option Lifecycle :=
  match e with
  | .start settings => startStep settings s
  | .loop => loopStep w s
  | .heartbeat => heartbeatStep s
  | .sessionClosed => sessionClosedStep s
  | .stop => stopStep w s

/-- States the manager reaches from a manager `m0` with no thread, under any
sequence of events. -/
inductive Reachable (w : World) (m0 : Manager) : Lifecycle → Prop
  | init : Reachable w m0 (Lifecycle.initial m0)
  | step {s t : Lifecycle} (e : Event) :
      Reachable w m0 s → lifecycleStep w e s = some t → Reachable w m0 t

/-- The state after a list of events, `none` if one of them cannot happen. -/
def runEvents (w : World) : List Event → Lifecycle → Option Lifecycle
  | [], s => some s
  | e :: es, s =>
    match lifecycleStep w e s with
    | some t => runEvents w es t
    | none => none

/-- A manager that has no session, no thread and both flags cleared. -/
def Fresh (m : Manager) : Prop :=
  m.websocket_protocol_ = none ∧ m.should_connect_ = false ∧ m.is_connected_ = false ∧
    m.connection_thread_joinable = false ∧ m.heartbeat_thread_joinable = false

/-- A world in which every connect attempt succeeds and a close of the session
runs no callback. -/
def reachableServer : World :=
  { openAudioChannel := fun _ => .opened, now := fun i => 100 + i, closeReportsClosure := false }

/-- The manager is started, connects (four steps of the supervising thread)
and starts the heartbeat thread. -/
def connectEvents : List Event :=
  [.start exampleSettings, .loop, .loop, .loop, .loop, .loop]

/-- The manager connects and the session then reports closure. -/
def closureEvents : List Event := connectEvents ++ [.sessionClosed]

/-- The manager connects, the heartbeat thread goes to sleep, and `Stop` then
writes the two flags. -/
def stopRequestEvents : List Event :=
  connectEvents ++ [.heartbeat, .heartbeat, .stop, .stop]

/-- The manager connects, the heartbeat thread goes to sleep, the session
reports closure, and the supervising thread connects again while the heartbeat
thread is still asleep. -/
def reconnectEvents : List Event :=
  connectEvents ++ [.heartbeat, .heartbeat, .sessionClosed, .loop, .loop, .loop, .loop]

/-- A world like `reachableServer` in which a close of an open session runs the
closed callback. -/
def closingServer : World := { reachableServer with closeReportsClosure := true }

/-- A call of `Stop` that begins while a connect attempt is in flight: the
attempt then succeeds, the supervising thread starts the heartbeat thread and
leaves its loop, the heartbeat thread ends, and `Stop` joins both and closes
the session. -/
def stopDuringConnectEvents : List Event :=
  [.start exampleSettings, .loop, .loop, .loop, .stop, .stop, .loop, .loop, .loop, .stop,
   .heartbeat, .stop, .stop]

/-- The state after `es` from a fresh `Manager.new`, or that first state when
one of the events cannot happen. -/
def stateAfter (w : World) (es : List Event) : Lifecycle :=
  (runEvents w es (Lifecycle.initial Manager.new)).getD (Lifecycle.initial Manager.new)

/-- Whether a call of `Stop` is in progress. -/
def Lifecycle.stopping (s : Lifecycle) : Prop :=
  s.stop = .clearConnected ∨ s.stop = .joinConnection ∨ s.stop = .joinHeartbeat ∨
    s.stop = .closeSession

/-- What holds in every reachable state of the manager started from `m0`. -/
structure Consistent (m0 : Manager) (s : Lifecycle) : Prop where
  loopJoinable : s.loop ≠ .notRunning → s.m.connection_thread_joinable = true
  heartbeatJoinable : s.heartbeat ≠ .notRunning → s.m.heartbeat_thread_joinable = true
  flagCleared : s.stopping → s.m.should_connect_ = false
  loopJoined : s.stop = .joinHeartbeat ∨ s.stop = .closeSession →
    s.loop = .notRunning ∧ s.m.connection_thread_joinable = false
  heartbeatJoined : s.stop = .closeSession →
    s.heartbeat = .notRunning ∧ s.m.heartbeat_thread_joinable = false
  tornDown : s.stop = .done →
    s.m.should_connect_ = false ∧
    s.m.websocket_protocol_ = none ∧ s.m.connection_thread_joinable = false ∧
    s.m.heartbeat_thread_joinable = false ∧ s.loop = .notRunning ∧
    s.heartbeat = .notRunning
  registered : s.m.on_connected_ = m0.on_connected_
  starts : s.m.heartbeatStarts + (if s.loop = .joinHeartbeat then 1 else 0) =
    m0.heartbeatStarts + s.connectSuccesses
  callbacks : s.m.connectedCallbacks =
    m0.connectedCallbacks + (if m0.on_connected_ then s.connectSuccesses else 0)
  succeeded : s.loop = .joinHeartbeat ∨ s.heartbeat ≠ .notRunning → 1 ≤ s.connectSuccesses

/-- What holds of the flag `is_connected_` in every reachable state. -/
structure Signalled (w : World) (s : Lifecycle) : Prop where
  entering : s.loop = .enter → IsConnected s.m = false
  connecting : s.loop = .connecting → sessionOpen s.m = false
  flagOpen : w.closeReportsClosure = true → s.m.is_connected_ = true → sessionOpen s.m = true

/-- The state right after the connect of `connectEvents`. -/
def connectedState : Lifecycle := stateAfter reachableServer connectEvents

/-- The state in which the first connect attempt is in flight. -/
def connectingState : Lifecycle :=
  stateAfter reachableServer [.start exampleSettings, .loop, .loop, .loop]

/-- The state after `reconnectEvents`: the second connect attempt has succeeded
and the supervising thread stands at the join of the first heartbeat thread,
which is asleep. -/
def reconnectedState : Lifecycle := stateAfter reachableServer reconnectEvents

/-- The state of the supervising thread's step that starts a connect attempt. -/
def connectingStep (s : Lifecycle) : Lifecycle :=
  { s with
    m := beginConnect s.m
    loop := .connecting }

/-- The state of the supervising thread's step in which `Connect()` succeeds. -/
def connectedStep (w : World) (s : Lifecycle) : Lifecycle :=
  { s with
    m := afterConnected w (s.m.connectCalls - 1)
      { s.m with
        websocket_protocol_ := some { audioChannelOpened := true }
        is_connected_ := true }
    loop := .joinHeartbeat
    connectSuccesses := s.connectSuccesses + 1 }

/-- The manager after one more failed connect attempt has been counted, when
the attempt was begun before. -/
def failedFinish (m : Manager) : Manager :=
  { m with
    websocket_protocol_ := none
    current_reconnect_attempts_ := m.current_reconnect_attempts_ + 1 }

/-- The state of the supervising thread's step in which `Connect()` fails. -/
def failedStep (s : Lifecycle) : Lifecycle :=
  if s.m.current_reconnect_attempts_ + 1 ≥ s.m.max_reconnect_attempts_ then
    { s with m := failedFinish s.m, loop := .notRunning }
  else
    { s with
      m := { failedFinish s.m with sleeps := s.m.sleeps ++ [s.m.reconnect_interval_seconds_] }
      loop := .test }

/-- The state of the supervising thread's step that starts the heartbeat thread. -/
def heartbeatStartedStep (s : Lifecycle) : Lifecycle :=
  { s with
    m := { s.m with
           heartbeat_thread_joinable := true
           heartbeatStarts := s.m.heartbeatStarts + 1 }
    heartbeat := .test
    loop := .test }

end CameraConnection

namespace CamHttp

open Esp32Camera (Bytes strBytes camera_fb_t)

/-! ## The live stream handler -/

/-- The size of `char part_buf[64]`. -/
def PART_BUF_SIZE : Nat := 64

/-- The constant `const char* boundary = "frame"`. -/
def boundary : String := "frame"

/-- What `stream_handler` does to the camera driver, the heap and the response,
in the order of the calls.  A frame and a converted buffer carry the number of
the loop iteration that obtained them. -/
inductive Action
  | set_status (s : String)
  | set_type (s : String)
  | set_hdr (k v : String)
  | sendstr (s : String)
  | fb_get (k : Nat)
  | fb_get_null
  | fb_return (k : Nat)
  | frame2jpg (k : Nat) (ok : Bool)
  | free (k : Nat)
  | send_500
  | send_chunk (chunk : Option Bytes) (ok : Bool)
  | vTaskDelay
deriving DecidableEq, Repr

/-- What the outside answers in one turn of the loop: the streaming flag at the
loop test, the result of `esp_camera_fb_get` (`none` is a null pointer), the
result of `frame2jpg` if it is called (`none` is `false`, `some jpg` is the
buffer `jpg_buf` of `jpg_len = jpg.length` bytes), and whether each of the
three `httpd_resp_send_chunk` calls returns `ESP_OK` if it is made. -/
structure Iteration where
  s_streaming : Bool
  fb : Option camera_fb_t
  frame2jpg : Option Bytes
  header_ok : Bool
  payload_ok : Bool
  trailer_ok : Bool
deriving DecidableEq, Repr

/-- The local variables of `stream_handler` that live across iterations. -/
structure LoopVars where
  part_buf : Bytes
  empty_count : Nat
deriving DecidableEq, Repr

/-- The text that the format string
`"--%s\r\nContent-Type: image/jpeg\r\nContent-Length: %u\r\n\r\n"` produces
for `boundary` and `(unsigned)len`; `unsigned` has 32 bits. -/
def part_header (len : Nat) : Bytes :=
  strBytes ("--" ++ boundary ++ "\r\nContent-Type: image/jpeg\r\nContent-Length: " ++
    toString (len % 2 ^ 32) ++ "\r\n\r\n")

/-- The call `snprintf(buf, size, ...)` for a format that produces `text`: it
stores at most `size - 1` characters and a terminating NUL at the start of
`buf` and returns the length of the whole text, stored or not. -/
def snprintf (buf : Bytes) (size : Nat) (text : Bytes) : Bytes × Nat :=
  if size = 0 then (buf, text.length)
  else (text.take (size - 1) ++ [0] ++ buf.drop (min text.length (size - 1) + 1), text.length)

/-- The `n` bytes that a callee reads from the start of `buf`; `none` when `n`
is more than the buffer holds, which is a read past its end. -/
def readBuf (buf : Bytes) (n : Nat) : Option Bytes :=
  if n ≤ buf.length then some (buf.take n) else none

/-- The part of an iteration that writes one frame (lines 60-63 and 69-72):
the header is formatted into `part_buf`, then the three chunks are sent with
short-circuit `||`.  The result is the calls made, the new `part_buf`, and
whether all three writes returned `ESP_OK`. -/
def send_part (part_buf data : Bytes) (len : Nat) (it : Iteration) :
    List Action × Bytes × Bool :=
  let r := snprintf part_buf PART_BUF_SIZE (part_header len)
  let header := Action.send_chunk (readBuf r.1 r.2) it.header_ok
  let payload := Action.send_chunk (readBuf data len) it.payload_ok
  let trailer := Action.send_chunk (readBuf (strBytes "\r\n" ++ [0]) 2) it.trailer_ok
  if it.header_ok = false then ([header], r.1, false)
  else if it.payload_ok = false then ([header, payload], r.1, false)
  else ([header, payload, trailer], r.1, it.trailer_ok)

/-- The body of `while (s_streaming)` in iteration `k` (lines 38-78): the
calls made, the new variables, and whether the loop goes on (`false` is
`break`). -/
def iteration (PIXFORMAT_JPEG : Nat) (k : Nat) (it : Iteration) (v : LoopVars) :
    List Action × LoopVars × Bool :=
  match it.fb with
  | none =>
    ([.fb_get_null, .vTaskDelay], { v with empty_count := v.empty_count + 1 }, true)
  | some fb =>
    if fb.format ≠ PIXFORMAT_JPEG then
      match it.frame2jpg with
      | none =>
        ([.fb_get k, .frame2jpg k false, .fb_return k, .send_500],
          { v with empty_count := 0 }, false)
      | some jpg =>
        let r := send_part v.part_buf jpg jpg.length it
        if r.2.2 then
          ([.fb_get k, .frame2jpg k true, .fb_return k] ++ r.1 ++ [.free k, .vTaskDelay],
            { part_buf := r.2.1, empty_count := 0 }, true)
        else
          ([.fb_get k, .frame2jpg k true, .fb_return k] ++ r.1 ++ [.free k],
            { part_buf := r.2.1, empty_count := 0 }, false)
    else
      let r := send_part v.part_buf fb.buf fb.len it
      if r.2.2 then
        ([.fb_get k] ++ r.1 ++ [.fb_return k, .vTaskDelay],
          { part_buf := r.2.1, empty_count := 0 }, true)
      else
        ([.fb_get k] ++ r.1 ++ [.fb_return k],
          { part_buf := r.2.1, empty_count := 0 }, false)

/-- The loop `while (s_streaming) { ... }` from iteration `k` on, against the
answers of the outside; when the answers run out the loop is still running and
the calls made so far are the result. -/
def stream_loop (PIXFORMAT_JPEG : Nat) : List Iteration → Nat → LoopVars → List Action
  | [], _, _ => []
  | it :: rest, k, v =>
    if it.s_streaming then
      (iteration PIXFORMAT_JPEG k it v).1 ++
        (if (iteration PIXFORMAT_JPEG k it v).2.2 then
          stream_loop PIXFORMAT_JPEG rest (k + 1) (iteration PIXFORMAT_JPEG k it v).2.1
         else [])
    else []

/-- The handler `stream_handler` (lines 13-82): `s_streaming` is the flag at
entry, `camera` tells whether `GetCamera()` is not null, `part_buf` is what the
stack holds where the buffer is placed. -/
def stream_handler (PIXFORMAT_JPEG : Nat) (s_streaming camera : Bool) (part_buf : Bytes)
    (its : List Iteration) : List Action :=
  if s_streaming = false then
    [.set_status "503 Service Unavailable", .set_type "text/plain",
      .sendstr "Camera not started"]
  else if camera = false then
    [.set_type "multipart/x-mixed-replace; boundary=frame",
      .set_hdr "Cache-Control" "no-cache, no-store, must-revalidate",
      .set_hdr "Pragma" "no-cache", .set_hdr "Connection" "close",
      .set_status "500", .sendstr "No camera"]
  else
    [.set_type "multipart/x-mixed-replace; boundary=frame",
      .set_hdr "Cache-Control" "no-cache, no-store, must-revalidate",
      .set_hdr "Pragma" "no-cache", .set_hdr "Connection" "close"] ++
    stream_loop PIXFORMAT_JPEG its 0 { part_buf := part_buf, empty_count := 0 }

/-- The calls that concern the frame obtained in iteration `k`. -/
def aboutFrame (k : Nat) (a : Action) : Bool :=
  decide (a = .fb_get k) || decide (a = .fb_return k)

/-- The calls that concern the JPEG buffer converted in iteration `k`. -/
def aboutBuffer (k : Nat) (a : Action) : Bool :=
  decide (a = .frame2jpg k true) || decide (a = .free k)

/-- A write that did not return `ESP_OK`. -/
def Action.isFailedWrite : Action → Bool
  | .send_chunk _ false => true
  | _ => false

/-- The calls made after the first failed write. -/
def afterFailedWrite (log : List Action) : List Action :=
  (log.dropWhile (fun a => !a.isFailedWrite)).drop 1

/-- Four turns of the loop: no frame; a raw frame that is converted and sent;
a JPEG frame whose payload write fails; and a turn that is never taken. -/
def exampleIterations : List Iteration :=
  [ { s_streaming := true, fb := none, frame2jpg := none,
      header_ok := true, payload_ok := true, trailer_ok := true },
    { s_streaming := true
      fb := some { buf := [1, 2, 3], len := 3, width := 1, height := 1, format := 0 }
      frame2jpg := some [255, 216, 255, 217]
      header_ok := true, payload_ok := true, trailer_ok := true },
    { s_streaming := true
      fb := some { buf := [255, 216, 255, 217], len := 4, width := 1, height := 1, format := 4 }
      frame2jpg := none
      header_ok := true, payload_ok := false, trailer_ok := true },
    { s_streaming := true
      fb := some { buf := [255, 216, 255, 217], len := 4, width := 1, height := 1, format := 4 }
      frame2jpg := none
      header_ok := true, payload_ok := true, trailer_ok := true } ]

/-- A turn in which the conversion of a raw frame fails, and a turn after it. -/
def conversionFails : List Iteration :=
  [ { s_streaming := true
      fb := some { buf := [1, 2, 3], len := 3, width := 1, height := 1, format := 0 }
      frame2jpg := none
      header_ok := true, payload_ok := true, trailer_ok := true },
    { s_streaming := true
      fb := some { buf := [255, 216, 255, 217], len := 4, width := 1, height := 1, format := 4 }
      frame2jpg := none
      header_ok := true, payload_ok := true, trailer_ok := true } ]

end CamHttp

namespace Esp32Camera

/-! ## Termination measure and invariant -/

theorem encoderStep_decreases (N : Nat) (c : Call) (s t : ExplainState)
    (h : encoderStep N s = some t) : measure c t < measure c s := by
  unfold encoderStep at h
  split at h
  · simp at h
  · rename_i data rest hp
    split at h
    · simp only [Option.some.injEq] at h
      subst h
      simp only [measure, hp, List.length_append, List.length_cons, List.length_nil]
      omega
    · simp at h

theorem senderStep_decreases (c : Call) (s t : ExplainState)
    (h : senderStep c s = some t) : measure c t < measure c s := by
  unfold senderStep at h
  split at h
  all_goals rename_i hpc
  · split at h
    · simp only [Option.some.injEq] at h; subst h; simp [measure, hpc]
    · split at h
      · simp only [Option.some.injEq] at h; subst h; simp [measure, hpc]
      · simp only [Option.some.injEq] at h; subst h
        simp [measure, hpc, Call.callbacks]; omega
  · simp only at h
    split at h
    · simp only [Option.some.injEq] at h; subst h; simp [measure, hpc]
    · simp only [Option.some.injEq] at h; subst h; simp [measure, hpc, httpWrite]
  · split at h
    · simp only [Option.some.injEq] at h; subst h; simp [measure, hpc]
    · simp at h
  · split at h
    · simp at h
    · rename_i chunk q hq
      simp only at h
      split at h
      · simp only [Option.some.injEq] at h; subst h; simp [measure, hpc, hq]
      · simp only [Option.some.injEq] at h; subst h; simp [measure, hpc, hq]; omega
  · split at h
    · simp at h
    · rename_i chunk q hq
      simp only at h
      split at h
      · simp only [Option.some.injEq] at h; subst h; simp [measure, hpc, hq]; omega
      · simp only [Option.some.injEq] at h; subst h; simp [measure, hpc, hq, httpWrite]
  · split at h
    · simp only at h
      split at h
      · simp only [Option.some.injEq] at h; subst h; simp [measure, hpc, httpWrite]
      · split at h
        · simp only [Option.some.injEq] at h; subst h; simp [measure, hpc, httpWrite]
        · simp only [Option.some.injEq] at h; subst h; simp [measure, hpc, httpWrite]
    · simp at h
  · simp at h
  · simp at h

theorem step_decreases (N : Nat) (c : Call) (s t : ExplainState)
    (h : Step N c s t) : measure c t < measure c s := by
  rcases h with h | h
  · exact encoderStep_decreases N c s t h
  · exact senderStep_decreases c s t h

theorem steps_measure (N : Nat) (c : Call) (n : Nat) (s t : ExplainState)
    (h : Steps N c n s t) : measure c t + n ≤ measure c s := by
  induction h with
  | refl s => simp
  | tail _ hstep ih =>
    have := step_decreases N c _ _ hstep
    omega

theorem steps_bounded (N : Nat) (c : Call) (n : Nat) (s : ExplainState)
    (h : Steps N c n ExplainState.initial s) : n ≤ stepBound c := by
  have := steps_measure N c n _ _ h
  simp [measure, ExplainState.initial, Call.callbacks] at this
  simp [stepBound]
  omega

theorem writeLog_snoc (env : Env) (bufs : List Bytes) (b : Bytes) :
    writeLog env (bufs ++ [b]) = writeLog env bufs ++ [(b, env.Write (writeLog env bufs).length)] := by
  simp [writeLog, List.foldl_append]

theorem writeLog_snoc2 (env : Env) (bufs : List Bytes) (x y : Bytes) :
    writeLog env (bufs ++ [x, y]) =
      writeLog env bufs ++ [(x, env.Write (writeLog env bufs).length),
        (y, env.Write ((writeLog env bufs).length + 1))] := by
  simp [writeLog, List.foldl_append]

theorem sumLen_snoc (a : List Bytes) (d : Bytes) : sumLen (a ++ [d]) = sumLen a + d.length := by
  simp [sumLen]

theorem mkChunk_nil : mkChunk [] = { data := none, len := 0 } := by
  simp [mkChunk, allocCopy]

theorem mkChunk_data_of_ne (d : Bytes) (h : d ≠ []) : (mkChunk d).data = some d := by
  simp [mkChunk, allocCopy, h]

/-! ### Steps from each shape of state -/

theorem senderStep_connect (c : Call) (b pend : List Bytes) :
    senderStep c (stConnect b pend) =
      some (if c.env.Open = false then stFailJoin c b pend else stRecv c [] b pend) := by
  by_cases h : c.env.Open = false
  · simp [senderStep, stConnect, stFailJoin, h]
  · simp [senderStep, stConnect, stRecv, h, httpWrite, writeLog, preamble, sumLen]

theorem senderStep_failJoin (c : Call) (b pend : List Bytes) :
    senderStep c (stFailJoin c b pend) =
      if pend = [] then some (stFailDrain c [] b) else none := by
  by_cases h : pend = []
  · simp [senderStep, stFailJoin, stFailDrain, h]
  · simp [senderStep, stFailJoin, h]

theorem senderStep_failDrain_nil (c : Call) (a : List Bytes) :
    senderStep c (stFailDrain c a []) = none := by
  simp [senderStep, stFailDrain]

theorem senderStep_failDrain_cons (c : Call) (a b : List Bytes) (d : Bytes) :
    senderStep c (stFailDrain c a (d :: b)) =
      some (if d = [] then stFailReturned c a b else stFailDrain c (a ++ [d]) b) := by
  by_cases h : d = []
  · subst h
    simp [senderStep, stFailDrain, stFailReturned, mkChunk_nil]
  · simp [senderStep, stFailDrain, h, mkChunk_data_of_ne]

theorem senderStep_recv_nil (c : Call) (a pend : List Bytes) :
    senderStep c (stRecv c a [] pend) = none := by
  simp [senderStep, stRecv]

theorem senderStep_recv_cons (c : Call) (a b pend : List Bytes) (d : Bytes) :
    senderStep c (stRecv c a (d :: b) pend) =
      some (if d = [] then stOkJoin c a b pend else stRecv c (a ++ [d]) b pend) := by
  by_cases h : d = []
  · subst h
    simp [senderStep, stRecv, stOkJoin, mkChunk_nil]
  · simp [senderStep, stRecv, h, httpWrite, ← List.append_assoc,
      writeLog_snoc, sumLen_snoc, mkChunk, allocCopy]

theorem okPc_cases (c : Call) :
    okPc c = .returned MSG_UPLOAD_FAILED ∨ okPc c = .returned c.env.ReadAll ∨
      okPc c = .faulted := by
  unfold okPc
  split
  · exact Or.inl rfl
  · split
    · exact Or.inr (Or.inl rfl)
    · exact Or.inr (Or.inr rfl)

theorem okPc_of_frame (c : Call) (hfb : c.cam.fb_.isSome = true) :
    okPc c = .returned (uploadResult c.env) := by
  unfold okPc uploadResult
  split
  · rfl
  · cases h : c.cam.fb_ with
    | none => simp [h] at hfb
    | some fb => rfl

theorem okPc_of_status (c : Call) (hs : c.env.GetStatusCode ≠ 200) :
    okPc c = .returned (uploadResult c.env) := by
  simp [okPc, uploadResult, hs]

theorem okPc_faulted (c : Call) (hs : c.env.GetStatusCode = 200) (hfb : c.cam.fb_ = none) :
    okPc c = .faulted := by
  simp [okPc, hs, hfb]

theorem senderStep_okPc (c : Call) (s : ExplainState) (h : s.pc = okPc c) :
    senderStep c s = none := by
  rcases okPc_cases c with h1 | h1 | h1 <;> simp [senderStep, h, h1]

theorem senderStep_okJoin (c : Call) (a b pend : List Bytes) :
    senderStep c (stOkJoin c a b pend) =
      if pend = [] then some (stOkReturned c a b) else none := by
  by_cases h : pend = []
  · subst h
    by_cases hs : c.env.GetStatusCode = 200
    · cases hfb : c.cam.fb_ with
      | none =>
        simp [senderStep, stOkJoin, stOkReturned, okPc, hs, hfb, httpWrite, trailer]
        rw [← List.append_assoc, writeLog_snoc2]
      | some fb =>
        simp [senderStep, stOkJoin, stOkReturned, okPc, hs, hfb, httpWrite, trailer]
        rw [← List.append_assoc, writeLog_snoc2]
    · simp [senderStep, stOkJoin, stOkReturned, okPc, hs, httpWrite, trailer]
      rw [← List.append_assoc, writeLog_snoc2]
  · simp [senderStep, stOkJoin, h]

theorem encoderStep_stConnect (N : Nat) (b pend : List Bytes) (d : Bytes) :
    encoderStep N (stConnect b (d :: pend)) =
      if b.length < N then some (stConnect (b ++ [d]) pend) else none := by
  simp [encoderStep, stConnect]

theorem encoderStep_stFailJoin (N : Nat) (c : Call) (b pend : List Bytes) (d : Bytes) :
    encoderStep N (stFailJoin c b (d :: pend)) =
      if b.length < N then some (stFailJoin c (b ++ [d]) pend) else none := by
  simp [encoderStep, stFailJoin]

theorem encoderStep_stRecv (N : Nat) (c : Call) (a b pend : List Bytes) (d : Bytes) :
    encoderStep N (stRecv c a b (d :: pend)) =
      if b.length < N then some (stRecv c a (b ++ [d]) pend) else none := by
  simp [encoderStep, stRecv]

theorem encoderStep_stOkJoin (N : Nat) (c : Call) (a b pend : List Bytes) (d : Bytes) :
    encoderStep N (stOkJoin c a b (d :: pend)) =
      if b.length < N then some (stOkJoin c a (b ++ [d]) pend) else none := by
  simp [encoderStep, stOkJoin]

theorem senderStep_initial (c : Call) :
    senderStep c ExplainState.initial =
      some (if c.cam.explain_url_ = "" then
              { ExplainState.initial with pc := .returned MSG_NOT_SET }
            else if c.env.xQueueCreate_ok = false then
              { ExplainState.initial with pc := .returned MSG_QUEUE_FAILED }
            else stConnect [] c.callbacks) := by
  by_cases h : c.cam.explain_url_ = ""
  · simp [senderStep, ExplainState.initial, h]
  · by_cases hq : c.env.xQueueCreate_ok = false
    · simp [senderStep, ExplainState.initial, h, hq]
    · simp [senderStep, ExplainState.initial, h, hq, stConnect, Call.callbacks]

theorem inv_step (N : Nat) (c : Call) (s t : ExplainState) (h : Inv N c s)
    (hs : Step N c s t) : Inv N c t := by
  cases h with
  | entry =>
    rcases hs with hs | hs
    · simp [encoderStep, ExplainState.initial] at hs
    · rw [senderStep_initial] at hs
      cases hs
      by_cases h : c.cam.explain_url_ = ""
      · rw [if_pos h]; exact Inv.notSet h
      · rw [if_neg h]
        by_cases hq : c.env.xQueueCreate_ok = false
        · rw [if_pos hq]; exact Inv.queueFailed h hq
        · rw [if_neg hq]
          exact Inv.connect [] c.callbacks h (by simpa using hq) (by simp) (by simp)
  | notSet _ =>
    rcases hs with hs | hs
    · simp [encoderStep, ExplainState.initial] at hs
    · simp [senderStep, ExplainState.initial] at hs
  | queueFailed _ _ =>
    rcases hs with hs | hs
    · simp [encoderStep, ExplainState.initial] at hs
    · simp [senderStep, ExplainState.initial] at hs
  | connect b pend hu hq hc hb =>
    rcases hs with hs | hs
    · cases pend with
      | nil => simp [encoderStep, stConnect] at hs
      | cons d rest =>
        rw [encoderStep_stConnect] at hs
        by_cases hlt : b.length < N
        · rw [if_pos hlt] at hs
          cases hs
          exact Inv.connect (b ++ [d]) rest hu hq (by simp [hc]) (by simp; omega)
        · simp [hlt] at hs
    · rw [senderStep_connect] at hs
      cases hs
      by_cases ho : c.env.Open = false
      · rw [if_pos ho]; exact Inv.failJoin b pend hu hq ho hc hb
      · rw [if_neg ho]
        exact Inv.recv [] b pend hu hq (by simpa using ho) (by simp [hc]) (by simp) hb
  | failJoin b pend hu hq ho hc hb =>
    rcases hs with hs | hs
    · cases pend with
      | nil => simp [encoderStep, stFailJoin] at hs
      | cons d rest =>
        rw [encoderStep_stFailJoin] at hs
        by_cases hlt : b.length < N
        · rw [if_pos hlt] at hs
          cases hs
          exact Inv.failJoin (b ++ [d]) rest hu hq ho (by simp [hc]) (by simp; omega)
        · simp [hlt] at hs
    · rw [senderStep_failJoin] at hs
      by_cases hp : pend = []
      · rw [if_pos hp] at hs
        cases hs
        subst hp
        exact Inv.failDrain [] b hu hq ho (by simpa using hc) (by simp) (by simpa [hc] using hb)
      · simp [hp] at hs
  | failDrain a b hu hq ho hc ha hb =>
    rcases hs with hs | hs
    · simp [encoderStep, stFailDrain] at hs
    · cases b with
      | nil => simp [senderStep_failDrain_nil] at hs
      | cons d b =>
        rw [senderStep_failDrain_cons] at hs
        cases hs
        by_cases hd : d = []
        · rw [if_pos hd]; subst hd
          exact Inv.failReturned a b hu hq ho hc ha hb
        · rw [if_neg hd]
          refine Inv.failDrain (a ++ [d]) b hu hq ho (by simp [hc]) ?_ hb
          intro x hx
          rcases List.mem_append.mp hx with hx | hx
          · exact ha x hx
          · simp at hx; subst hx; exact hd
  | failReturned a b _ _ _ _ _ _ =>
    rcases hs with hs | hs
    · simp [encoderStep, stFailReturned] at hs
    · simp [senderStep, stFailReturned] at hs
  | recv a b pend hu hq ho hc ha hb =>
    rcases hs with hs | hs
    · cases pend with
      | nil => simp [encoderStep, stRecv] at hs
      | cons d rest =>
        rw [encoderStep_stRecv] at hs
        by_cases hlt : b.length < N
        · rw [if_pos hlt] at hs
          cases hs
          exact Inv.recv a (b ++ [d]) rest hu hq ho (by simp [hc]) ha (by simp; omega)
        · simp [hlt] at hs
    · cases b with
      | nil => simp [senderStep_recv_nil] at hs
      | cons d b =>
        rw [senderStep_recv_cons] at hs
        cases hs
        by_cases hd : d = []
        · rw [if_pos hd]; subst hd
          exact Inv.okJoin a b pend hu hq ho (by simp [hc]) ha (by simp at hb; omega)
        · rw [if_neg hd]
          refine Inv.recv (a ++ [d]) b pend hu hq ho (by simp [hc]) ?_ ?_
          · intro x hx
            rcases List.mem_append.mp hx with hx | hx
            · exact ha x hx
            · simp at hx; subst hx; exact hd
          · simp at hb; omega
  | okJoin a b pend hu hq ho hc ha hb =>
    rcases hs with hs | hs
    · cases pend with
      | nil => simp [encoderStep, stOkJoin] at hs
      | cons d rest =>
        rw [encoderStep_stOkJoin] at hs
        by_cases hlt : b.length < N
        · rw [if_pos hlt] at hs
          cases hs
          exact Inv.okJoin a (b ++ [d]) rest hu hq ho (by simp [hc]) ha (by simp; omega)
        · simp [hlt] at hs
    · rw [senderStep_okJoin] at hs
      by_cases hp : pend = []
      · rw [if_pos hp] at hs
        cases hs
        subst hp
        exact Inv.okReturned a b hu hq ho (by simpa using hc) ha hb
      · simp [hp] at hs
  | okReturned a b _ _ _ _ _ _ =>
    rcases hs with hs | hs
    · simp [encoderStep, stOkReturned] at hs
    · rw [senderStep_okPc c _ rfl] at hs
      simp at hs

theorem reach_inv (N : Nat) (c : Call) (s : ExplainState) (h : Reach N c s) : Inv N c s := by
  induction h with
  | init => exact Inv.entry
  | step _ hstep ih => exact inv_step N c _ _ ih hstep

/-! ### Facts about every call -/

theorem reach_exec (N : Nat) (c : Call) (fuel : Nat) (s : ExplainState) (h : Reach N c s) :
    Reach N c (exec N c fuel s) := by
  induction fuel generalizing s with
  | zero => exact h
  | succ n ih =>
    unfold exec
    cases hs : senderStep c s with
    | some t => exact ih t (Reach.step h (Or.inr hs))
    | none =>
      cases he : encoderStep N s with
      | some t => exact ih t (Reach.step h (Or.inl he))
      | none => exact h

theorem exec_stuck (N : Nat) (c : Call) (fuel : Nat) (s : ExplainState)
    (h : measure c s ≤ fuel) : ∀ t, ¬ Step N c (exec N c fuel s) t := by
  induction fuel generalizing s with
  | zero =>
    intro t ht
    have := step_decreases N c _ _ ht
    simp only [exec] at this
    omega
  | succ n ih =>
    unfold exec
    cases hs : senderStep c s with
    | some t =>
      have := senderStep_decreases c s t hs
      exact ih t (by omega)
    | none =>
      cases he : encoderStep N s with
      | some t =>
        have := encoderStep_decreases N c s t he
        exact ih t (by omega)
      | none =>
        intro t ht
        rcases ht with ht | ht
        · simp [he] at ht
        · simp [hs] at ht

/-- When a call always returns, the run of `exec` with `stepBound` fuel ends in a
returned state that satisfies the postcondition. -/
theorem AlwaysReturns.exec_returned (N : Nat) (c : Call) (Q : ExplainState → Prop)
    (h : AlwaysReturns N c Q) :
    (exec N c (stepBound c) ExplainState.initial).isReturned = true ∧
      Q (exec N c (stepBound c) ExplainState.initial) := by
  have hr := reach_exec N c (stepBound c) _ Reach.init
  have hst := exec_stuck N c (stepBound c) ExplainState.initial
    (by simp [measure, ExplainState.initial, stepBound, Call.callbacks])
  have hret : (exec N c (stepBound c) ExplainState.initial).isReturned = true := by
    by_contra hn
    obtain ⟨t, ht⟩ := h.progress _ hr (by simpa using hn)
    exact hst t ht
  exact ⟨hret, h.post _ hr hret⟩

theorem measure_initial (c : Call) : measure c ExplainState.initial = stepBound c := by
  simp [measure, ExplainState.initial, stepBound, Call.callbacks]

/-- The queue never holds more than `N` chunks, and what has been received
followed by what is queued is an initial segment of what the encoder produces. -/
theorem reach_fifo (N : Nat) (c : Call) (s : ExplainState) (h : Reach N c s) :
    s.jpeg_queue.length ≤ N ∧ s.received ++ s.jpeg_queue <+: c.callbacks.map mkChunk := by
  have hi := reach_inv N c s h
  cases hi with
  | entry => simp [ExplainState.initial]
  | notSet _ => simp [ExplainState.initial]
  | queueFailed _ _ => simp [ExplainState.initial]
  | connect b pend _ _ hc hb => simp [stConnect, hc, hb]
  | failJoin b pend _ _ _ hc hb => simp [stFailJoin, hc, hb]
  | failDrain a b _ _ _ hc _ hb =>
    refine ⟨?_, ?_⟩
    · simp [stFailDrain]; simp [hc] at hb; omega
    · simp [stFailDrain, hc]
  | failReturned a b _ _ _ hc _ hb =>
    refine ⟨?_, ?_⟩
    · simp [stFailReturned]; simp [hc] at hb; omega
    · simp [stFailReturned, hc]
  | recv a b pend _ _ _ hc _ hb =>
    refine ⟨by simpa [stRecv] using hb, ?_⟩
    simp only [stRecv, hc, List.map_append, ← List.append_assoc]
    exact List.prefix_append _ _
  | okJoin a b pend _ _ _ hc _ hb =>
    refine ⟨by simpa [stOkJoin] using hb, ?_⟩
    have : a ++ [] :: (b ++ pend) = ((a ++ [[]]) ++ b) ++ pend := by simp
    simp only [stOkJoin, hc, this, List.map_append]
    exact List.prefix_append _ _
  | okReturned a b _ _ _ hc _ hb =>
    refine ⟨by simpa [stOkReturned] using hb, ?_⟩
    have : a ++ [] :: b = (a ++ [[]]) ++ b := by simp
    simp only [stOkReturned, hc, this, List.map_append]
    exact List.prefix_refl _

/-! ### Where the sentinel sits -/

theorem sentinel_split (a datas rest : List Bytes) (ha : ∀ d ∈ a, d ≠ [])
    (hd : ∀ d ∈ datas, d ≠ []) (h : datas ++ [[]] = a ++ [] :: rest) :
    a = datas ∧ rest = [] := by
  induction a generalizing datas with
  | nil =>
    cases datas with
    | nil => simpa using h.symm
    | cons x xs =>
      simp at h
      exact absurd h.1 (hd x (by simp))
  | cons y ys ih =>
    cases datas with
    | nil => simp at h
    | cons x xs =>
      simp at h
      obtain ⟨hxy, hrest⟩ := h
      have := ih xs (fun d hd' => ha d (by simp [hd'])) (fun d hd' => hd d (by simp [hd'])) hrest
      exact ⟨by rw [hxy, this.1], this.2⟩

theorem sentinel_ahead (a r datas : List Bytes) (ha : ∀ d ∈ a, d ≠ [])
    (h : datas ++ [[]] = a ++ r) : r ≠ [] ∧ a <+: datas := by
  rcases List.eq_nil_or_concat r with hr | ⟨r0, l, hr⟩
  · subst hr
    simp at h
    exact absurd rfl (ha [] (by simp [← h]))
  · subst hr
    refine ⟨by simp, ?_⟩
    rw [List.concat_eq_append, ← List.append_assoc] at h
    have := List.append_inj' h (by simp)
    exact ⟨r0, this.1.symm⟩

/-! ### The path on which the request opens -/

theorem ok_path (N : Nat) (c : Call) (datas : List Bytes) (hN : 1 ≤ N)
    (hu : c.cam.explain_url_ ≠ "") (hq : c.env.xQueueCreate_ok = true)
    (ho : c.env.Open = true) (henc : c.callbacks = datas ++ [[]])
    (hd : ∀ d ∈ datas, d ≠ [])
    (hok : c.env.GetStatusCode ≠ 200 ∨ c.cam.fb_.isSome = true) :
    AlwaysReturns N c (fun s => s = stOkReturned c datas []) := by
  have hpc : okPc c = .returned (uploadResult c.env) := by
    rcases hok with h | h
    · exact okPc_of_status c h
    · exact okPc_of_frame c h
  refine ⟨fun n s h => steps_bounded N c n s h, ?_, ?_⟩
  · intro s hr hnr
    have hi := reach_inv N c s hr
    cases hi with
    | entry => exact ⟨_, Or.inr (senderStep_initial c)⟩
    | notSet h => exact absurd h hu
    | queueFailed _ h => simp [hq] at h
    | connect b pend _ _ _ _ => exact ⟨_, Or.inr (senderStep_connect c b pend)⟩
    | failJoin _ _ _ _ h _ _ => simp [ho] at h
    | failDrain _ _ _ _ h _ _ _ => simp [ho] at h
    | failReturned _ _ _ _ h _ _ _ => simp [ho] at h
    | recv a b pend _ _ _ hc ha hb =>
      cases b with
      | cons d b => exact ⟨_, Or.inr (senderStep_recv_cons c a b pend d)⟩
      | nil =>
        rw [henc] at hc
        have hne := (sentinel_ahead a ([] ++ pend) datas ha (by simpa using hc)).1
        cases pend with
        | nil => simp at hne
        | cons d rest =>
          refine ⟨stRecv c a ([] ++ [d]) rest, Or.inl ?_⟩
          rw [encoderStep_stRecv, if_pos (by simpa using hN)]
    | okJoin a b pend _ _ _ hc ha hb =>
      rw [henc] at hc
      have hsp := (sentinel_split a datas (b ++ pend) ha hd hc).2
      have hp : pend = [] := (List.append_eq_nil.mp hsp).2
      refine ⟨stOkReturned c a b, Or.inr ?_⟩
      rw [senderStep_okJoin, if_pos hp]
    | okReturned _ _ _ _ _ _ _ _ => simp [ExplainState.isReturned, stOkReturned, hpc] at hnr
  · intro s hr hret
    have hi := reach_inv N c s hr
    cases hi with
    | entry => simp [ExplainState.isReturned, ExplainState.initial] at hret
    | notSet h => exact absurd h hu
    | queueFailed _ h => simp [hq] at h
    | connect _ _ _ _ _ _ => simp [ExplainState.isReturned, stConnect] at hret
    | failJoin _ _ _ _ h _ _ => simp [ho] at h
    | failDrain _ _ _ _ h _ _ _ => simp [ho] at h
    | failReturned _ _ _ _ h _ _ _ => simp [ho] at h
    | recv _ _ _ _ _ _ _ _ _ => simp [ExplainState.isReturned, stRecv] at hret
    | okJoin _ _ _ _ _ _ _ _ _ => simp [ExplainState.isReturned, stOkJoin] at hret
    | okReturned a b _ _ _ hc ha _ =>
      rw [henc] at hc
      have hsp := sentinel_split a datas b ha hd hc
      rw [hsp.1, hsp.2]

/-! ### The path on which the request does not open -/

theorem fail_path (N : Nat) (c : Call) (datas : List Bytes)
    (hu : c.cam.explain_url_ ≠ "") (hq : c.env.xQueueCreate_ok = true)
    (ho : c.env.Open = false) (henc : c.callbacks = datas ++ [[]])
    (hd : ∀ d ∈ datas, d ≠ []) (hlen : datas.length < N) :
    AlwaysReturns N c (fun s => s = stFailReturned c datas []) := by
  refine ⟨fun n s h => steps_bounded N c n s h, ?_, ?_⟩
  · intro s hr hnr
    have hi := reach_inv N c s hr
    cases hi with
    | entry => exact ⟨_, Or.inr (senderStep_initial c)⟩
    | notSet h => exact absurd h hu
    | queueFailed _ h => simp [hq] at h
    | connect b pend _ _ _ _ => exact ⟨_, Or.inr (senderStep_connect c b pend)⟩
    | failJoin b pend _ _ _ hc hb =>
      cases pend with
      | nil =>
        refine ⟨stFailDrain c [] b, Or.inr ?_⟩
        rw [senderStep_failJoin, if_pos rfl]
      | cons d rest =>
        refine ⟨stFailJoin c (b ++ [d]) rest, Or.inl ?_⟩
        have hl : b.length < N := by
          have := congrArg List.length hc
          rw [henc] at this
          simp at this
          omega
        rw [encoderStep_stFailJoin, if_pos hl]
    | failDrain a b _ _ _ hc ha _ =>
      cases b with
      | cons d b => exact ⟨_, Or.inr (senderStep_failDrain_cons c a b d)⟩
      | nil =>
        rw [henc] at hc
        exact absurd rfl (sentinel_ahead a [] datas ha hc).1
    | failReturned _ _ _ _ _ _ _ _ => simp [ExplainState.isReturned, stFailReturned] at hnr
    | recv _ _ _ _ _ h _ _ _ => simp [ho] at h
    | okJoin _ _ _ _ _ h _ _ _ => simp [ho] at h
    | okReturned _ _ _ _ h _ _ _ => simp [ho] at h
  · intro s hr hret
    have hi := reach_inv N c s hr
    cases hi with
    | entry => simp [ExplainState.isReturned, ExplainState.initial] at hret
    | notSet h => exact absurd h hu
    | queueFailed _ h => simp [hq] at h
    | connect _ _ _ _ _ _ => simp [ExplainState.isReturned, stConnect] at hret
    | failJoin _ _ _ _ _ _ _ => simp [ExplainState.isReturned, stFailJoin] at hret
    | failDrain _ _ _ _ _ _ _ _ => simp [ExplainState.isReturned, stFailDrain] at hret
    | failReturned a b _ _ _ hc ha _ =>
      rw [henc] at hc
      have hsp := sentinel_split a datas b ha hd hc
      rw [hsp.1, hsp.2]
    | recv _ _ _ _ _ h _ _ _ => simp [ho] at h
    | okJoin _ _ _ _ _ h _ _ _ => simp [ho] at h
    | okReturned _ _ _ _ h _ _ _ => simp [ho] at h

/-- With more callbacks than the queue holds and a request that does not open,
the caller never gets past `join`. -/
theorem fail_path_blocked (N : Nat) (c : Call)
    (hu : c.cam.explain_url_ ≠ "") (hq : c.env.xQueueCreate_ok = true)
    (ho : c.env.Open = false) (hlen : N < c.callbacks.length)
    (s : ExplainState) (hr : Reach N c s) :
    s.isReturned = false ∧ s.freed = [] ∧ s.received = [] ∧ s.encoderJoined = false ∧
      s.queueDeleted = false ∧
      ((∀ t, ¬ Step N c s t) →
        s.pc = .failJoin ∧ s.jpeg_queue.length = N ∧ s.encoderPending ≠ []) := by
  have hi := reach_inv N c s hr
  cases hi with
  | entry =>
    refine ⟨rfl, rfl, rfl, rfl, rfl, fun hst => ?_⟩
    exact absurd (Or.inr (senderStep_initial c)) (hst _)
  | notSet h => exact absurd h hu
  | queueFailed _ h => simp [hq] at h
  | connect b pend _ _ _ _ =>
    refine ⟨rfl, rfl, rfl, rfl, rfl, fun hst => ?_⟩
    exact absurd (Or.inr (senderStep_connect c b pend)) (hst _)
  | failJoin b pend _ _ _ hc hb =>
    refine ⟨rfl, rfl, rfl, rfl, rfl, fun hst => ?_⟩
    cases pend with
    | nil =>
      rw [hc] at hlen
      simp at hlen
      omega
    | cons d rest =>
      refine ⟨rfl, ?_, by simp [stFailJoin]⟩
      by_cases hl : b.length < N
      · have : Step N c (stFailJoin c b (d :: rest)) (stFailJoin c (b ++ [d]) rest) := by
          refine Or.inl ?_
          rw [encoderStep_stFailJoin, if_pos hl]
        exact absurd this (hst _)
      · simp [stFailJoin]; omega
  | failDrain _ _ _ _ _ _ _ h => omega
  | failReturned _ _ _ _ _ _ _ h => omega
  | recv _ _ _ _ _ h _ _ _ => simp [ho] at h
  | okJoin _ _ _ _ _ h _ _ _ => simp [ho] at h
  | okReturned _ _ _ _ h _ _ _ => simp [ho] at h

/-- With a request that opens and an encoder that never makes an empty
callback, the caller never leaves the receive loop. -/
theorem no_sentinel_blocked (N : Nat) (c : Call) (hN : 1 ≤ N)
    (hu : c.cam.explain_url_ ≠ "") (hq : c.env.xQueueCreate_ok = true)
    (ho : c.env.Open = true) (hns : ∀ d ∈ c.callbacks, d ≠ [])
    (s : ExplainState) (hr : Reach N c s) :
    s.isReturned = false ∧ s.encoderJoined = false ∧
      (∀ ch ∈ s.jpeg_queue ++ s.received, ch.data ≠ none) ∧
      ((∀ t, ¬ Step N c s t) →
        s.pc = .recv ∧ s.jpeg_queue = [] ∧ s.encoderPending = []) := by
  have hi := reach_inv N c s hr
  have hmk : ∀ l : List Bytes, (∀ d ∈ l, d ∈ c.callbacks) →
      ∀ ch ∈ l.map mkChunk, ch.data ≠ none := by
    intro l hl ch hch
    obtain ⟨d, hd, rfl⟩ := List.mem_map.mp hch
    simp [mkChunk_data_of_ne d (hns d (hl d hd))]
  cases hi with
  | entry =>
    refine ⟨rfl, rfl, by simp [ExplainState.initial], fun hst => ?_⟩
    exact absurd (Or.inr (senderStep_initial c)) (hst _)
  | notSet h => exact absurd h hu
  | queueFailed _ h => simp [hq] at h
  | connect b pend _ _ hc _ =>
    refine ⟨rfl, rfl, ?_, fun hst => ?_⟩
    · simpa [stConnect] using hmk b (fun d hd => by simp [hc, hd])
    · exact absurd (Or.inr (senderStep_connect c b pend)) (hst _)
  | failJoin _ _ _ _ h _ _ => simp [ho] at h
  | failDrain _ _ _ _ h _ _ _ => simp [ho] at h
  | failReturned _ _ _ _ h _ _ _ => simp [ho] at h
  | recv a b pend _ _ _ hc ha hb =>
    refine ⟨rfl, rfl, ?_, fun hst => ?_⟩
    · have := hmk (b ++ a) (fun d hd => by
        rcases List.mem_append.mp hd with h | h <;> simp [hc, h])
      simpa [stRecv] using this
    · cases b with
      | cons d b => exact absurd (Or.inr (senderStep_recv_cons c a b pend d)) (hst _)
      | nil =>
        cases pend with
        | nil => exact ⟨rfl, rfl, rfl⟩
        | cons d rest =>
          have : Step N c (stRecv c a [] (d :: rest)) (stRecv c a ([] ++ [d]) rest) := by
            refine Or.inl ?_
            rw [encoderStep_stRecv, if_pos (by simpa using hN)]
          exact absurd this (hst _)
  | okJoin a b pend _ _ _ hc _ _ => exact absurd rfl (hns [] (by simp [hc]))
  | okReturned a b _ _ _ hc _ _ => exact absurd rfl (hns [] (by simp [hc]))

theorem writeLog_map_fst (env : Env) (bufs : List Bytes) :
    (writeLog env bufs).map Prod.fst = bufs := by
  induction bufs using List.reverseRecOn with
  | nil => rfl
  | append_singleton l a ih => simp [writeLog_snoc, ih]

theorem writeLog_length (env : Env) (bufs : List Bytes) :
    (writeLog env bufs).length = bufs.length := by
  have := congrArg List.length (writeLog_map_fst env bufs)
  simpa using this

theorem chunkBytes_map_mkChunk (datas : List Bytes) :
    chunkBytes (datas.map mkChunk) = sumLen datas := by
  simp [chunkBytes, sumLen, mkChunk, Function.comp_def]

/-- C1: with an empty explain URL every execution of `Explain` returns the
"URL or token is not set" message, and at no point of the call is the JPEG
queue created, the encoder thread spawned, a request opened or a byte written. -/
theorem explain_url_not_set (c : Call) (h : c.cam.explain_url_ = "") :
    AlwaysReturns JPEG_QUEUE_LENGTH c (fun s => s.pc = .returned
      "\x7b\"success\": false, \"message\": \"Image explain URL or token is not set\"\x7d") ∧
    ∀ s, Reach JPEG_QUEUE_LENGTH c s →
      s.queueCreated = false ∧ s.encoderSpawned = false ∧ s.requestOpened = false ∧
        s.writes = [] := by
  have key : ∀ s, Reach JPEG_QUEUE_LENGTH c s →
      s = ExplainState.initial ∨ s = { ExplainState.initial with pc := .returned MSG_NOT_SET } := by
    intro s hr
    have hi := reach_inv _ c s hr
    cases hi with
    | entry => exact Or.inl rfl
    | notSet _ => exact Or.inr rfl
    | queueFailed hu _ => exact absurd h hu
    | connect _ _ hu _ _ _ => exact absurd h hu
    | failJoin _ _ hu _ _ _ _ => exact absurd h hu
    | failDrain _ _ hu _ _ _ _ _ => exact absurd h hu
    | failReturned _ _ hu _ _ _ _ _ => exact absurd h hu
    | recv _ _ _ hu _ _ _ _ _ => exact absurd h hu
    | okJoin _ _ _ hu _ _ _ _ _ => exact absurd h hu
    | okReturned _ _ hu _ _ _ _ _ => exact absurd h hu
  refine ⟨⟨fun n s hs => steps_bounded _ c n s hs, ?_, ?_⟩, ?_⟩
  · intro s hr hnr
    rcases key s hr with hs | hs
    · subst hs; exact ⟨_, Or.inr (senderStep_initial c)⟩
    · subst hs; simp [ExplainState.isReturned] at hnr
  · intro s hr hret
    rcases key s hr with hs | hs
    · subst hs; simp [ExplainState.isReturned, ExplainState.initial] at hret
    · subst hs; rfl
  · intro s hr
    rcases key s hr with hs | hs <;> subst hs <;> simp [ExplainState.initial]

/-- An instance of C1: the example call on a camera whose explain URL is empty. -/
theorem explain_url_not_set_witness :
    ({ exampleCall with cam := { exampleCamera with explain_url_ := "" } } : Call).cam.explain_url_ = ""
    ∧ (AlwaysReturns JPEG_QUEUE_LENGTH
        { exampleCall with cam := { exampleCamera with explain_url_ := "" } }
        (fun s => s.pc = .returned
          "\x7b\"success\": false, \"message\": \"Image explain URL or token is not set\"\x7d") ∧
      ∀ s, Reach JPEG_QUEUE_LENGTH
          { exampleCall with cam := { exampleCamera with explain_url_ := "" } } s →
        s.queueCreated = false ∧ s.encoderSpawned = false ∧ s.requestOpened = false ∧
          s.writes = []) :=
  ⟨rfl, explain_url_not_set _ rfl⟩

/-- C2: when the camera holds a frame, the URL is set, the queue is created,
the encoder produces data chunks followed by the sentinel, the request opens
and the status code is 200, every execution of `Explain` returns the body `B`
that `ReadAll` yields. -/
theorem explain_returns_body (c : Call) (datas : List Bytes) (B : String)
    (hfb : c.cam.fb_.isSome = true)
    (hu : c.cam.explain_url_ ≠ "") (hq : c.env.xQueueCreate_ok = true)
    (ho : c.env.Open = true) (hs : c.env.GetStatusCode = 200) (hB : c.env.ReadAll = B)
    (henc : c.env.frame2jpg_cb c.cam.fb_ = datas ++ [[]]) (hd : ∀ d ∈ datas, d ≠ []) :
    AlwaysReturns JPEG_QUEUE_LENGTH c (fun s => s.pc = .returned B) := by
  have h := ok_path JPEG_QUEUE_LENGTH c datas (by decide) hu hq ho henc hd (Or.inr hfb)
  refine ⟨h.finite, h.progress, fun s hr hret => ?_⟩
  rw [h.post s hr hret]
  simp [stOkReturned, okPc_of_frame c hfb, uploadResult, hs, hB]

/-- An instance of C2: the example call, two data chunks, status 200, body with result `a cup`. -/
theorem explain_returns_body_witness :
    exampleCall.cam.fb_.isSome = true ∧
    exampleCall.cam.explain_url_ ≠ "" ∧ exampleCall.env.xQueueCreate_ok = true ∧
    exampleCall.env.Open = true ∧ exampleCall.env.GetStatusCode = 200 ∧
    exampleCall.env.frame2jpg_cb exampleCall.cam.fb_ = [[255, 216], [255, 217]] ++ [[]] ∧
    AlwaysReturns JPEG_QUEUE_LENGTH exampleCall
      (fun s => s.pc = .returned "\x7b\"success\": true, \"result\": \"a cup\"\x7d") :=
  ⟨rfl, by decide, rfl, rfl, rfl, rfl,
    explain_returns_body exampleCall [[255, 216], [255, 217]] _ rfl (by decide) rfl rfl rfl
      rfl rfl (by decide)⟩

/-- C4: on a camera that holds a frame, for every queue capacity `N ≥ 1` and
every sequence of data chunks of total size `S` (within the range of `size_t`)
followed by the sentinel, every
execution of the receive loop ends with the chunks received in production
order, the sentinel received last, nothing left in the queue, and
`total_sent = S`; at every moment the queue holds at most `N` chunks and what
has been received followed by what is queued is an initial segment of what was
produced. -/
theorem channel_fifo_total (N : Nat) (c : Call) (datas : List Bytes) (S : Nat)
    (hN : 1 ≤ N) (hfb : c.cam.fb_.isSome = true)
    (hu : c.cam.explain_url_ ≠ "") (hq : c.env.xQueueCreate_ok = true)
    (ho : c.env.Open = true)
    (henc : c.env.frame2jpg_cb c.cam.fb_ = datas ++ [[]]) (hd : ∀ d ∈ datas, d ≠ [])
    (hS : chunkBytes (datas.map mkChunk) = S) (hrange : S < SIZE_T_RANGE) :
    AlwaysReturns N c (fun s =>
      s.received = datas.map mkChunk ++ [{ data := none, len := 0 }] ∧
      s.jpeg_queue = [] ∧ s.encoderPending = [] ∧ s.total_sent = S) ∧
    ∀ s, Reach N c s →
      s.jpeg_queue.length ≤ N ∧
      s.received ++ s.jpeg_queue <+: datas.map mkChunk ++ [{ data := none, len := 0 }] := by
  have h := ok_path N c datas hN hu hq ho henc hd (Or.inr hfb)
  refine ⟨⟨h.finite, h.progress, fun s hr hret => ?_⟩, fun s hr => ?_⟩
  · rw [h.post s hr hret]
    rw [chunkBytes_map_mkChunk] at hS
    simp [stOkReturned, mkChunk_nil, hS, Nat.mod_eq_of_lt hrange]
  · have hf := reach_fifo N c s hr
    have hcb : c.callbacks = datas ++ [[]] := henc
    rw [hcb] at hf
    simpa [mkChunk_nil] using hf

/-- An instance of C4: a queue of capacity 3 and five data chunks of 15 bytes in total. -/
theorem channel_fifo_total_witness :
    1 ≤ 3 ∧ fiveChunkCall.cam.fb_.isSome = true ∧ fiveChunkCall.cam.explain_url_ ≠ "" ∧ fiveChunkCall.env.xQueueCreate_ok = true ∧
    fiveChunkCall.env.Open = true ∧
    fiveChunkCall.env.frame2jpg_cb fiveChunkCall.cam.fb_ = fiveChunks ++ [[]] ∧
    chunkBytes (fiveChunks.map mkChunk) = 15 ∧ 15 < SIZE_T_RANGE ∧
    (AlwaysReturns 3 fiveChunkCall (fun s =>
      s.received = fiveChunks.map mkChunk ++ [{ data := none, len := 0 }] ∧
      s.jpeg_queue = [] ∧ s.encoderPending = [] ∧ s.total_sent = 15) ∧
    ∀ s, Reach 3 fiveChunkCall s →
      s.jpeg_queue.length ≤ 3 ∧
      s.received ++ s.jpeg_queue <+:
        fiveChunks.map mkChunk ++ [{ data := none, len := 0 }]) :=
  ⟨by decide, rfl, by decide, rfl, rfl, rfl, by decide, by decide,
    channel_fifo_total 3 fiveChunkCall fiveChunks 15 (by decide) rfl (by decide) rfl rfl
      rfl (by decide) (by decide) (by decide)⟩

/-- When the request does not open and the whole encoder output fits the
queue, every execution returns the connection-failure message with every data
buffer freed, in order, the encoder joined and the queue deleted. -/
theorem open_failure_short_output (c : Call) (datas : List Bytes)
    (hu : c.cam.explain_url_ ≠ "") (hq : c.env.xQueueCreate_ok = true)
    (ho : c.env.Open = false)
    (henc : c.env.frame2jpg_cb c.cam.fb_ = datas ++ [[]]) (hd : ∀ d ∈ datas, d ≠ [])
    (hlen : datas.length < JPEG_QUEUE_LENGTH) :
    AlwaysReturns JPEG_QUEUE_LENGTH c (fun s =>
      s.pc = .returned MSG_CONNECT_FAILED ∧ s.freed = datas ∧ s.encoderJoined = true ∧
      s.queueDeleted = true ∧ s.jpeg_queue = []) := by
  have h := fail_path JPEG_QUEUE_LENGTH c datas hu hq ho henc hd hlen
  refine ⟨h.finite, h.progress, fun s hr hret => ?_⟩
  rw [h.post s hr hret]
  simp [stFailReturned]

/-- C5 (the code at the failing input): with forty data chunks followed by the
sentinel and a request that does not open, no execution of `Explain` returns,
no buffer is ever freed and the queue is never deleted; the execution ends
with the caller in `join`, the forty allocated chunks in the queue and the
encoder blocked with the sentinel still to send. -/
theorem open_failure_forty_chunks_leak :
    (∀ s, Reach JPEG_QUEUE_LENGTH openFailsCall s →
      s.isReturned = false ∧ s.freed = [] ∧ s.queueDeleted = false) ∧
    ∃ s, Reach JPEG_QUEUE_LENGTH openFailsCall s ∧
      (∀ t, ¬ Step JPEG_QUEUE_LENGTH openFailsCall s t) ∧
      s.pc = .failJoin ∧ s.jpeg_queue = fortyChunks.map mkChunk ∧
      s.encoderPending = [[]] ∧ s.freed = [] := by
  refine ⟨fun s hr => ?_, ?_⟩
  · have h := fail_path_blocked JPEG_QUEUE_LENGTH openFailsCall (by decide) rfl rfl
      (by decide) s hr
    exact ⟨h.1, h.2.1, h.2.2.2.2.1⟩
  · refine ⟨exec JPEG_QUEUE_LENGTH openFailsCall (stepBound openFailsCall) ExplainState.initial,
      reach_exec _ _ _ _ Reach.init, exec_stuck _ _ _ _ (by rw [measure_initial]), ?_, ?_, ?_, ?_⟩
    · decide
    · decide
    · decide
    · decide

/-- C6 (the code on the failing inputs): when the request does not open and
the encoder makes more callbacks than the queue has places, `Explain` never
returns and the encoder is never joined; every execution is finite, and the
state it ends in has the caller waiting in `join` while the encoder is blocked
sending on the full queue. -/
theorem open_failure_deadlock (c : Call)
    (hu : c.cam.explain_url_ ≠ "") (hq : c.env.xQueueCreate_ok = true)
    (ho : c.env.Open = false)
    (hlen : JPEG_QUEUE_LENGTH < (c.env.frame2jpg_cb c.cam.fb_).length) :
    (∀ s, Reach JPEG_QUEUE_LENGTH c s → s.isReturned = false ∧ s.encoderJoined = false) ∧
    (∀ n s, Steps JPEG_QUEUE_LENGTH c n ExplainState.initial s → n ≤ stepBound c) ∧
    (∀ s, Reach JPEG_QUEUE_LENGTH c s → (∀ t, ¬ Step JPEG_QUEUE_LENGTH c s t) →
      s.pc = .failJoin ∧ s.jpeg_queue.length = JPEG_QUEUE_LENGTH ∧ s.encoderPending ≠ []) ∧
    ∃ s, Reach JPEG_QUEUE_LENGTH c s ∧ ∀ t, ¬ Step JPEG_QUEUE_LENGTH c s t := by
  refine ⟨fun s hr => ?_, fun n s h => steps_bounded _ c n s h, fun s hr => ?_, ?_⟩
  · have h := fail_path_blocked JPEG_QUEUE_LENGTH c hu hq ho hlen s hr
    exact ⟨h.1, h.2.2.2.1⟩
  · exact (fail_path_blocked JPEG_QUEUE_LENGTH c hu hq ho hlen s hr).2.2.2.2.2
  · exact ⟨exec JPEG_QUEUE_LENGTH c (stepBound c) ExplainState.initial,
      reach_exec _ _ _ _ Reach.init, exec_stuck _ _ _ _ (by rw [measure_initial])⟩

/-- An instance of C6: forty data chunks and the sentinel, request not opened. -/
theorem open_failure_deadlock_witness :
    openFailsCall.cam.explain_url_ ≠ "" ∧ openFailsCall.env.xQueueCreate_ok = true ∧
    openFailsCall.env.Open = false ∧
    JPEG_QUEUE_LENGTH < (openFailsCall.env.frame2jpg_cb openFailsCall.cam.fb_).length ∧
    ((∀ s, Reach JPEG_QUEUE_LENGTH openFailsCall s →
        s.isReturned = false ∧ s.encoderJoined = false) ∧
    (∀ n s, Steps JPEG_QUEUE_LENGTH openFailsCall n ExplainState.initial s →
        n ≤ stepBound openFailsCall) ∧
    (∀ s, Reach JPEG_QUEUE_LENGTH openFailsCall s →
      (∀ t, ¬ Step JPEG_QUEUE_LENGTH openFailsCall s t) →
      s.pc = .failJoin ∧ s.jpeg_queue.length = JPEG_QUEUE_LENGTH ∧ s.encoderPending ≠ []) ∧
    ∃ s, Reach JPEG_QUEUE_LENGTH openFailsCall s ∧
      ∀ t, ¬ Step JPEG_QUEUE_LENGTH openFailsCall s t) :=
  ⟨by decide, rfl, rfl, by decide,
    open_failure_deadlock openFailsCall (by decide) rfl rfl (by decide)⟩

/-- C7 (the code on the failing inputs): the encoder thread enqueues one chunk
per callback of `frame2jpg_cb` and nothing of its own, so when the encoder
makes no empty callback (in particular when it fails before any callback) no
null-buffer chunk is ever enqueued or received, `Explain` never returns, and
every execution ends with the caller blocked in `xQueueReceive` on the empty
queue after the encoder thread has finished. -/
theorem encoder_enqueues_no_sentinel (c : Call)
    (hu : c.cam.explain_url_ ≠ "") (hq : c.env.xQueueCreate_ok = true)
    (ho : c.env.Open = true)
    (hns : ∀ d ∈ c.env.frame2jpg_cb c.cam.fb_, d ≠ []) :
    (∀ s, Reach JPEG_QUEUE_LENGTH c s →
      s.isReturned = false ∧ ∀ ch ∈ s.jpeg_queue ++ s.received, ch.data ≠ none) ∧
    (∀ n s, Steps JPEG_QUEUE_LENGTH c n ExplainState.initial s → n ≤ stepBound c) ∧
    (∀ s, Reach JPEG_QUEUE_LENGTH c s → (∀ t, ¬ Step JPEG_QUEUE_LENGTH c s t) →
      s.pc = .recv ∧ s.jpeg_queue = [] ∧ s.encoderPending = []) ∧
    ∃ s, Reach JPEG_QUEUE_LENGTH c s ∧ ∀ t, ¬ Step JPEG_QUEUE_LENGTH c s t := by
  refine ⟨fun s hr => ?_, fun n s h => steps_bounded _ c n s h, fun s hr => ?_, ?_⟩
  · have h := no_sentinel_blocked JPEG_QUEUE_LENGTH c (by decide) hu hq ho hns s hr
    exact ⟨h.1, h.2.2.1⟩
  · exact (no_sentinel_blocked JPEG_QUEUE_LENGTH c (by decide) hu hq ho hns s hr).2.2.2
  · exact ⟨exec JPEG_QUEUE_LENGTH c (stepBound c) ExplainState.initial,
      reach_exec _ _ _ _ Reach.init, exec_stuck _ _ _ _ (by rw [measure_initial])⟩

/-- An instance of C7: the encoder fails before its first callback. -/
theorem encoder_enqueues_no_sentinel_witness :
    encoderFailsCall.cam.explain_url_ ≠ "" ∧ encoderFailsCall.env.xQueueCreate_ok = true ∧
    encoderFailsCall.env.Open = true ∧
    encoderFailsCall.env.frame2jpg_cb encoderFailsCall.cam.fb_ = [] ∧
    ((∀ s, Reach JPEG_QUEUE_LENGTH encoderFailsCall s →
      s.isReturned = false ∧ ∀ ch ∈ s.jpeg_queue ++ s.received, ch.data ≠ none) ∧
    (∀ n s, Steps JPEG_QUEUE_LENGTH encoderFailsCall n ExplainState.initial s →
      n ≤ stepBound encoderFailsCall) ∧
    (∀ s, Reach JPEG_QUEUE_LENGTH encoderFailsCall s →
      (∀ t, ¬ Step JPEG_QUEUE_LENGTH encoderFailsCall s t) →
      s.pc = .recv ∧ s.jpeg_queue = [] ∧ s.encoderPending = []) ∧
    ∃ s, Reach JPEG_QUEUE_LENGTH encoderFailsCall s ∧
      ∀ t, ¬ Step JPEG_QUEUE_LENGTH encoderFailsCall s t) :=
  ⟨by decide, rfl, rfl, rfl,
    encoder_enqueues_no_sentinel encoderFailsCall (by decide) rfl rfl (by decide)⟩

theorem writeLog_getElem? (env : Env) (bufs : List Bytes) (i : Nat) :
    (writeLog env bufs)[i]? = (bufs[i]?).map (fun b => (b, env.Write i)) := by
  induction bufs using List.reverseRecOn with
  | nil => simp [writeLog]
  | append_singleton l a ih =>
    rw [writeLog_snoc]
    rcases Nat.lt_trichotomy i l.length with h | h | h
    · rw [List.getElem?_append_left (by rw [writeLog_length]; exact h),
        List.getElem?_append_left h, ih]
    · subst h
      rw [List.getElem?_append_right (by rw [writeLog_length]),
        List.getElem?_append_right (le_refl _)]
      simp [writeLog_length]
    · rw [List.getElem?_append_right (by rw [writeLog_length]; omega),
        List.getElem?_append_right (by omega)]
      have h1 : i - (writeLog env l).length = (i - l.length - 1) + 1 := by
        rw [writeLog_length]; omega
      have h2 : i - l.length = (i - l.length - 1) + 1 := by omega
      rw [h1, h2]
      simp

/-- C8 as the code has it: the result of `Write` is never examined.  On a
camera that holds a frame, if the write of the `k`-th data chunk fails, every
execution of `Explain` still writes
the chunks after it, the closing boundary and the empty write, receives every
chunk up to the sentinel, frees every data buffer, joins the encoder, deletes
the queue, and returns what the status code alone decides: the upload-failure
message when it is not 200, the response body when it is 200. -/
theorem write_failure_ignored (c : Call) (datas : List Bytes) (k : Nat)
    (hfb : c.cam.fb_.isSome = true)
    (hu : c.cam.explain_url_ ≠ "") (hq : c.env.xQueueCreate_ok = true)
    (ho : c.env.Open = true)
    (henc : c.env.frame2jpg_cb c.cam.fb_ = datas ++ [[]]) (hd : ∀ d ∈ datas, d ≠ [])
    (hk : k < datas.length) (hfail : c.env.Write (2 + k) = false) :
    AlwaysReturns JPEG_QUEUE_LENGTH c (fun s =>
      s.writes[2 + k]? = some (datas[k], false) ∧
      (s.writes.drop (2 + k + 1)).map Prod.fst =
        datas.drop (k + 1) ++ [strBytes multipart_footer, []] ∧
      s.writes.map Prod.fst =
        [strBytes (question_field c.question), strBytes file_header] ++ datas ++
          [strBytes multipart_footer, []] ∧
      s.received = datas.map mkChunk ++ [{ data := none, len := 0 }] ∧
      s.freed = datas ∧ s.encoderJoined = true ∧ s.queueDeleted = true ∧
      s.pc = .returned
        (if c.env.GetStatusCode ≠ 200 then MSG_UPLOAD_FAILED else c.env.ReadAll)) := by
  have h := ok_path JPEG_QUEUE_LENGTH c datas (by decide) hu hq ho henc hd (Or.inr hfb)
  refine ⟨h.finite, h.progress, fun s hr hret => ?_⟩
  rw [h.post s hr hret]
  have hfst : (writeLog c.env (preamble c ++ datas ++ trailer)).map Prod.fst =
      preamble c ++ datas ++ trailer := writeLog_map_fst _ _
  refine ⟨?_, ?_, ?_, ?_, rfl, rfl, rfl, okPc_of_frame c hfb⟩
  · simp only [stOkReturned]
    rw [writeLog_getElem?, hfail]
    have : (preamble c ++ datas ++ trailer)[2 + k]? = some datas[k] := by
      rw [List.append_assoc, List.getElem?_append_right (by simp [preamble])]
      simp only [preamble, List.length_cons, List.length_nil]
      rw [show 2 + k - (0 + 1 + 1) = k by omega, List.getElem?_append_left hk]
      exact List.getElem?_eq_getElem hk
    rw [this]
    rfl
  · simp only [stOkReturned]
    rw [List.map_drop, hfst, List.append_assoc, List.drop_append_eq_append_drop]
    have h1 : (preamble c).length = 2 := rfl
    rw [List.drop_of_length_le (by omega), h1, List.nil_append,
      show 2 + k + 1 - 2 = k + 1 by omega,
      List.drop_append_of_le_length (by omega)]
    rfl
  · simp only [stOkReturned]
    rw [hfst]
    rfl
  · simp [stOkReturned, mkChunk_nil]

/-- An instance of C8 as the code has it: the write of the first data chunk fails. -/
theorem write_failure_ignored_witness :
    writeFailsCall.cam.fb_.isSome = true ∧
    writeFailsCall.cam.explain_url_ ≠ "" ∧ writeFailsCall.env.xQueueCreate_ok = true ∧
    writeFailsCall.env.Open = true ∧
    writeFailsCall.env.frame2jpg_cb writeFailsCall.cam.fb_ = [[255, 216], [255, 217]] ++ [[]] ∧
    writeFailsCall.env.Write (2 + 0) = false ∧
    AlwaysReturns JPEG_QUEUE_LENGTH writeFailsCall (fun s =>
      s.writes[2 + 0]? = some ([255, 216], false) ∧
      (s.writes.drop (2 + 0 + 1)).map Prod.fst =
        [[255, 216], [255, 217]].drop (0 + 1) ++ [strBytes multipart_footer, []] ∧
      s.writes.map Prod.fst =
        [strBytes (question_field writeFailsCall.question), strBytes file_header]
          ++ [[255, 216], [255, 217]] ++ [strBytes multipart_footer, []] ∧
      s.received = [[255, 216], [255, 217]].map mkChunk ++ [{ data := none, len := 0 }] ∧
      s.freed = [[255, 216], [255, 217]] ∧ s.encoderJoined = true ∧ s.queueDeleted = true ∧
      s.pc = .returned
        (if writeFailsCall.env.GetStatusCode ≠ 200 then MSG_UPLOAD_FAILED
         else writeFailsCall.env.ReadAll)) :=
  ⟨rfl, by decide, rfl, rfl, rfl, by decide,
    write_failure_ignored writeFailsCall [[255, 216], [255, 217]] 0 rfl (by decide) rfl rfl
      rfl (by decide) (by decide) (by decide)⟩

/-- C8 as stated fails: on `writeFailsCall` the write of the first data chunk
fails, yet the run of `Explain` goes on to write the second data chunk, the
closing boundary and the empty chunk, and returns the server's response body
instead of an error result. -/
theorem write_failure_stops_forwarding_counterexample :
    Reach JPEG_QUEUE_LENGTH writeFailsCall
      (exec JPEG_QUEUE_LENGTH writeFailsCall 20 ExplainState.initial) ∧
    (exec JPEG_QUEUE_LENGTH writeFailsCall 20 ExplainState.initial).writes.drop 2 =
      [([255, 216], false), ([255, 217], true),
       (strBytes "\r\n------ESP32_CAMERA_BOUNDARY--\r\n", true), ([], true)] ∧
    (exec JPEG_QUEUE_LENGTH writeFailsCall 20 ExplainState.initial).pc =
      .returned "\x7b\"success\": true, \"result\": \"a cup\"\x7d" :=
  ⟨reach_exec _ _ _ _ Reach.init, by decide, by decide⟩

/-- C9: when the request opens and the status code is not 200, every execution
of `Explain` returns the fixed upload-failure message (whatever `ReadAll` would
yield); that message differs from the connection-failure message, which is the
only result `Explain` can return once queue and encoder exist and the request
does not open. -/
theorem explain_upload_failed (c : Call) (datas : List Bytes)
    (hu : c.cam.explain_url_ ≠ "") (hq : c.env.xQueueCreate_ok = true)
    (ho : c.env.Open = true) (hs : c.env.GetStatusCode ≠ 200)
    (henc : c.env.frame2jpg_cb c.cam.fb_ = datas ++ [[]]) (hd : ∀ d ∈ datas, d ≠ []) :
    AlwaysReturns JPEG_QUEUE_LENGTH c (fun s => s.pc = .returned
      "\x7b\"success\": false, \"message\": \"Failed to upload photo\"\x7d") ∧
    ("\x7b\"success\": false, \"message\": \"Failed to upload photo\"\x7d" : String) ≠
      "\x7b\"success\": false, \"message\": \"Failed to connect to explain URL\"\x7d" ∧
    ∀ c2 : Call, c2.cam.explain_url_ ≠ "" → c2.env.xQueueCreate_ok = true →
      c2.env.Open = false → ∀ s r, Reach JPEG_QUEUE_LENGTH c2 s → s.pc = .returned r →
        r = "\x7b\"success\": false, \"message\": \"Failed to connect to explain URL\"\x7d" := by
  have h := ok_path JPEG_QUEUE_LENGTH c datas (by decide) hu hq ho henc hd (Or.inl hs)
  refine ⟨⟨h.finite, h.progress, fun s hr hret => ?_⟩, by decide, ?_⟩
  · rw [h.post s hr hret]
    simp [stOkReturned, okPc_of_status c hs, uploadResult, hs, MSG_UPLOAD_FAILED]
  · intro c2 hu2 hq2 ho2 s r hr hpc
    have hi := reach_inv _ c2 s hr
    cases hi with
    | entry => simp [ExplainState.initial] at hpc
    | notSet h => exact absurd h hu2
    | queueFailed _ h => simp [hq2] at h
    | connect _ _ _ _ _ _ => simp [stConnect] at hpc
    | failJoin _ _ _ _ _ _ _ => simp [stFailJoin] at hpc
    | failDrain _ _ _ _ _ _ _ _ => simp [stFailDrain] at hpc
    | failReturned _ _ _ _ _ _ _ _ =>
      simp only [stFailReturned, Pc.returned.injEq] at hpc
      rw [← hpc]; rfl
    | recv _ _ _ _ _ h _ _ _ => simp [ho2] at h
    | okJoin _ _ _ _ _ h _ _ _ => simp [ho2] at h
    | okReturned _ _ _ _ h _ _ _ => simp [ho2] at h

/-- An instance of C9: the server answers 500. -/
theorem explain_upload_failed_witness :
    serverErrorCall.cam.explain_url_ ≠ "" ∧ serverErrorCall.env.xQueueCreate_ok = true ∧
    serverErrorCall.env.Open = true ∧ serverErrorCall.env.GetStatusCode ≠ 200 ∧
    serverErrorCall.env.frame2jpg_cb serverErrorCall.cam.fb_
      = [[255, 216], [255, 217]] ++ [[]] ∧
    (AlwaysReturns JPEG_QUEUE_LENGTH serverErrorCall (fun s => s.pc = .returned
      "\x7b\"success\": false, \"message\": \"Failed to upload photo\"\x7d") ∧
    ("\x7b\"success\": false, \"message\": \"Failed to upload photo\"\x7d" : String) ≠
      "\x7b\"success\": false, \"message\": \"Failed to connect to explain URL\"\x7d" ∧
    ∀ c2 : Call, c2.cam.explain_url_ ≠ "" → c2.env.xQueueCreate_ok = true →
      c2.env.Open = false → ∀ s r, Reach JPEG_QUEUE_LENGTH c2 s → s.pc = .returned r →
        r = "\x7b\"success\": false, \"message\": \"Failed to connect to explain URL\"\x7d") :=
  ⟨by decide, rfl, rfl, by decide, rfl,
    explain_upload_failed serverErrorCall [[255, 216], [255, 217]] (by decide) rfl rfl
      (by decide) rfl (by decide)⟩

/-- A state in which `Explain` has returned has started no encoder thread or
has joined the one it started; and it returned one of the five results. -/
theorem returned_joined (N : Nat) (c : Call) (s : ExplainState) (hr : Reach N c s)
    (hret : s.isReturned = true) :
    (s.encoderSpawned = true → s.encoderJoined = true) ∧
    (s.pc = .returned MSG_NOT_SET ∨ s.pc = .returned MSG_QUEUE_FAILED ∨
      s.pc = .returned MSG_CONNECT_FAILED ∨ s.pc = .returned MSG_UPLOAD_FAILED ∨
      s.pc = .returned c.env.ReadAll) := by
  have hi := reach_inv N c s hr
  cases hi with
  | entry => simp [ExplainState.isReturned, ExplainState.initial] at hret
  | notSet _ => exact ⟨by simp [ExplainState.initial], Or.inl rfl⟩
  | queueFailed _ _ => exact ⟨by simp [ExplainState.initial], Or.inr (Or.inl rfl)⟩
  | connect _ _ _ _ _ _ => simp [ExplainState.isReturned, stConnect] at hret
  | failJoin _ _ _ _ _ _ _ => simp [ExplainState.isReturned, stFailJoin] at hret
  | failDrain _ _ _ _ _ _ _ _ => simp [ExplainState.isReturned, stFailDrain] at hret
  | failReturned _ _ _ _ _ _ _ _ =>
    exact ⟨by simp [stFailReturned], Or.inr (Or.inr (Or.inl rfl))⟩
  | recv _ _ _ _ _ _ _ _ _ => simp [ExplainState.isReturned, stRecv] at hret
  | okJoin _ _ _ _ _ _ _ _ _ => simp [ExplainState.isReturned, stOkJoin] at hret
  | okReturned _ _ _ _ _ _ _ _ =>
    refine ⟨by simp [stOkReturned], ?_⟩
    rcases okPc_cases c with h1 | h1 | h1
    · right; right; right; left
      simp [stOkReturned, h1]
    · right; right; right; right
      simp [stOkReturned, h1]
    · simp [ExplainState.isReturned, stOkReturned, h1] at hret

theorem callStep_joined (o p : CameraObject) (h : CallStep o p)
    (hj : o.encoder_thread_joinable = false) (hn : o.overlappingSpawns = 0) :
    p.encoder_thread_joinable = false ∧ p.overlappingSpawns = 0 := by
  cases h with
  | capture first second =>
    unfold Capture
    simp only
    split
    · split <;> simp [hn]
    · split <;> split <;> simp [hn]
  | explain env question s hr hret =>
    have hjn := (returned_joined _ _ s hr hret).1
    cases hsp : s.encoderSpawned with
    | true => simp [afterExplain, hsp, hjn hsp, hj, hn]
    | false => simp [afterExplain, hsp, hj, hn]

/-- C13 as stated fails: on a camera with the URL set and an empty token, the
run of `Explain` creates the queue, spawns the encoder, opens the request and
returns the server's response, not the "not set" message. -/
theorem empty_token_not_rejected_counterexample :
    noTokenCall.cam.explain_token_ = "" ∧
    Reach JPEG_QUEUE_LENGTH noTokenCall
      (exec JPEG_QUEUE_LENGTH noTokenCall 20 ExplainState.initial) ∧
    (exec JPEG_QUEUE_LENGTH noTokenCall 20 ExplainState.initial).queueCreated = true ∧
    (exec JPEG_QUEUE_LENGTH noTokenCall 20 ExplainState.initial).encoderSpawned = true ∧
    (exec JPEG_QUEUE_LENGTH noTokenCall 20 ExplainState.initial).requestOpened = true ∧
    (exec JPEG_QUEUE_LENGTH noTokenCall 20 ExplainState.initial).pc =
      .returned "\x7b\"success\": true, \"result\": \"a cup\"\x7d" :=
  ⟨rfl, reach_exec _ _ _ _ Reach.init, by decide, by decide, by decide, by decide⟩

/-- C13 as the code has it: an empty token is not a configuration error.  For
every question, when the URL is set and the token is empty, the first step of
`Explain` creates the queue and spawns the encoder; and when the camera holds
a frame, the request opens and the encoder produces data chunks followed by
the sentinel, every execution
returns the result of the upload, having opened the request with the headers
`Device-Id`, `Client-Id`, `Content-Type` and `Transfer-Encoding` and no
`Authorization` header. -/
theorem empty_token_upload (c : Call) (datas : List Bytes)
    (ht : c.cam.explain_token_ = "") (hfb : c.cam.fb_.isSome = true)
    (hu : c.cam.explain_url_ ≠ "") (hq : c.env.xQueueCreate_ok = true)
    (ho : c.env.Open = true)
    (henc : c.env.frame2jpg_cb c.cam.fb_ = datas ++ [[]]) (hd : ∀ d ∈ datas, d ≠ []) :
    (∃ t, senderStep c ExplainState.initial = some t ∧ t.queueCreated = true ∧
      t.encoderSpawned = true) ∧
    AlwaysReturns JPEG_QUEUE_LENGTH c (fun s =>
      s.queueCreated = true ∧ s.encoderSpawned = true ∧ s.requestOpened = true ∧
      s.headers =
        [("Device-Id", c.env.GetMacAddress), ("Client-Id", c.env.GetUuid),
         ("Content-Type", "multipart/form-data; boundary=----ESP32_CAMERA_BOUNDARY"),
         ("Transfer-Encoding", "chunked")] ∧
      s.pc = .returned
        (if c.env.GetStatusCode ≠ 200 then MSG_UPLOAD_FAILED else c.env.ReadAll)) := by
  have h := ok_path JPEG_QUEUE_LENGTH c datas (by decide) hu hq ho henc hd (Or.inr hfb)
  refine ⟨⟨stConnect [] c.callbacks, ?_, rfl, rfl⟩, h.finite, h.progress, fun s hr hret => ?_⟩
  · rw [senderStep_initial, if_neg hu, if_neg (by simp [hq])]
  · rw [h.post s hr hret]
    refine ⟨rfl, rfl, rfl, ?_, okPc_of_frame c hfb⟩
    simp [stOkReturned, requestHeaders, ht, boundary]

/-- An instance of C13 as the code has it: the example call without a token. -/
theorem empty_token_upload_witness :
    noTokenCall.cam.explain_token_ = "" ∧ noTokenCall.cam.fb_.isSome = true ∧
    noTokenCall.cam.explain_url_ ≠ "" ∧
    noTokenCall.env.xQueueCreate_ok = true ∧ noTokenCall.env.Open = true ∧
    noTokenCall.env.frame2jpg_cb noTokenCall.cam.fb_ = [[255, 216], [255, 217]] ++ [[]] ∧
    ((∃ t, senderStep noTokenCall ExplainState.initial = some t ∧ t.queueCreated = true ∧
      t.encoderSpawned = true) ∧
    AlwaysReturns JPEG_QUEUE_LENGTH noTokenCall (fun s =>
      s.queueCreated = true ∧ s.encoderSpawned = true ∧ s.requestOpened = true ∧
      s.headers =
        [("Device-Id", noTokenCall.env.GetMacAddress), ("Client-Id", noTokenCall.env.GetUuid),
         ("Content-Type", "multipart/form-data; boundary=----ESP32_CAMERA_BOUNDARY"),
         ("Transfer-Encoding", "chunked")] ∧
      s.pc = .returned
        (if noTokenCall.env.GetStatusCode ≠ 200 then MSG_UPLOAD_FAILED
         else noTokenCall.env.ReadAll))) :=
  ⟨rfl, rfl, by decide, rfl, rfl, rfl,
    empty_token_upload noTokenCall [[255, 216], [255, 217]] rfl rfl (by decide) rfl rfl rfl
      (by decide)⟩

/-- C14 (the code on the failing inputs): `Explain` does not look at `fb_`.
When the frame buffer is absent and the URL is set, its first step creates the
queue and spawns the encoder thread on the absent frame, and whatever it
returns it returns only after that thread was started and joined: there is no
error result for the missing frame. -/
theorem explain_starts_encoder_without_frame (c : Call) (hfb : c.cam.fb_ = none)
    (hu : c.cam.explain_url_ ≠ "") (hq : c.env.xQueueCreate_ok = true) :
    (∃ t, senderStep c ExplainState.initial = some t ∧ t.pc = .connect ∧
      t.encoderSpawned = true ∧ t.encoderPending = c.env.frame2jpg_cb none) ∧
    ∀ s, Reach JPEG_QUEUE_LENGTH c s → s.isReturned = true →
      s.encoderSpawned = true ∧ s.encoderJoined = true := by
  refine ⟨⟨stConnect [] c.callbacks, ?_, rfl, rfl, ?_⟩, fun s hr hret => ?_⟩
  · rw [senderStep_initial, if_neg hu, if_neg (by simp [hq])]
  · simp [stConnect, Call.callbacks, hfb]
  · have hi := reach_inv _ c s hr
    cases hi with
    | entry => simp [ExplainState.isReturned, ExplainState.initial] at hret
    | notSet h => exact absurd h hu
    | queueFailed _ h => simp [hq] at h
    | connect _ _ _ _ _ _ => simp [ExplainState.isReturned, stConnect] at hret
    | failJoin _ _ _ _ _ _ _ => simp [ExplainState.isReturned, stFailJoin] at hret
    | failDrain _ _ _ _ _ _ _ _ => simp [ExplainState.isReturned, stFailDrain] at hret
    | failReturned _ _ _ _ _ _ _ _ => exact ⟨rfl, rfl⟩
    | recv _ _ _ _ _ _ _ _ _ => simp [ExplainState.isReturned, stRecv] at hret
    | okJoin _ _ _ _ _ _ _ _ _ => simp [ExplainState.isReturned, stOkJoin] at hret
    | okReturned _ _ _ _ _ _ _ _ => exact ⟨rfl, rfl⟩

/-- An instance of C14: the example call on a camera that holds no frame. -/
theorem explain_starts_encoder_without_frame_witness :
    noFrameCall.cam.fb_ = none ∧ noFrameCall.cam.explain_url_ ≠ "" ∧
    noFrameCall.env.xQueueCreate_ok = true ∧
    ((∃ t, senderStep noFrameCall ExplainState.initial = some t ∧ t.pc = .connect ∧
      t.encoderSpawned = true ∧ t.encoderPending = noFrameCall.env.frame2jpg_cb none) ∧
    ∀ s, Reach JPEG_QUEUE_LENGTH noFrameCall s → s.isReturned = true →
      s.encoderSpawned = true ∧ s.encoderJoined = true) :=
  ⟨rfl, by decide, rfl,
    explain_starts_encoder_without_frame noFrameCall rfl (by decide) rfl⟩

/-- With no frame and status 200 the call does not return: the caller writes
the whole body and then stops at the read of `fb_->width` (line 353).  No
reachable state of such a call is a returned one, and the run of `frameLostCall`
ends faulted after the last write. -/
theorem upload_without_frame_faults (c : Call) (hfb : c.cam.fb_ = none)
    (hu : c.cam.explain_url_ ≠ "") (hq : c.env.xQueueCreate_ok = true)
    (ho : c.env.Open = true) (hs : c.env.GetStatusCode = 200) :
    (∀ s, Reach JPEG_QUEUE_LENGTH c s → s.isReturned = false) ∧
    (exec JPEG_QUEUE_LENGTH frameLostCall 20 ExplainState.initial).pc = .faulted ∧
    (exec JPEG_QUEUE_LENGTH frameLostCall 20 ExplainState.initial).writes.length = 6 := by
  refine ⟨fun s hr => ?_, by decide, by decide⟩
  have hi := reach_inv _ c s hr
  cases hi with
  | entry => rfl
  | notSet h => exact absurd h hu
  | queueFailed _ h => simp [hq] at h
  | connect _ _ _ _ _ _ => rfl
  | failJoin _ _ _ _ h _ _ => simp [ho] at h
  | failDrain _ _ _ _ h _ _ _ => simp [ho] at h
  | failReturned _ _ _ _ h _ _ _ => simp [ho] at h
  | recv _ _ _ _ _ _ _ _ _ => rfl
  | okJoin _ _ _ _ _ _ _ _ _ => rfl
  | okReturned _ _ _ _ _ _ _ _ =>
    simp [ExplainState.isReturned, stOkReturned, okPc_faulted c hs hfb]

theorem capture_joins (p : CameraObject) (first second : Option camera_fb_t) :
    (Capture first second p).1.encoder_thread_joinable = false ∧
    (Capture first second p).1.overlappingSpawns = p.overlappingSpawns := by
  unfold Capture
  simp only []
  split_ifs <;> exact ⟨rfl, rfl⟩

/-- C15: `Capture`, entered on any camera object, with the encoder thread
joinable or not, leaves it not joinable and starts no thread; every call of
`Explain` on any camera that returns, on any of its five return paths, has
started no thread or has joined the one it started; so after every sequence
of `Capture` and `Explain` calls on a new camera the encoder thread is not
joinable, no thread was ever started while an earlier one was still unjoined,
and a further `Explain` leaves it so. -/
theorem one_encoder_thread (url token : String) (o : CameraObject)
    (h : CallsReach (CameraObject.new url token) o) :
    (∀ (p : CameraObject) (first second : Option camera_fb_t),
      (Capture first second p).1.encoder_thread_joinable = false ∧
      (Capture first second p).1.overlappingSpawns = p.overlappingSpawns) ∧
    (∀ (c : Call) (s : ExplainState), Reach JPEG_QUEUE_LENGTH c s → s.isReturned = true →
      (s.encoderSpawned = true → s.encoderJoined = true) ∧
      (s.pc = .returned MSG_NOT_SET ∨ s.pc = .returned MSG_QUEUE_FAILED ∨
        s.pc = .returned MSG_CONNECT_FAILED ∨ s.pc = .returned MSG_UPLOAD_FAILED ∨
        s.pc = .returned c.env.ReadAll)) ∧
    o.encoder_thread_joinable = false ∧ o.overlappingSpawns = 0 ∧
    ∀ env question s,
      Reach JPEG_QUEUE_LENGTH { env := env, cam := o.cam, question := question } s →
      s.isReturned = true →
      (afterExplain o s).encoder_thread_joinable = false ∧
      (afterExplain o s).overlappingSpawns = 0 := by
  have key : o.encoder_thread_joinable = false ∧ o.overlappingSpawns = 0 := by
    induction h with
    | init => exact ⟨rfl, rfl⟩
    | step _ hstep ih => exact callStep_joined _ _ hstep ih.1 ih.2
  refine ⟨fun p first second => capture_joins p first second,
    fun c s hr hret => returned_joined _ c s hr hret, key.1, key.2,
    fun env question s hr hret => ?_⟩
  exact callStep_joined _ _ (CallStep.explain o env question s hr hret) key.1 key.2

/-- An instance of C15: a new camera after one `Capture` and one `Explain`. -/
theorem one_encoder_thread_witness :
    CallsReach (CameraObject.new "http://host/explain" "token") usedCamera ∧
    ((∀ (p : CameraObject) (first second : Option camera_fb_t),
      (Capture first second p).1.encoder_thread_joinable = false ∧
      (Capture first second p).1.overlappingSpawns = p.overlappingSpawns) ∧
    (∀ (c : Call) (s : ExplainState), Reach JPEG_QUEUE_LENGTH c s → s.isReturned = true →
      (s.encoderSpawned = true → s.encoderJoined = true) ∧
      (s.pc = .returned MSG_NOT_SET ∨ s.pc = .returned MSG_QUEUE_FAILED ∨
        s.pc = .returned MSG_CONNECT_FAILED ∨ s.pc = .returned MSG_UPLOAD_FAILED ∨
        s.pc = .returned c.env.ReadAll)) ∧
    usedCamera.encoder_thread_joinable = false ∧ usedCamera.overlappingSpawns = 0 ∧
    ∀ env question s,
      Reach JPEG_QUEUE_LENGTH { env := env, cam := usedCamera.cam, question := question } s →
      s.isReturned = true →
      (afterExplain usedCamera s).encoder_thread_joinable = false ∧
      (afterExplain usedCamera s).overlappingSpawns = 0) :=
  have hreach : CallsReach (CameraObject.new "http://host/explain" "token") usedCamera :=
    CallsReach.step
      (CallsReach.step CallsReach.init
        (CallStep.capture _ (some exampleFrame) (some exampleFrame)))
      (CallStep.explain capturedCamera exampleEnv "what is this?" explainedState
        (reach_exec _ _ _ _ Reach.init) (by decide))
  ⟨hreach, one_encoder_thread _ _ usedCamera hreach⟩

end Esp32Camera

namespace CameraConnection

/-! ## The retry loop -/

theorem Connect_not_opened (w : World) (m : Manager)
    (h : w.openAudioChannel m.connectCalls ≠ .opened) :
    Connect w m =
      ({ m with
         websocket_protocol_ := none
         connectCalls := m.connectCalls + 1 }, false) := by
  unfold Connect
  cases ho : w.openAudioChannel m.connectCalls with
  | opened => exact absurd ho h
  | failed => rfl
  | threw => rfl

theorem ConnectLoop_failed_attempt (w : World) (fuel : Nat) (m : Manager)
    (hs : m.should_connect_ = true) (hconn : IsConnected m = false)
    (h : w.openAudioChannel m.connectCalls ≠ .opened) :
    ConnectLoop w (fuel + 1) m =
      if m.current_reconnect_attempts_ + 1 ≥ m.max_reconnect_attempts_ then
        some (failedAttempt m)
      else ConnectLoop w fuel (afterBackoff m) := by
  rw [ConnectLoop]
  simp [hs, hconn, Connect_not_opened w m h, failedAttempt, afterBackoff]

/-- The retry loop from a state in which all but `n + 1` of the allowed attempts have failed. -/
theorem ConnectLoop_all_fail (w : World) (hfail : ∀ i, w.openAudioChannel i ≠ .opened)
    (n : Nat) : ∀ (fuel : Nat) (m : Manager), m.should_connect_ = true →
      IsConnected m = false →
      m.current_reconnect_attempts_ + (n + 1) = m.max_reconnect_attempts_ →
      n + 1 ≤ fuel →
      ∃ mf, ConnectLoop w fuel m = some mf ∧
        mf.connectCalls = m.connectCalls + (n + 1) ∧
        mf.current_reconnect_attempts_ = m.max_reconnect_attempts_ ∧
        mf.max_reconnect_attempts_ = m.max_reconnect_attempts_ ∧
        mf.websocket_protocol_ = none ∧ mf.should_connect_ = true ∧
        mf.is_connected_ = m.is_connected_ ∧
        mf.heartbeatStarts = m.heartbeatStarts ∧
        mf.connectedCallbacks = m.connectedCallbacks ∧
        mf.sleeps = m.sleeps ++ List.replicate n m.reconnect_interval_seconds_ := by
  induction n with
  | zero =>
    intro fuel m hs hconn hcur hfuel
    obtain ⟨f, rfl⟩ : ∃ f, fuel = f + 1 := ⟨fuel - 1, by omega⟩
    refine ⟨failedAttempt m, ?_, ?_⟩
    · rw [ConnectLoop_failed_attempt w f m hs hconn (hfail _), if_pos (by push_cast at hcur; omega)]
    · simp [failedAttempt, hs]
      push_cast at hcur
      omega
  | succ n ih =>
    intro fuel m hs hconn hcur hfuel
    obtain ⟨f, rfl⟩ : ∃ f, fuel = f + 1 := ⟨fuel - 1, by omega⟩
    have := ih f (afterBackoff m) hs (by simp [IsConnected, afterBackoff, failedAttempt])
      (by simp [afterBackoff, failedAttempt]; push_cast at hcur; omega) (by omega)
    obtain ⟨mf, hrun, h1, h2, h3, h4, h5, h6, h7, h8, h9⟩ := this
    refine ⟨mf, ?_, ?_⟩
    · rw [ConnectLoop_failed_attempt w f m hs hconn (hfail _),
        if_neg (by push_cast at hcur; omega)]
      exact hrun
    · simp only [afterBackoff, failedAttempt] at h1 h2 h3 h4 h5 h6 h7 h8 h9
      refine ⟨by omega, h2, h3, h4, h5, h6, h7, h8, ?_⟩
      rw [h9, List.replicate_succ]
      simp

/-- More fuel does not change the state in which the loop ends. -/
theorem ConnectLoop_more_fuel (w : World) (fuel : Nat) : ∀ (m mf : Manager),
    ConnectLoop w fuel m = some mf → ConnectLoop w (fuel + 1) m = some mf := by
  induction fuel with
  | zero => intro m mf h; simp [ConnectLoop] at h
  | succ n ih =>
    intro m mf h
    rw [ConnectLoop] at h ⊢
    by_cases h1 : m.should_connect_ = false
    · simpa only [h1, if_true] using h
    · simp only [h1, if_false] at h ⊢
      by_cases h2 : IsConnected m = true
      · simp only [h2, if_true] at h ⊢
        exact ih _ _ h
      · simp only [h2, if_false] at h ⊢
        rcases hc : Connect w m with ⟨m1, ok⟩
        cases ok with
        | true =>
          simp only [hc] at h ⊢
          exact ih _ _ h
        | false =>
          simp only [hc] at h ⊢
          by_cases h3 : m1.current_reconnect_attempts_ + 1 ≥ m1.max_reconnect_attempts_
          · simpa only [h3, if_true] using h
          · simp only [h3, if_false] at h ⊢
            exact ih _ _ h

theorem ConnectLoop_fuel_le (w : World) (m mf : Manager) (fuel fuel2 : Nat)
    (hle : fuel ≤ fuel2) (h : ConnectLoop w fuel m = some mf) :
    ConnectLoop w fuel2 m = some mf := by
  induction hle with
  | refl => exact h
  | step _ ih => exact ConnectLoop_more_fuel w _ m mf ih

/-- C10: for every `max_reconnect_attempts_ ≥ 1`, when `Start` finds a server
address and every connect attempt fails, the loop `ConnectLoop` ends, in the
same state for every sufficient amount of fuel; it has then made exactly
`max_reconnect_attempts_` calls of `Connect()`, it has waited the retry
interval between them, no heartbeat thread was started, and `IsConnected()`
is false. -/
theorem connect_loop_gives_up (w : World) (settings : Settings) (m : Manager)
    (hurl : settings.url ≠ "") (hmax : 1 ≤ m.max_reconnect_attempts_)
    (hconn : IsConnected m = false)
    (hfail : ∀ i, w.openAudioChannel i ≠ .opened) :
    ∃ mf,
      (∀ fuel, m.max_reconnect_attempts_.toNat ≤ fuel →
        ConnectLoop w fuel (Start settings m) = some mf) ∧
      mf.connectCalls = m.connectCalls + m.max_reconnect_attempts_.toNat ∧
      mf.current_reconnect_attempts_ = m.max_reconnect_attempts_ ∧
      mf.sleeps = m.sleeps ++
        List.replicate (m.max_reconnect_attempts_.toNat - 1) m.reconnect_interval_seconds_ ∧
      mf.heartbeatStarts = m.heartbeatStarts ∧
      mf.websocket_protocol_ = none ∧
      IsConnected mf = false := by
  have hstart : Start settings m =
      { m with
        server_url_ := settings.url
        device_token_ := settings.token
        protocol_version_ :=
          if settings.version ≠ 0 then settings.version else m.protocol_version_
        should_connect_ := true
        current_reconnect_attempts_ := 0
        connection_thread_joinable := true } := by
    simp [Start, hurl]
  obtain ⟨n, hn⟩ : ∃ n : Nat, m.max_reconnect_attempts_.toNat = n + 1 :=
    ⟨m.max_reconnect_attempts_.toNat - 1, by omega⟩
  have := ConnectLoop_all_fail w hfail n (n + 1) (Start settings m)
    (by rw [hstart]) (by rw [hstart]; simpa [IsConnected] using hconn)
    (by rw [hstart]; simp; omega) (le_refl _)
  obtain ⟨mf, hrun, h1, h2, h3, h4, h5, h6, h7, h8, h9⟩ := this
  simp only [hstart] at h1 h2 h3 h6 h7 h8 h9
  refine ⟨mf, fun fuel hf => ConnectLoop_fuel_le w _ mf (n + 1) fuel (by omega) hrun,
    by omega, h2, ?_, h7, h4, ?_⟩
  · rw [h9, hn]; simp
  · simp [IsConnected, h4]

/-- An instance of C10: three allowed attempts against a server that cannot be reached. -/
theorem connect_loop_gives_up_witness :
    exampleSettings.url ≠ "" ∧
    1 ≤ threeAttempts.max_reconnect_attempts_ ∧
    IsConnected threeAttempts = false ∧
    (∀ i, unreachableServer.openAudioChannel i ≠ .opened) ∧
    ∃ mf,
      (∀ fuel,
        threeAttempts.max_reconnect_attempts_.toNat
            ≤ fuel →
        ConnectLoop unreachableServer fuel
          (Start exampleSettings threeAttempts) = some mf) ∧
      mf.connectCalls = threeAttempts.connectCalls
        + threeAttempts.max_reconnect_attempts_.toNat ∧
      mf.current_reconnect_attempts_ =
        threeAttempts.max_reconnect_attempts_ ∧
      mf.sleeps = threeAttempts.sleeps ++
        List.replicate
          (threeAttempts.max_reconnect_attempts_.toNat - 1)
          threeAttempts.reconnect_interval_seconds_ ∧
      mf.heartbeatStarts = threeAttempts.heartbeatStarts ∧
      mf.websocket_protocol_ = none ∧
      IsConnected mf = false :=
  ⟨by decide, by decide, rfl, fun _ => by simp [unreachableServer],
    connect_loop_gives_up unreachableServer exampleSettings
      threeAttempts (by decide) (by decide) rfl
      (fun _ => by simp [unreachableServer])⟩

/-! ## Reachable states of the manager -/

theorem finishConnect_beginConnect (w : World) (m : Manager) :
    finishConnect w (beginConnect m) = Connect w m := by
  unfold finishConnect beginConnect Connect
  simp only [Nat.add_sub_cancel]

theorem consistent_initial (m0 : Manager) (hf : Fresh m0) :
    Consistent m0 (Lifecycle.initial m0) := by
  obtain ⟨h1, h2, h3, h4, h5⟩ := hf
  constructor <;> simp [Lifecycle.initial, Lifecycle.stopping, *]

theorem finishConnect_fields (w : World) (m : Manager) :
    (finishConnect w m).1.on_connected_ = m.on_connected_ ∧
    (finishConnect w m).1.heartbeatStarts = m.heartbeatStarts ∧
    (finishConnect w m).1.connectedCallbacks = m.connectedCallbacks ∧
    (finishConnect w m).1.connection_thread_joinable = m.connection_thread_joinable ∧
    (finishConnect w m).1.heartbeat_thread_joinable = m.heartbeat_thread_joinable ∧
    (finishConnect w m).1.should_connect_ = m.should_connect_ ∧
    (finishConnect w m).1.current_reconnect_attempts_ = m.current_reconnect_attempts_ ∧
    (finishConnect w m).1.max_reconnect_attempts_ = m.max_reconnect_attempts_ ∧
    (finishConnect w m).1.connectCalls = m.connectCalls := by
  unfold finishConnect
  cases w.openAudioChannel (m.connectCalls - 1) <;> simp

theorem afterConnected_fields (w : World) (k : Nat) (m : Manager) :
    (afterConnected w k m).on_connected_ = m.on_connected_ ∧
    (afterConnected w k m).heartbeatStarts = m.heartbeatStarts ∧
    (afterConnected w k m).connectedCallbacks =
      m.connectedCallbacks + (if m.on_connected_ then 1 else 0) ∧
    (afterConnected w k m).connection_thread_joinable = m.connection_thread_joinable ∧
    (afterConnected w k m).heartbeat_thread_joinable = m.heartbeat_thread_joinable ∧
    (afterConnected w k m).should_connect_ = m.should_connect_ ∧
    (afterConnected w k m).is_connected_ = m.is_connected_ ∧
    (afterConnected w k m).websocket_protocol_ = m.websocket_protocol_ ∧
    (afterConnected w k m).current_reconnect_attempts_ = 0 ∧
    (afterConnected w k m).last_connection_time_ = some (w.now k) ∧
    (afterConnected w k m).connectCalls = m.connectCalls := by
  unfold afterConnected
  cases h : m.on_connected_ <;> simp [h]

set_option maxHeartbeats 4000000 in
theorem consistent_loop (w : World) (m0 : Manager) (s t : Lifecycle)
    (h : Consistent m0 s) (hs : loopStep w s = some t) : Consistent m0 t := by
  obtain ⟨c1, c2, c3, c4, c5, c6, c7, c8, c9, c10⟩ := h
  have hstop : s.loop ≠ .notRunning →
      s.stop ≠ .joinHeartbeat ∧ s.stop ≠ .closeSession ∧ s.stop ≠ .done := by
    intro hpc
    refine ⟨fun h => ?_, fun h => ?_, fun h => ?_⟩
    · exact hpc (c4 (Or.inl h)).1
    · exact hpc (c4 (Or.inr h)).1
    · exact hpc (c6 h).2.2.2.2.1
  unfold loopStep at hs
  split at hs
  · simp at hs
  · rename_i hpc
    have hstop := hstop (by simp [hpc])
    split at hs <;> cases hs <;> constructor <;> simp_all [Lifecycle.stopping]
  · rename_i hpc
    have hstop := hstop (by simp [hpc])
    split at hs <;> cases hs <;> constructor <;> simp_all [Lifecycle.stopping]
  · rename_i hpc
    have hstop := hstop (by simp [hpc])
    cases hs
    constructor <;> simp_all [Lifecycle.stopping, beginConnect]
  · rename_i hpc
    have hstop := hstop (by simp [hpc])
    have hf := finishConnect_fields w s.m
    split at hs
    · rename_i m1 hc
      rw [hc] at hf
      have ha := afterConnected_fields w (s.m.connectCalls - 1) m1
      cases hs
      cases hreg : m0.on_connected_ <;>
        (constructor <;> simp_all [Lifecycle.stopping] <;> omega)
    · rename_i m1 hc
      rw [hc] at hf
      simp only at hs hf
      split at hs
      · cases hs
        constructor <;> simp_all [Lifecycle.stopping]
      · cases hs
        constructor <;> simp_all [Lifecycle.stopping]
  · rename_i hpc
    have hstop := hstop (by simp [hpc])
    split at hs
    · simp at hs
    · cases hs
      constructor <;> simp_all [Lifecycle.stopping]

theorem consistent_heartbeat (m0 : Manager) (s t : Lifecycle)
    (h : Consistent m0 s) (hs : heartbeatStep s = some t) : Consistent m0 t := by
  obtain ⟨c1, c2, c3, c4, c5, c6, c7, c8, c9, c10⟩ := h
  have hstop : s.heartbeat ≠ .notRunning → s.stop ≠ .closeSession ∧ s.stop ≠ .done := by
    intro hpc
    exact ⟨fun h => hpc (c5 h).1, fun h => hpc (c6 h).2.2.2.2.2⟩
  unfold heartbeatStep at hs
  split at hs
  · simp at hs
  all_goals
    rename_i hpc
    have hstop := hstop (by simp [hpc])
    split at hs <;> cases hs <;> constructor <;> simp_all [Lifecycle.stopping]

theorem consistent_sessionClosed (m0 : Manager) (s t : Lifecycle)
    (h : Consistent m0 s) (hs : sessionClosedStep s = some t) : Consistent m0 t := by
  obtain ⟨c1, c2, c3, c4, c5, c6, c7, c8, c9, c10⟩ := h
  unfold sessionClosedStep at hs
  split at hs
  · rename_i ws hws
    have hstop : s.stop ≠ .done := fun h => by
      have := (c6 h).2.1; simp [hws] at this
    split at hs
    · cases hs
      constructor <;> simp_all [Lifecycle.stopping]
    · simp at hs
  · simp at hs

theorem consistent_stop (w : World) (m0 : Manager) (s t : Lifecycle)
    (h : Consistent m0 s) (hs : stopStep w s = some t) : Consistent m0 t := by
  obtain ⟨c1, c2, c3, c4, c5, c6, c7, c8, c9, c10⟩ := h
  unfold stopStep at hs
  split at hs
  · rename_i hpc
    cases hs
    constructor <;> simp_all [Lifecycle.stopping]
  · rename_i hpc
    cases hs
    constructor <;> simp_all [Lifecycle.stopping]
  · rename_i hpc
    cases hs
    constructor <;> simp_all [Lifecycle.stopping]
  · rename_i hpc
    split at hs
    · split at hs
      · cases hs
        constructor <;> simp_all [Lifecycle.stopping]
      · simp at hs
    · cases hs
      constructor <;> simp_all [Lifecycle.stopping]
  · rename_i hpc
    split at hs
    · split at hs
      · cases hs
        constructor <;> simp_all [Lifecycle.stopping]
      · simp at hs
    · cases hs
      constructor <;> simp_all [Lifecycle.stopping]
  · rename_i hpc
    have hl := (c4 (Or.inr hpc)).1
    split at hs
    · cases hs
      constructor <;> simp_all [Lifecycle.stopping]
    · cases hs
      constructor <;> simp_all [Lifecycle.stopping]

theorem Start_fields (settings : Settings) (m : Manager) :
    (Start settings m).on_connected_ = m.on_connected_ ∧
    (Start settings m).heartbeatStarts = m.heartbeatStarts ∧
    (Start settings m).connectedCallbacks = m.connectedCallbacks ∧
    (Start settings m).heartbeat_thread_joinable = m.heartbeat_thread_joinable ∧
    (Start settings m).is_connected_ = m.is_connected_ ∧
    (Start settings m).websocket_protocol_ = m.websocket_protocol_ ∧
    (Start settings m).connection_thread_joinable =
      (if settings.url = "" then m.connection_thread_joinable else true) := by
  unfold Start
  by_cases h : settings.url = "" <;> simp [h]

theorem consistent_start (m0 : Manager) (settings : Settings) (s t : Lifecycle)
    (h : Consistent m0 s) (hs : startStep settings s = some t) : Consistent m0 t := by
  obtain ⟨c1, c2, c3, c4, c5, c6, c7, c8, c9, c10⟩ := h
  unfold startStep at hs
  split at hs
  · rename_i hpc
    split at hs
    · simp at hs
    · rename_i hj
      have hl : s.loop = .notRunning := by
        by_contra hne
        exact hj (c1 hne)
      have hf := Start_fields settings s.m
      cases hs
      by_cases hu : settings.url = "" <;>
        (constructor <;> simp_all [Lifecycle.stopping])
  · simp at hs

theorem consistent_step (w : World) (m0 : Manager) (e : Event) (s t : Lifecycle)
    (h : Consistent m0 s) (hs : lifecycleStep w e s = some t) : Consistent m0 t := by
  cases e with
  | start settings => exact consistent_start m0 settings s t h hs
  | loop => exact consistent_loop w m0 s t h hs
  | heartbeat => exact consistent_heartbeat m0 s t h hs
  | sessionClosed => exact consistent_sessionClosed m0 s t h hs
  | stop => exact consistent_stop w m0 s t h hs

theorem reachable_consistent (w : World) (m0 : Manager) (hf : Fresh m0) (s : Lifecycle)
    (hr : Reachable w m0 s) : Consistent m0 s := by
  induction hr with
  | init => exact consistent_initial m0 hf
  | step e _ hs ih => exact consistent_step w m0 e _ _ ih hs

theorem reachable_runEvents (w : World) (m0 : Manager) (es : List Event) :
    ∀ s t, Reachable w m0 s → runEvents w es s = some t → Reachable w m0 t := by
  induction es with
  | nil => intro s t hr h; simp [runEvents] at h; exact h ▸ hr
  | cons e es ih =>
    intro s t hr h
    unfold runEvents at h
    cases hstep : lifecycleStep w e s with
    | none => simp [hstep] at h
    | some u =>
      simp only [hstep] at h
      exact ih u t (Reachable.step e hr hstep) h

theorem fresh_new : Fresh Manager.new := by
  simp [Fresh, Manager.new]

/-! ## The heartbeat thread -/

/-- C11 as stated fails: after the session has reported closure, and likewise
after `Stop` has written the two flags, the heartbeat thread is still active
while the session is not established. -/
theorem heartbeat_active_not_established_counterexample :
    (runEvents reachableServer closureEvents (Lifecycle.initial Manager.new)
        = some (stateAfter reachableServer closureEvents) ∧
      Reachable reachableServer Manager.new (stateAfter reachableServer closureEvents) ∧
      (stateAfter reachableServer closureEvents).heartbeat = .test ∧
      IsConnected (stateAfter reachableServer closureEvents).m = false) ∧
    (runEvents reachableServer stopRequestEvents (Lifecycle.initial Manager.new)
        = some (stateAfter reachableServer stopRequestEvents) ∧
      Reachable reachableServer Manager.new (stateAfter reachableServer stopRequestEvents) ∧
      (stateAfter reachableServer stopRequestEvents).heartbeat = .sleeping ∧
      (stateAfter reachableServer stopRequestEvents).stop = .joinConnection ∧
      IsConnected (stateAfter reachableServer stopRequestEvents).m = false) := by
  refine ⟨⟨by decide, ?_, by decide, by decide⟩, ⟨by decide, ?_, by decide, by decide, by decide⟩⟩
  · exact reachable_runEvents _ _ closureEvents _ _ Reachable.init (by decide)
  · exact reachable_runEvents _ _ stopRequestEvents _ _ Reachable.init (by decide)

theorem loopStep_starts (w : World) (s t : Lifecycle) (ht : loopStep w s = some t)
    (hne : t.m.heartbeatStarts ≠ s.m.heartbeatStarts) :
    s.loop = .joinHeartbeat ∧
    ¬ (s.m.heartbeat_thread_joinable = true ∧ s.heartbeat ≠ .notRunning) ∧
    t.m.heartbeatStarts = s.m.heartbeatStarts + 1 := by
  unfold loopStep at ht
  split at ht
  · simp at ht
  · exfalso
    split at ht <;> cases ht <;> exact hne rfl
  · exfalso
    split at ht <;> cases ht <;> exact hne rfl
  · exfalso
    cases ht
    exact hne rfl
  · exfalso
    have hf := finishConnect_fields w s.m
    split at ht
    · rename_i m1 hcn
      rw [hcn] at hf
      have ha := afterConnected_fields w (s.m.connectCalls - 1) m1
      cases ht
      simp_all
    · rename_i m1 hcn
      rw [hcn] at hf
      simp only at ht hf
      split at ht <;> cases ht <;> simp_all
  · rename_i hpc
    split at ht
    · simp at ht
    · rename_i hj
      cases ht
      exact ⟨hpc, hj, rfl⟩

/-- C11 as the code has it: in every reachable state, (1) a heartbeat thread
exists only after a connect attempt has succeeded; (2) the heartbeat threads
started are as many as the successful attempts, less one while the supervising
thread stands at the join that follows the latest success; (3) a heartbeat
thread is started only by the step at that join, and only when the previous
heartbeat thread has ended; (4) while the previous thread runs the supervising
thread waits there; (5) the heartbeat thread hands a message to the session
only in a step whose `IsConnected()` check passes; (6) it is not stopped when
the manager leaves the established state: it ends itself, without a message,
at the next of its `IsConnected()` checks in the loop test or after the sleep;
(7) `Stop` closes the session only after it has joined the heartbeat thread. -/
theorem heartbeat_lifecycle (w : World) (m0 : Manager) (hf : Fresh m0) (s : Lifecycle)
    (hr : Reachable w m0 s) :
    (s.heartbeat ≠ .notRunning → 1 ≤ s.connectSuccesses) ∧
    s.m.heartbeatStarts + (if s.loop = .joinHeartbeat then 1 else 0) =
      m0.heartbeatStarts + s.connectSuccesses ∧
    (∀ t, loopStep w s = some t → t.m.heartbeatStarts ≠ s.m.heartbeatStarts →
      s.loop = .joinHeartbeat ∧ s.heartbeat = .notRunning ∧
      t.m.heartbeatStarts = s.m.heartbeatStarts + 1) ∧
    (s.loop = .joinHeartbeat → s.heartbeat ≠ .notRunning → loopStep w s = none) ∧
    (∀ t, heartbeatStep s = some t → t.heartbeatsSent ≠ s.heartbeatsSent →
      s.heartbeat = .sending ∧ IsConnected s.m = true) ∧
    (IsConnected s.m = false →
      (∀ t, heartbeatStep s = some t → t.heartbeatsSent = s.heartbeatsSent) ∧
      (s.heartbeat = .check ∨ s.heartbeat = .sleeping →
        ∃ t, heartbeatStep s = some t ∧ t.heartbeat = .notRunning)) ∧
    (s.stop = .closeSession ∨ s.stop = .done → s.heartbeat = .notRunning) := by
  have hc := reachable_consistent w m0 hf s hr
  refine ⟨fun h => hc.succeeded (Or.inr h), hc.starts, ?_, ?_, ?_, ?_, ?_⟩
  · intro t ht hne
    obtain ⟨h1, h2, h3⟩ := loopStep_starts w s t ht hne
    refine ⟨h1, ?_, h3⟩
    by_contra hrun
    exact h2 ⟨hc.heartbeatJoinable hrun, hrun⟩
  · intro hpc hrun
    simp only [loopStep, hpc]
    rw [if_pos ⟨hc.heartbeatJoinable hrun, hrun⟩]
  · intro t ht hne
    unfold heartbeatStep at ht
    split at ht
    · simp at ht
    · split at ht <;> cases ht <;> exact absurd rfl hne
    · split at ht <;> cases ht <;> exact absurd rfl hne
    · split at ht <;> cases ht <;> exact absurd rfl hne
    · rename_i hpc
      split at ht
      · rename_i hcn
        exact ⟨hpc, hcn⟩
      · cases ht; exact absurd rfl hne
  · intro hcn
    refine ⟨fun t ht => ?_, fun hpc => ?_⟩
    · unfold heartbeatStep at ht
      split at ht
      · simp at ht
      · split at ht <;> cases ht <;> rfl
      · split at ht <;> cases ht <;> rfl
      · split at ht <;> cases ht <;> rfl
      · simp only [hcn] at ht
        cases ht
        rfl
    · rcases hpc with hpc | hpc
      · exact ⟨{ s with heartbeat := .notRunning }, by simp [heartbeatStep, hpc, hcn], rfl⟩
      · exact ⟨{ s with heartbeat := .notRunning }, by simp [heartbeatStep, hpc, hcn], rfl⟩
  · intro h
    rcases h with h | h
    · exact (hc.heartbeatJoined h).1
    · exact (hc.tornDown h).2.2.2.2.2

/-- An instance of C11 as the code has it: the state after the session has
reported closure. -/
theorem heartbeat_lifecycle_witness :
    Fresh Manager.new ∧
    Reachable reachableServer Manager.new (stateAfter reachableServer closureEvents) ∧
    (((stateAfter reachableServer closureEvents).heartbeat ≠ .notRunning →
        1 ≤ (stateAfter reachableServer closureEvents).connectSuccesses) ∧
    (stateAfter reachableServer closureEvents).m.heartbeatStarts +
        (if (stateAfter reachableServer closureEvents).loop = .joinHeartbeat then 1 else 0) =
      Manager.new.heartbeatStarts + (stateAfter reachableServer closureEvents).connectSuccesses ∧
    (∀ t, loopStep reachableServer (stateAfter reachableServer closureEvents) = some t →
      t.m.heartbeatStarts ≠ (stateAfter reachableServer closureEvents).m.heartbeatStarts →
      (stateAfter reachableServer closureEvents).loop = .joinHeartbeat ∧
      (stateAfter reachableServer closureEvents).heartbeat = .notRunning ∧
      t.m.heartbeatStarts = (stateAfter reachableServer closureEvents).m.heartbeatStarts + 1) ∧
    ((stateAfter reachableServer closureEvents).loop = .joinHeartbeat →
      (stateAfter reachableServer closureEvents).heartbeat ≠ .notRunning →
      loopStep reachableServer (stateAfter reachableServer closureEvents) = none) ∧
    (∀ t, heartbeatStep (stateAfter reachableServer closureEvents) = some t →
      t.heartbeatsSent ≠ (stateAfter reachableServer closureEvents).heartbeatsSent →
      (stateAfter reachableServer closureEvents).heartbeat = .sending ∧
      IsConnected (stateAfter reachableServer closureEvents).m = true) ∧
    (IsConnected (stateAfter reachableServer closureEvents).m = false →
      (∀ t, heartbeatStep (stateAfter reachableServer closureEvents) = some t →
        t.heartbeatsSent = (stateAfter reachableServer closureEvents).heartbeatsSent) ∧
      ((stateAfter reachableServer closureEvents).heartbeat = .check ∨
        (stateAfter reachableServer closureEvents).heartbeat = .sleeping →
        ∃ t, heartbeatStep (stateAfter reachableServer closureEvents) = some t ∧
          t.heartbeat = .notRunning)) ∧
    ((stateAfter reachableServer closureEvents).stop = .closeSession ∨
      (stateAfter reachableServer closureEvents).stop = .done →
      (stateAfter reachableServer closureEvents).heartbeat = .notRunning)) :=
  ⟨fresh_new,
    reachable_runEvents _ _ closureEvents _ _ Reachable.init (by decide),
    heartbeat_lifecycle reachableServer Manager.new fresh_new _
      (reachable_runEvents _ _ closureEvents _ _ Reachable.init (by decide))⟩

/-! ## The call of `Stop` -/

/-- When the last call of `Stop` has returned, in every reachable state:
`should_connect_` is false, the session is absent, neither thread is joinable
or running, and `IsConnected()` is false. -/
theorem stop_torn_down (w : World) (m0 : Manager) (hf : Fresh m0) (s : Lifecycle)
    (hr : Reachable w m0 s) (hd : s.stop = .done) :
    s.m.should_connect_ = false ∧ s.m.websocket_protocol_ = none ∧
    s.m.connection_thread_joinable = false ∧ s.m.heartbeat_thread_joinable = false ∧
    s.loop = .notRunning ∧ s.heartbeat = .notRunning ∧ IsConnected s.m = false := by
  obtain ⟨h1, h2, h3, h4, h5, h6⟩ := (reachable_consistent w m0 hf s hr).tornDown hd
  exact ⟨h1, h2, h3, h4, h5, h6, by simp [IsConnected, h2]⟩

/-- The flag `is_connected_` after `Stop` depends on the session type.  In the
run `stopDuringConnectEvents` the callback of the connect attempt in flight
sets the flag after `Stop` has cleared it; when `Stop` has returned the flag is
still set if the close of the session runs no callback, and it is cleared if
the close runs the closed callback. -/
theorem stop_during_connect_runs :
    (runEvents reachableServer stopDuringConnectEvents (Lifecycle.initial Manager.new)).map
        (fun s => (s.stop, s.m.is_connected_, s.m.should_connect_, s.m.websocket_protocol_)) =
      some (.done, true, false, none) ∧
    (runEvents closingServer stopDuringConnectEvents (Lifecycle.initial Manager.new)).map
        (fun s => (s.stop, s.m.is_connected_, s.m.should_connect_, s.m.websocket_protocol_)) =
      some (.done, false, false, none) := by
  constructor <;> decide

theorem isConnected_eq (m : Manager) : IsConnected m = (m.is_connected_ && sessionOpen m) := by
  unfold IsConnected sessionOpen
  rfl

theorem signalled_initial (w : World) (m0 : Manager) (hf : Fresh m0) :
    Signalled w (Lifecycle.initial m0) := by
  obtain ⟨h1, h2, h3, h4, h5⟩ := hf
  constructor <;> simp [Lifecycle.initial, sessionOpen, *]

theorem flag_false_of_not_connected (w : World) (s : Lifecycle) (h : Signalled w s)
    (hw : w.closeReportsClosure = true) (hnc : IsConnected s.m = false) :
    s.m.is_connected_ = false := by
  by_contra hne
  have h1 : s.m.is_connected_ = true := by simpa using hne
  have h2 := h.flagOpen hw h1
  rw [isConnected_eq, h1, h2] at hnc
  simp at hnc

theorem flag_false_of_not_open (w : World) (s : Lifecycle) (h : Signalled w s)
    (hw : w.closeReportsClosure = true) (hno : sessionOpen s.m = false) :
    s.m.is_connected_ = false :=
  flag_false_of_not_connected w s h hw (by rw [isConnected_eq, hno]; simp)

theorem signalled_step (w : World) (e : Event) (s t : Lifecycle)
    (h : Signalled w s) (hs : lifecycleStep w e s = some t) : Signalled w t := by
  cases e with
  | start settings =>
    simp only [lifecycleStep, startStep] at hs
    split at hs
    · split at hs
      · simp at hs
      · have hf := Start_fields settings s.m
        have h3 := h.flagOpen
        cases hs
        by_cases hu : settings.url = "" <;>
          (constructor <;> simp_all [sessionOpen, isConnected_eq])
    · simp at hs
  | loop =>
    simp only [lifecycleStep] at hs
    unfold loopStep at hs
    split at hs
    · simp at hs
    · have h3 := h.flagOpen
      split at hs <;> cases hs <;> constructor <;> simp_all [sessionOpen]
    · rename_i hpc
      have h3 := h.flagOpen
      split at hs
      · cases hs
        constructor <;> simp_all [sessionOpen, isConnected_eq]
      · rename_i hnc
        cases hs
        constructor <;> simp_all [sessionOpen, isConnected_eq]
    · rename_i hpc
      have hnc := h.entering hpc
      have hfl : w.closeReportsClosure = true → s.m.is_connected_ = false :=
        fun hw => flag_false_of_not_connected w s h hw hnc
      cases hs
      constructor <;> simp_all [sessionOpen, beginConnect]
    · rename_i hpc
      have hno := h.connecting hpc
      have hfl : w.closeReportsClosure = true → s.m.is_connected_ = false :=
        fun hw => flag_false_of_not_open w s h hw hno
      unfold finishConnect at hs
      cases ho : w.openAudioChannel (s.m.connectCalls - 1) <;> simp only [ho] at hs
      · have ha := afterConnected_fields w (s.m.connectCalls - 1)
          { s.m with
            websocket_protocol_ := some { audioChannelOpened := true }
            is_connected_ := true }
        cases hs
        constructor <;> simp_all [sessionOpen]
      · split at hs <;> cases hs <;> constructor <;> simp_all [sessionOpen]
      · split at hs <;> cases hs <;> constructor <;> simp_all [sessionOpen]
    · rename_i hpc
      have h3 := h.flagOpen
      split at hs
      · simp at hs
      · cases hs
        constructor <;> simp_all [sessionOpen]
  | heartbeat =>
    simp only [lifecycleStep] at hs
    obtain ⟨h1, h2, h3⟩ := h
    unfold heartbeatStep at hs
    split at hs
    · simp at hs
    all_goals (split at hs <;> cases hs <;> exact ⟨h1, h2, h3⟩)
  | sessionClosed =>
    simp only [lifecycleStep] at hs
    unfold sessionClosedStep at hs
    split at hs
    · rename_i ws hws
      split at hs
      · rename_i ho
        have hl : s.loop ≠ .connecting := fun hpc => by
          have := h.connecting hpc
          simp [sessionOpen, hws, ho] at this
        cases hs
        constructor <;> simp_all [sessionOpen, isConnected_eq]
      · simp at hs
    · simp at hs
  | stop =>
    simp only [lifecycleStep] at hs
    obtain ⟨h1, h2, h3⟩ := h
    unfold stopStep at hs
    split at hs
    · cases hs
      exact ⟨by simpa [isConnected_eq] using h1, h2, h3⟩
    · cases hs
      exact ⟨by simpa [isConnected_eq] using h1, h2, h3⟩
    · cases hs
      constructor <;> simp_all [sessionOpen, isConnected_eq]
    · split at hs
      · split at hs
        · cases hs
          exact ⟨by simpa [isConnected_eq] using h1, h2, h3⟩
        · simp at hs
      · cases hs
        exact ⟨h1, h2, h3⟩
    · split at hs
      · split at hs
        · cases hs
          exact ⟨by simpa [isConnected_eq] using h1, h2, h3⟩
        · simp at hs
      · cases hs
        exact ⟨h1, h2, h3⟩
    · split at hs
      · cases hs
        constructor <;> simp_all [sessionOpen, isConnected_eq]
      · rename_i hnot
        have hfl : w.closeReportsClosure = true → s.m.is_connected_ = false := by
          intro hw
          by_contra hne
          have hf1 : s.m.is_connected_ = true := by simpa using hne
          exact hnot ⟨hw, h3 hw hf1⟩
        cases hs
        constructor <;> simp_all [sessionOpen, isConnected_eq]

theorem reachable_signalled (w : World) (m0 : Manager) (hf : Fresh m0) (s : Lifecycle)
    (hr : Reachable w m0 s) : Signalled w s := by
  induction hr with
  | init => exact signalled_initial w m0 hf
  | step e _ hs ih => exact signalled_step w e _ _ ih hs

/-- When the close of an open session runs the closed callback, `is_connected_`
is false in every reachable state in which the last call of `Stop` has
returned, and a second call of `Stop` leaves the manager exactly as it was. -/
theorem stop_clears_flag_when_close_reports (w : World) (m0 : Manager) (hf : Fresh m0)
    (s : Lifecycle) (hr : Reachable w m0 s) (hw : w.closeReportsClosure = true)
    (hd : s.stop = .done) :
    s.m.is_connected_ = false ∧
    runEvents w [.stop, .stop, .stop, .stop, .stop] s = some s := by
  obtain ⟨h1, h2, h3, h4, h5, h6⟩ := (reachable_consistent w m0 hf s hr).tornDown hd
  have hflag : s.m.is_connected_ = false :=
    flag_false_of_not_open w s (reachable_signalled w m0 hf s hr) hw (by simp [sessionOpen, h2])
  refine ⟨hflag, ?_⟩
  rcases s with ⟨m, lp, hb, st, a, b⟩
  rcases m with ⟨ws, sc, ic, cj, hj, _, _, _, _, _, _, _, _, _, _, _, _, _⟩
  simp only at h1 h2 h3 h4 h5 h6 hd hflag
  subst h1 h2 h3 h4 h5 h6 hd hflag
  simp [runEvents, lifecycleStep, stopStep, sessionOpen]

/-! ## The effects of a connect attempt -/

theorem loopStep_enter (w : World) (s : Lifecycle) (hpc : s.loop = .enter) :
    loopStep w s = some (connectingStep s) := by
  simp [loopStep, hpc, connectingStep]

theorem loopStep_connected (w : World) (s : Lifecycle) (hpc : s.loop = .connecting)
    (ho : w.openAudioChannel (s.m.connectCalls - 1) = .opened) :
    loopStep w s = some (connectedStep w s) := by
  simp [loopStep, hpc, finishConnect, ho, connectedStep]

theorem loopStep_failed (w : World) (s : Lifecycle) (hpc : s.loop = .connecting)
    (ho : w.openAudioChannel (s.m.connectCalls - 1) ≠ .opened) :
    loopStep w s = some (failedStep s) := by
  have hcn : finishConnect w s.m = ({ s.m with websocket_protocol_ := none }, false) := by
    unfold finishConnect
    cases h : w.openAudioChannel (s.m.connectCalls - 1) with
    | opened => exact absurd h ho
    | failed => rfl
    | threw => rfl
  by_cases hmax : s.m.current_reconnect_attempts_ + 1 ≥ s.m.max_reconnect_attempts_
  · simp [loopStep, hpc, hcn, failedStep, hmax, failedFinish]
  · simp [loopStep, hpc, hcn, failedStep, hmax, failedFinish]

theorem loopStep_join (w : World) (s : Lifecycle) (hpc : s.loop = .joinHeartbeat)
    (hnr : s.heartbeat = .notRunning) :
    loopStep w s = some (heartbeatStartedStep s) := by
  simp [loopStep, hpc, hnr, heartbeatStartedStep]

theorem failedStep_fields (s : Lifecycle) :
    (failedStep s).m.connectCalls = s.m.connectCalls ∧
    (failedStep s).m.current_reconnect_attempts_ = s.m.current_reconnect_attempts_ + 1 ∧
    (failedStep s).m.connectedCallbacks = s.m.connectedCallbacks ∧
    (failedStep s).connectSuccesses = s.connectSuccesses ∧
    (failedStep s).m.heartbeatStarts = s.m.heartbeatStarts ∧
    (failedStep s).heartbeat = s.heartbeat ∧
    (failedStep s).m.last_connection_time_ = s.m.last_connection_time_ ∧
    (failedStep s).m.websocket_protocol_ = none ∧
    (failedStep s).loop ≠ .joinHeartbeat := by
  unfold failedStep
  split <;> simp [failedFinish]

/-- While the session stays established and no stop is requested, the
heartbeat thread never ends: any number of its steps leaves the manager as it
was and the thread running. -/
theorem heartbeat_keeps_running (w : World) :
    ∀ (n : Nat) (s : Lifecycle), s.heartbeat ≠ .notRunning → s.m.should_connect_ = true →
      IsConnected s.m = true →
      ∃ t, runEvents w (List.replicate n Event.heartbeat) s = some t ∧ t.m = s.m ∧
        t.loop = s.loop ∧ t.stop = s.stop ∧ t.connectSuccesses = s.connectSuccesses ∧
        t.heartbeat ≠ .notRunning := by
  intro n
  induction n with
  | zero => intro s hrun _ _; exact ⟨s, rfl, rfl, rfl, rfl, rfl, hrun⟩
  | succ n ih =>
    intro s hrun hsc hic
    have hstep : ∃ u, heartbeatStep s = some u ∧ u.m = s.m ∧ u.loop = s.loop ∧
        u.stop = s.stop ∧ u.connectSuccesses = s.connectSuccesses ∧
        u.heartbeat ≠ .notRunning := by
      cases hpc : s.heartbeat with
      | notRunning => exact absurd hpc hrun
      | test =>
        exact ⟨{ s with heartbeat := .check }, by simp [heartbeatStep, hpc, hsc],
          rfl, rfl, rfl, rfl, by simp⟩
      | check =>
        exact ⟨{ s with heartbeat := .sleeping }, by simp [heartbeatStep, hpc, hic],
          rfl, rfl, rfl, rfl, by simp⟩
      | sleeping =>
        exact ⟨{ s with heartbeat := .sending }, by simp [heartbeatStep, hpc, hic],
          rfl, rfl, rfl, rfl, by simp⟩
      | sending =>
        exact ⟨{ s with heartbeat := .test, heartbeatsSent := s.heartbeatsSent + 1 },
          by simp [heartbeatStep, hpc, hic], rfl, rfl, rfl, rfl, by simp⟩
    obtain ⟨u, hu, hm, hl, hst, hcs, hur⟩ := hstep
    obtain ⟨t, ht, htm, htl, hts, htc, htr⟩ := ih u hur (by rw [hm]; exact hsc)
      (by rw [hm]; exact hic)
    refine ⟨t, ?_, by rw [htm, hm], by rw [htl, hl], by rw [hts, hst], by rw [htc, hcs], htr⟩
    simp only [List.replicate_succ, runEvents, lifecycleStep, hu]
    exact ht

/-- C16 (the code, with the attempts for which the claim fails): in every
reachable state the connected callback has been invoked once per successful
connect attempt when it is registered (never otherwise), and the heartbeat
threads started are one per successful attempt less the one that is pending
while the supervising thread is at the join.  The step that enters `Connect()`
changes no counter.  When the attempt in flight ends: if it succeeds the retry
counter becomes zero whatever it was, the time is recorded, the callback is
invoked once if registered, and the thread goes to the join of the previous
heartbeat thread; when there is none or it has ended, the next step starts the
heartbeat thread; if the attempt fails the counter grows by one, no callback is
invoked and no heartbeat thread is started.  But when the previous heartbeat
thread is still running at the join and the session is established, the
supervising thread cannot move, and for any number of heartbeat steps it stays
at the join and no heartbeat thread is started for the attempt. -/
theorem connect_attempt_effects (w : World) (m0 : Manager) (hf : Fresh m0) (s : Lifecycle)
    (hr : Reachable w m0 s) :
    s.m.connectedCallbacks =
      m0.connectedCallbacks + (if m0.on_connected_ then s.connectSuccesses else 0) ∧
    s.m.heartbeatStarts + (if s.loop = .joinHeartbeat then 1 else 0) =
      m0.heartbeatStarts + s.connectSuccesses ∧
    (s.loop = .enter →
      ∃ t, loopStep w s = some t ∧ t.loop = .connecting ∧
        t.m.connectCalls = s.m.connectCalls + 1 ∧
        t.m.current_reconnect_attempts_ = s.m.current_reconnect_attempts_ ∧
        t.m.connectedCallbacks = s.m.connectedCallbacks ∧
        t.m.heartbeatStarts = s.m.heartbeatStarts ∧
        t.connectSuccesses = s.connectSuccesses ∧ t.heartbeat = s.heartbeat) ∧
    (s.loop = .connecting →
      ∃ t, loopStep w s = some t ∧ t.m.connectCalls = s.m.connectCalls ∧
        (w.openAudioChannel (s.m.connectCalls - 1) = .opened →
          t.m.current_reconnect_attempts_ = 0 ∧
          t.m.last_connection_time_ = some (w.now (s.m.connectCalls - 1)) ∧
          t.m.connectedCallbacks =
            s.m.connectedCallbacks + (if s.m.on_connected_ then 1 else 0) ∧
          t.connectSuccesses = s.connectSuccesses + 1 ∧
          t.loop = .joinHeartbeat ∧ t.heartbeat = s.heartbeat ∧
          t.m.heartbeatStarts = s.m.heartbeatStarts ∧
          (t.heartbeat = .notRunning →
            ∃ u, loopStep w t = some u ∧ u.heartbeat = .test ∧
              u.m.heartbeat_thread_joinable = true ∧
              u.m.heartbeatStarts = t.m.heartbeatStarts + 1 ∧
              u.m.connectedCallbacks = t.m.connectedCallbacks ∧
              u.m.current_reconnect_attempts_ = 0 ∧ u.loop = .test)) ∧
        (w.openAudioChannel (s.m.connectCalls - 1) ≠ .opened →
          t.m.current_reconnect_attempts_ = s.m.current_reconnect_attempts_ + 1 ∧
          t.m.connectedCallbacks = s.m.connectedCallbacks ∧
          t.connectSuccesses = s.connectSuccesses ∧
          t.m.heartbeatStarts = s.m.heartbeatStarts ∧ t.heartbeat = s.heartbeat ∧
          t.m.last_connection_time_ = s.m.last_connection_time_ ∧
          t.m.websocket_protocol_ = none ∧
          t.loop ≠ .joinHeartbeat)) ∧
    (s.loop = .joinHeartbeat → s.heartbeat ≠ .notRunning →
      loopStep w s = none ∧
      (s.m.should_connect_ = true → IsConnected s.m = true →
        ∀ n, ∃ t, runEvents w (List.replicate n Event.heartbeat) s = some t ∧
          t.loop = .joinHeartbeat ∧ t.heartbeat ≠ .notRunning ∧ loopStep w t = none ∧
          t.m.heartbeatStarts = s.m.heartbeatStarts ∧
          t.m.heartbeatStarts + 1 = m0.heartbeatStarts + t.connectSuccesses)) := by
  have hc := reachable_consistent w m0 hf s hr
  have hblocked : ∀ u : Lifecycle, u.loop = .joinHeartbeat → u.heartbeat ≠ .notRunning →
      u.m.heartbeat_thread_joinable = true → loopStep w u = none := by
    intro u hl hrun hj
    simp only [loopStep, hl]
    rw [if_pos ⟨hj, hrun⟩]
  refine ⟨hc.callbacks, hc.starts, fun hpc => ?_, fun hpc => ?_, fun hpc hrun => ?_⟩
  · exact ⟨connectingStep s, loopStep_enter w s hpc, rfl, rfl, rfl, rfl, rfl, rfl, rfl⟩
  · by_cases ho : w.openAudioChannel (s.m.connectCalls - 1) = .opened
    · have hstep := loopStep_connected w s hpc ho
      have ha := afterConnected_fields w (s.m.connectCalls - 1)
        { s.m with
          websocket_protocol_ := some { audioChannelOpened := true }
          is_connected_ := true }
      obtain ⟨a1, a2, a3, a4, a5, a6, a7, a8, a9, a10, a11⟩ := ha
      refine ⟨connectedStep w s, hstep, a11,
        fun _ => ⟨a9, a10, a3, rfl, rfl, rfl, a2, ?_⟩, fun h => absurd ho h⟩
      intro hnr
      exact ⟨heartbeatStartedStep (connectedStep w s), loopStep_join w _ rfl hnr,
        rfl, rfl, rfl, rfl, a9, rfl⟩
    · have hstep := loopStep_failed w s hpc ho
      obtain ⟨f1, f2, f3, f4, f5, f6, f7, f8, f9⟩ := failedStep_fields s
      exact ⟨failedStep s, hstep, f1, fun h => absurd h ho,
        fun _ => ⟨f2, f3, f4, f5, f6, f7, f8, f9⟩⟩
  · have hj := hc.heartbeatJoinable hrun
    refine ⟨hblocked s hpc hrun hj, fun hsc hic n => ?_⟩
    obtain ⟨t, ht, htm, htl, _, htc, htr⟩ := heartbeat_keeps_running w n s hrun hsc hic
    have hst := hc.starts
    rw [if_pos hpc] at hst
    refine ⟨t, ht, by rw [htl, hpc], htr, hblocked t (by rw [htl, hpc]) htr (by rw [htm]; exact hj),
      by rw [htm], by rw [htm, htc]; exact hst⟩

/-- An instance of C16 on the failing input: the second connect attempt has
succeeded while the first heartbeat thread is asleep; two attempts have
succeeded, one heartbeat thread has been started, and the supervising thread
stands at the join. -/
theorem connect_attempt_effects_witness :
    Fresh Manager.new ∧ Reachable reachableServer Manager.new reconnectedState ∧
    reconnectedState.loop = .joinHeartbeat ∧ reconnectedState.heartbeat = .sleeping ∧
    reconnectedState.m.should_connect_ = true ∧ IsConnected reconnectedState.m = true ∧
    reconnectedState.connectSuccesses = 2 ∧ reconnectedState.m.heartbeatStarts = 1 ∧
    (reconnectedState.m.connectedCallbacks =
      Manager.new.connectedCallbacks +
        (if Manager.new.on_connected_ then reconnectedState.connectSuccesses else 0) ∧
    reconnectedState.m.heartbeatStarts +
        (if reconnectedState.loop = .joinHeartbeat then 1 else 0) =
      Manager.new.heartbeatStarts + reconnectedState.connectSuccesses ∧
    (reconnectedState.loop = .enter →
      ∃ t, loopStep reachableServer reconnectedState = some t ∧ t.loop = .connecting ∧
        t.m.connectCalls = reconnectedState.m.connectCalls + 1 ∧
        t.m.current_reconnect_attempts_ = reconnectedState.m.current_reconnect_attempts_ ∧
        t.m.connectedCallbacks = reconnectedState.m.connectedCallbacks ∧
        t.m.heartbeatStarts = reconnectedState.m.heartbeatStarts ∧
        t.connectSuccesses = reconnectedState.connectSuccesses ∧
        t.heartbeat = reconnectedState.heartbeat) ∧
    (reconnectedState.loop = .connecting →
      ∃ t, loopStep reachableServer reconnectedState = some t ∧
        t.m.connectCalls = reconnectedState.m.connectCalls ∧
        (reachableServer.openAudioChannel (reconnectedState.m.connectCalls - 1) = .opened →
          t.m.current_reconnect_attempts_ = 0 ∧
          t.m.last_connection_time_ =
            some (reachableServer.now (reconnectedState.m.connectCalls - 1)) ∧
          t.m.connectedCallbacks =
            reconnectedState.m.connectedCallbacks +
              (if reconnectedState.m.on_connected_ then 1 else 0) ∧
          t.connectSuccesses = reconnectedState.connectSuccesses + 1 ∧
          t.loop = .joinHeartbeat ∧ t.heartbeat = reconnectedState.heartbeat ∧
          t.m.heartbeatStarts = reconnectedState.m.heartbeatStarts ∧
          (t.heartbeat = .notRunning →
            ∃ u, loopStep reachableServer t = some u ∧ u.heartbeat = .test ∧
              u.m.heartbeat_thread_joinable = true ∧
              u.m.heartbeatStarts = t.m.heartbeatStarts + 1 ∧
              u.m.connectedCallbacks = t.m.connectedCallbacks ∧
              u.m.current_reconnect_attempts_ = 0 ∧ u.loop = .test)) ∧
        (reachableServer.openAudioChannel (reconnectedState.m.connectCalls - 1) ≠ .opened →
          t.m.current_reconnect_attempts_ =
            reconnectedState.m.current_reconnect_attempts_ + 1 ∧
          t.m.connectedCallbacks = reconnectedState.m.connectedCallbacks ∧
          t.connectSuccesses = reconnectedState.connectSuccesses ∧
          t.m.heartbeatStarts = reconnectedState.m.heartbeatStarts ∧
          t.heartbeat = reconnectedState.heartbeat ∧
          t.m.last_connection_time_ = reconnectedState.m.last_connection_time_ ∧
          t.m.websocket_protocol_ = none ∧
          t.loop ≠ .joinHeartbeat)) ∧
    (reconnectedState.loop = .joinHeartbeat → reconnectedState.heartbeat ≠ .notRunning →
      loopStep reachableServer reconnectedState = none ∧
      (reconnectedState.m.should_connect_ = true → IsConnected reconnectedState.m = true →
        ∀ n, ∃ t, runEvents reachableServer (List.replicate n Event.heartbeat)
            reconnectedState = some t ∧
          t.loop = .joinHeartbeat ∧ t.heartbeat ≠ .notRunning ∧
          loopStep reachableServer t = none ∧
          t.m.heartbeatStarts = reconnectedState.m.heartbeatStarts ∧
          t.m.heartbeatStarts + 1 =
            Manager.new.heartbeatStarts + t.connectSuccesses))) :=
  ⟨fresh_new,
    reachable_runEvents _ _ reconnectEvents _ _ Reachable.init (by decide),
    by decide, by decide, by decide, by decide, by decide, by decide,
    connect_attempt_effects reachableServer Manager.new fresh_new reconnectedState
      (reachable_runEvents _ _ reconnectEvents _ _ Reachable.init (by decide))⟩

end CameraConnection

namespace CamHttp

open Esp32Camera (Bytes strBytes camera_fb_t)

/-! ## The part header and its buffer -/

theorem strBytes_length (s : String) : (strBytes s).length = s.length := by
  simp [strBytes]

theorem toDigitsCore_value_lt (fuel : Nat) :
    ∀ n, n < fuel → n < 10 ^ (Nat.toDigitsCore 10 fuel n []).length := by
  induction fuel with
  | zero => intro n h; omega
  | succ f ih =>
    intro n h
    simp only [Nat.toDigitsCore]
    split
    · rename_i h0
      simp
      omega
    · rename_i h0
      rw [Nat.toDigitsCore_lens_eq]
      have h1 : n / 10 < f := by omega
      have h2 := ih (n / 10) h1
      rw [pow_succ]
      omega

theorem toString_length_ge (n e : Nat) (h : 10 ^ e ≤ n) : e + 1 ≤ (toString n).length := by
  have h1 : (toString n).length = (Nat.toDigitsCore 10 (n + 1) n []).length := by
    simp [toString, Nat.repr, Nat.toDigits]
  have h2 := toDigitsCore_value_lt (n + 1) n (by omega)
  rw [h1]
  by_contra hlt
  have h3 : 10 ^ (Nat.toDigitsCore 10 (n + 1) n []).length ≤ 10 ^ e :=
    Nat.pow_le_pow_right (by decide) (by omega)
  omega

theorem toString_length_le (n e : Nat) (he : 0 < e) (h : n < 10 ^ e) :
    (toString n).length ≤ e :=
  Nat.repr_length n e he h

theorem toString_length_pos (n : Nat) : 1 ≤ (toString n).length := by
  rcases Nat.eq_zero_or_pos n with h | h
  · subst h; decide
  · exact toString_length_ge n 0 (by simpa using h)

theorem part_header_length (len : Nat) :
    (part_header len).length = 55 + (toString (len % 2 ^ 32)).length := by
  have h1 : ("--" ++ boundary ++
      "\r\nContent-Type: image/jpeg\r\nContent-Length: ").length = 51 := by decide
  have h2 : ("\r\n\r\n" : String).length = 4 := by decide
  rw [part_header, strBytes_length, String.length_append, String.length_append, h1, h2]
  omega

theorem part_header_length_le (len : Nat) : (part_header len).length ≤ 65 := by
  have h := toString_length_le (len % 2 ^ 32) 10 (by decide)
    (lt_of_lt_of_le (Nat.mod_lt _ (by decide)) (by decide))
  rw [part_header_length]
  omega

theorem iteration_frame (J k j : Nat) (it : Iteration) (v : LoopVars) :
    (iteration J k it v).1.filter (aboutFrame j) =
      if j = k ∧ it.fb.isSome = true then [.fb_get k, .fb_return k] else [] := by
  unfold iteration send_part
  by_cases hj : j = k
  · subst hj
    cases it.fb with
    | none => simp [aboutFrame]
    | some fb =>
      cases it.frame2jpg <;> cases it.header_ok <;> cases it.payload_ok <;>
        cases it.trailer_ok <;> by_cases hf : fb.format = J <;>
        simp [aboutFrame, hf, List.filter_cons]
  · have hj2 : ¬ k = j := fun h => hj h.symm
    cases it.fb with
    | none => simp [aboutFrame]
    | some fb =>
      cases it.frame2jpg <;> cases it.header_ok <;> cases it.payload_ok <;>
        cases it.trailer_ok <;> by_cases hf : fb.format = J <;>
        simp [aboutFrame, hf, hj, hj2, List.filter_cons]

theorem iteration_buffer (J k j : Nat) (it : Iteration) (v : LoopVars) :
    (iteration J k it v).1.filter (aboutBuffer j) = [] ∨
    (j = k ∧ (iteration J k it v).1.filter (aboutBuffer j) = [.frame2jpg k true, .free k]) := by
  unfold iteration send_part
  by_cases hj : j = k
  · subst hj
    cases it.fb with
    | none => simp [aboutBuffer]
    | some fb =>
      cases it.frame2jpg <;> cases it.header_ok <;> cases it.payload_ok <;>
        cases it.trailer_ok <;> by_cases hf : fb.format = J <;>
        simp [aboutBuffer, hf, List.filter_cons]
  · have hj2 : ¬ k = j := fun h => hj h.symm
    cases it.fb with
    | none => simp [aboutBuffer]
    | some fb =>
      cases it.frame2jpg <;> cases it.header_ok <;> cases it.payload_ok <;>
        cases it.trailer_ok <;> by_cases hf : fb.format = J <;>
        simp [aboutBuffer, hf, hj, hj2, List.filter_cons]

theorem loop_frame_lt (J : Nat) :
    ∀ (its : List Iteration) (k : Nat) (v : LoopVars) (j : Nat), j < k →
      (stream_loop J its k v).filter (aboutFrame j) = [] := by
  intro its
  induction its with
  | nil => intro k v j _; simp [stream_loop]
  | cons it rest ih =>
    intro k v j hj
    simp only [stream_loop]
    split
    · rw [List.filter_append, iteration_frame, if_neg (by omega)]
      split
      · exact ih _ _ _ (by omega)
      · rfl
    · rfl

theorem loop_frame (J : Nat) :
    ∀ (its : List Iteration) (k : Nat) (v : LoopVars) (j : Nat),
      (stream_loop J its k v).filter (aboutFrame j) = [] ∨
      (stream_loop J its k v).filter (aboutFrame j) = [.fb_get j, .fb_return j] := by
  intro its
  induction its with
  | nil => intro k v j; simp [stream_loop]
  | cons it rest ih =>
    intro k v j
    simp only [stream_loop]
    split
    · rw [List.filter_append, iteration_frame]
      by_cases hj : j = k ∧ it.fb.isSome = true
      · rw [if_pos hj]
        right
        split
        · rw [loop_frame_lt J rest (k + 1) _ j (by omega), hj.1]
          rfl
        · rw [hj.1]
          rfl
      · rw [if_neg hj]
        split
        · exact ih _ _ _
        · left; rfl
    · left; rfl

theorem loop_buffer_lt (J : Nat) :
    ∀ (its : List Iteration) (k : Nat) (v : LoopVars) (j : Nat), j < k →
      (stream_loop J its k v).filter (aboutBuffer j) = [] := by
  intro its
  induction its with
  | nil => intro k v j _; simp [stream_loop]
  | cons it rest ih =>
    intro k v j hj
    simp only [stream_loop]
    split
    · rw [List.filter_append]
      rcases iteration_buffer J k j it v with h | h
      · rw [h]
        split
        · exact ih _ _ _ (by omega)
        · rfl
      · omega
    · rfl

theorem loop_buffer (J : Nat) :
    ∀ (its : List Iteration) (k : Nat) (v : LoopVars) (j : Nat),
      (stream_loop J its k v).filter (aboutBuffer j) = [] ∨
      (stream_loop J its k v).filter (aboutBuffer j) = [.frame2jpg j true, .free j] := by
  intro its
  induction its with
  | nil => intro k v j; simp [stream_loop]
  | cons it rest ih =>
    intro k v j
    simp only [stream_loop]
    split
    · rw [List.filter_append]
      rcases iteration_buffer J k j it v with h | h
      · rw [h]
        split
        · exact ih _ _ _
        · left; rfl
      · rw [h.2]
        right
        split
        · rw [loop_buffer_lt J rest (k + 1) _ j (by omega), h.1]
          rfl
        · rw [h.1]
          rfl
    · left; rfl

/-! ## The loop after a failed write -/

theorem iteration_continues (J k : Nat) (it : Iteration) (v : LoopVars)
    (h : (iteration J k it v).2.2 = true) :
    ∀ a ∈ (iteration J k it v).1, (!a.isFailedWrite) = true := by
  revert h
  unfold iteration send_part
  cases it.fb with
  | none => simp [Action.isFailedWrite]
  | some fb =>
    cases it.frame2jpg <;> cases it.header_ok <;> cases it.payload_ok <;>
      cases it.trailer_ok <;> by_cases hf : fb.format = J <;>
      simp [Action.isFailedWrite, hf]

theorem iteration_breaks (J k : Nat) (it : Iteration) (v : LoopVars)
    (h : (iteration J k it v).2.2 = false) :
    afterFailedWrite (iteration J k it v).1 = [] ∨
    afterFailedWrite (iteration J k it v).1 = [.fb_return k] ∨
    afterFailedWrite (iteration J k it v).1 = [.free k] := by
  revert h
  unfold iteration send_part
  cases it.fb with
  | none => simp [Action.isFailedWrite]
  | some fb =>
    cases it.frame2jpg <;> cases it.header_ok <;> cases it.payload_ok <;>
      cases it.trailer_ok <;> by_cases hf : fb.format = J <;>
      simp [Action.isFailedWrite, afterFailedWrite, hf, List.dropWhile]

theorem loop_afterFailedWrite (J : Nat) :
    ∀ (its : List Iteration) (k : Nat) (v : LoopVars),
      afterFailedWrite (stream_loop J its k v) = [] ∨
      ∃ j, afterFailedWrite (stream_loop J its k v) = [.fb_return j] ∨
        afterFailedWrite (stream_loop J its k v) = [.free j] := by
  intro its
  induction its with
  | nil => intro k v; left; rfl
  | cons it rest ih =>
    intro k v
    simp only [stream_loop]
    split
    · cases hc : (iteration J k it v).2.2 with
      | true =>
        simp only [if_true]
        have h := iteration_continues J k it v hc
        rw [afterFailedWrite, List.dropWhile_append_of_pos h]
        exact ih _ _
      | false =>
        simp only [Bool.false_eq_true, if_false, List.append_nil]
        rcases iteration_breaks J k it v hc with h | h | h
        · left; exact h
        · right; exact ⟨k, Or.inl h⟩
        · right; exact ⟨k, Or.inr h⟩
    · left; rfl

theorem afterFailedWrite_suffix (x : Action) (post : List Action)
    (hx : x.isFailedWrite = true) :
    ∀ pre : List Action, post <:+ afterFailedWrite (pre ++ x :: post) := by
  intro pre
  induction pre with
  | nil => simp [afterFailedWrite, List.dropWhile, hx]
  | cons a pre ih =>
    cases ha : a.isFailedWrite with
    | false =>
      have : afterFailedWrite (a :: pre ++ x :: post) = afterFailedWrite (pre ++ x :: post) := by
        simp [afterFailedWrite, List.dropWhile, ha]
      rw [this]
      exact ih
    | true =>
      have : afterFailedWrite (a :: pre ++ x :: post) = pre ++ x :: post := by
        simp [afterFailedWrite, List.dropWhile, ha]
      rw [this]
      exact ⟨pre ++ [x], by simp⟩

/-- C17: in every run of `stream_handler`, for every sequence of answers of
the outside, the calls about the frame of iteration `k` are none or exactly
`esp_camera_fb_get` followed by one `esp_camera_fb_return`; the calls about the
buffer converted in iteration `k` are none or exactly the successful
`frame2jpg` followed by one `free`; and after a write that failed at most one
call follows, the return of the frame or the `free` of the buffer, so no frame
is acquired and nothing is written. -/
theorem stream_releases_exactly_once (J : Nat) (s_streaming camera : Bool)
    (part_buf : Bytes) (its : List Iteration) :
    (∀ k, (stream_handler J s_streaming camera part_buf its).filter (aboutFrame k) = [] ∨
      (stream_handler J s_streaming camera part_buf its).filter (aboutFrame k) =
        [.fb_get k, .fb_return k]) ∧
    (∀ k, (stream_handler J s_streaming camera part_buf its).filter (aboutBuffer k) = [] ∨
      (stream_handler J s_streaming camera part_buf its).filter (aboutBuffer k) =
        [.frame2jpg k true, .free k]) ∧
    (∀ pre post c,
      stream_handler J s_streaming camera part_buf its = pre ++ .send_chunk c false :: post →
      post.length ≤ 1 ∧ ∀ a ∈ post, (∃ k, a = .fb_return k) ∨ (∃ k, a = .free k)) := by
  have hsplit : stream_handler J s_streaming camera part_buf its =
      stream_handler J s_streaming camera part_buf [] ++
        (if s_streaming = true ∧ camera = true then
          stream_loop J its 0 { part_buf := part_buf, empty_count := 0 } else []) := by
    cases s_streaming <;> cases camera <;> simp [stream_handler, stream_loop]
  have hpreF : ∀ k, (stream_handler J s_streaming camera part_buf []).filter (aboutFrame k)
      = [] := by
    intro k
    cases s_streaming <;> cases camera <;>
      simp [stream_handler, stream_loop, aboutFrame, List.filter_cons]
  have hpreB : ∀ k, (stream_handler J s_streaming camera part_buf []).filter (aboutBuffer k)
      = [] := by
    intro k
    cases s_streaming <;> cases camera <;>
      simp [stream_handler, stream_loop, aboutBuffer, List.filter_cons]
  have hpreW : ∀ a ∈ stream_handler J s_streaming camera part_buf [],
      (!a.isFailedWrite) = true := by
    cases s_streaming <;> cases camera <;>
      simp [stream_handler, stream_loop, Action.isFailedWrite]
  refine ⟨fun k => ?_, fun k => ?_, fun pre post c h => ?_⟩
  · rw [hsplit, List.filter_append, hpreF, List.nil_append]
    split
    · exact loop_frame J its 0 _ k
    · left; rfl
  · rw [hsplit, List.filter_append, hpreB, List.nil_append]
    split
    · exact loop_buffer J its 0 _ k
    · left; rfl
  · have hsuf := afterFailedWrite_suffix (.send_chunk c false) post rfl pre
    rw [← h, hsplit, afterFailedWrite, List.dropWhile_append_of_pos hpreW] at hsuf
    have hcases : ∀ l : List Action, post <:+ l →
        (l = [] ∨ ∃ j, l = [.fb_return j] ∨ l = [.free j]) →
        post.length ≤ 1 ∧ ∀ a ∈ post, (∃ k, a = .fb_return k) ∨ (∃ k, a = .free k) := by
      intro l hl hshape
      have hlen := hl.length_le
      have hsub := hl.subset
      rcases hshape with h0 | ⟨j, h1 | h1⟩
      · subst h0
        simp at hlen
        simp [hlen]
      · subst h1
        refine ⟨by simpa using hlen, fun a ha => ?_⟩
        have := hsub ha
        simp at this
        exact Or.inl ⟨j, this⟩
      · subst h1
        refine ⟨by simpa using hlen, fun a ha => ?_⟩
        have := hsub ha
        simp at this
        exact Or.inr ⟨j, this⟩
    split at hsuf
    · exact hcases _ hsuf (loop_afterFailedWrite J its 0 _)
    · exact hcases _ hsuf (Or.inl rfl)

/-- The runs of the handler on `exampleIterations` and on `conversionFails`:
the payload write of the third turn fails, the frame is returned and the
fourth turn is not taken; a failed conversion returns the frame, answers 500
and ends the loop. -/
theorem stream_example_runs :
    stream_handler 4 true true (List.replicate 64 0) exampleIterations =
      [.set_type "multipart/x-mixed-replace; boundary=frame",
       .set_hdr "Cache-Control" "no-cache, no-store, must-revalidate",
       .set_hdr "Pragma" "no-cache", .set_hdr "Connection" "close",
       .fb_get_null, .vTaskDelay,
       .fb_get 1, .frame2jpg 1 true, .fb_return 1,
       .send_chunk (some (strBytes
          "--frame\r\nContent-Type: image/jpeg\r\nContent-Length: 4\r\n\r\n")) true,
       .send_chunk (some [255, 216, 255, 217]) true,
       .send_chunk (some (strBytes "\r\n")) true,
       .free 1, .vTaskDelay,
       .fb_get 2,
       .send_chunk (some (strBytes
          "--frame\r\nContent-Type: image/jpeg\r\nContent-Length: 4\r\n\r\n")) true,
       .send_chunk (some [255, 216, 255, 217]) false,
       .fb_return 2] ∧
    stream_handler 4 true true (List.replicate 64 0) conversionFails =
      [.set_type "multipart/x-mixed-replace; boundary=frame",
       .set_hdr "Cache-Control" "no-cache, no-store, must-revalidate",
       .set_hdr "Pragma" "no-cache", .set_hdr "Connection" "close",
       .fb_get 0, .frame2jpg 0 false, .fb_return 0, .send_500] := by
  constructor <;> decide

end CamHttp
